import Mathlib

/-! Nanocall read summarisation (`Fast5_Summary.hpp`)

A shallow embedding of `Fast5_Summary<Float_Type, Kmer_Size>`.

Conventions of the embedding:

* `Float_Type` and `double` values are rationals: every arithmetic operation and
  comparison is the exact one (no rounding, no NaN).
* `unsigned` is a natural number below `2 ^ 32`; sums and differences that the
  source computes in `unsigned` are reduced modulo `2 ^ 32`, those it computes
  in `size_t` modulo `2 ^ 64`.  Loop counters that stay below the size of the
  vector they index are plain naturals.
* `while`/`for` loops are recursive functions on a fuel argument; the callers
  pass a fuel that the loop cannot use up.
* The signal source (`fast5::File`), the pore-model dictionary and
  `alg::mean_stdv_of` are not part of the file; they are inputs of the model.
-/

namespace Nanocall

/-! ## Machine arithmetic -/

/-- Conversion to `unsigned`: reduction modulo `2 ^ 32`. -/
def u32 (n : Nat) : Nat := n % 4294967296

/-- Difference of two `unsigned` values, modulo `2 ^ 32`. -/
def u32_sub (a b : Nat) : Nat := (a % 4294967296 + 4294967296 - b % 4294967296) % 4294967296

/-- Difference of two `size_t` values, modulo `2 ^ 64`. -/
def u64_sub (a b : Nat) : Nat :=
  (a % 18446744073709551616 + 18446744073709551616 - b % 18446744073709551616)
    % 18446744073709551616

/-! ## Data model -/

/-- The raw event of the signal source, `fast5::EventDetection_Event_Entry`:
`mean` and `stdv` are floating point, `start` and `length` are device ticks. -/
structure EventDetection_Event_Entry where
  mean : ℚ
  stdv : ℚ
  start : ℤ
  length : ℤ
deriving DecidableEq, Repr

/-- The calibrated event, `Event<Float_Type, Kmer_Size>`, without the logarithm
fields that `update_logs` derives from the ones kept here. -/
structure Event where
  mean : ℚ
  corrected_mean : ℚ
  stdv : ℚ
  start : ℚ
  length : ℚ
deriving DecidableEq, Repr

/-- The process-wide settings, one field per static accessor of the class;
`trim_margins_k` is `trim_margins()[k]`: after start, before end, before hairpin
start, after hairpin end. -/
structure Config where
  min_ed_events : Nat
  max_ed_events : Nat
  abasic_level_top_percent : ℚ
  abasic_level_top_offset : ℚ
  hairpin_island_window_size : Nat
  hairpin_island_window_load : Nat
  template_only : Nat
  trim_margins_0 : Nat
  trim_margins_1 : Nat
  trim_margins_2 : Nat
  trim_margins_3 : Nat

/-- The initial values of the static settings. -/
def Config.initial : Config := ⟨10, 100000, 1, 0, 10, 5, 0, 50, 50, 50, 50⟩

/-- Every setting of type `unsigned` is below `2 ^ 32`. -/
def Config.in_range (cfg : Config) : Prop :=
  cfg.min_ed_events < 4294967296 ∧ cfg.max_ed_events < 4294967296 ∧
  cfg.hairpin_island_window_size < 4294967296 ∧ cfg.hairpin_island_window_load < 4294967296 ∧
  cfg.template_only < 4294967296 ∧
  cfg.trim_margins_0 < 4294967296 ∧ cfg.trim_margins_1 < 4294967296 ∧
  cfg.trim_margins_2 < 4294967296 ∧ cfg.trim_margins_3 < 4294967296

instance (cfg : Config) : Decidable cfg.in_range := by
  unfold Config.in_range; infer_instance

/-- The field `strand_bounds`, a `std::array<unsigned, 4>`:
template start, template end, complement start, complement end. -/
structure Strand_Bounds where
  s0 : Nat
  s1 : Nat
  s2 : Nat
  s3 : Nat
deriving DecidableEq, Repr

/-- Read access `strand_bounds[k]`. -/
def Strand_Bounds.get (sb : Strand_Bounds) (k : Nat) : Nat :=
  match k with
  | 0 => sb.s0
  | 1 => sb.s1
  | 2 => sb.s2
  | _ => sb.s3

/-- The invariant on the strand bounds for `n` raw events: each pair is empty
(`end ≤ start`) or a half-open range that ends within the raw events. -/
def Strand_Bounds.valid (sb : Strand_Bounds) (n : Nat) : Prop :=
  (sb.s1 ≤ sb.s0 ∨ sb.s1 ≤ n) ∧ (sb.s3 ≤ sb.s2 ∨ sb.s3 ≤ n)

instance (sb : Strand_Bounds) (n : Nat) : Decidable (sb.valid n) := by
  unfold Strand_Bounds.valid; infer_instance

/-! ## Island finders -/

/-- The inner loop of `find_islands_5_consec`:
`while (j < size and ed_events()[j].mean >= abasic_level) ++j;`. -/
def find_islands_5_consec.scan (ed : List EventDetection_Event_Entry) (abasic_level : ℚ) :
    Nat → Nat → Nat
  | 0, j => j
  | fuel + 1, j =>
    match ed[j]? with
    | none => j
    | some e =>
      if e.mean ≥ abasic_level then find_islands_5_consec.scan ed abasic_level fuel (j + 1)
      else j

/-- The outer loop of `find_islands_5_consec`, from index `i` with the islands
found so far. -/
def find_islands_5_consec.loop (ed : List EventDetection_Event_Entry) (abasic_level : ℚ) :
    Nat → Nat → List (Nat × Nat) → List (Nat × Nat)
  | 0, _, islands => islands
  | fuel + 1, i, islands =>
    match ed[i]? with
    | none => islands
    | some e =>
      if e.mean ≥ abasic_level then
        let j := find_islands_5_consec.scan ed abasic_level ed.length (i + 1)
        find_islands_5_consec.loop ed abasic_level fuel (j + 1)
          (if j - i ≥ 5 then islands ++ [(i, j)] else islands)
      else find_islands_5_consec.loop ed abasic_level fuel (i + 1) islands

/-- The function `find_islands_5_consec`: islands of at least 5 consecutive events
at high level.  The index grows in every round, so `ed.length` rounds are enough. -/
def find_islands_5_consec (ed : List EventDetection_Event_Entry) (abasic_level : ℚ) :
    List (Nat × Nat) :=
  find_islands_5_consec.loop ed abasic_level ed.length 0 []

/-! ## Strand detection -/

/-- One round of the merge loop of `detect_strands` at index `i`: `none` when the
loop condition `i < islands.size()` fails, otherwise the next index and list. -/
def merge_islands.step (radius : Nat) (i : Nat) (islands : List (Nat × Nat)) :
    Option (Nat × List (Nat × Nat)) :=
  match islands[i - 1]?, islands[i]? with
  | some a, some b =>
    if u32 (a.2 + radius) ≥ b.1 then
      some (1, (islands.set (i - 1) (a.1, b.2)).eraseIdx i)
    else some (i + 1, islands)
  | _, _ => none

/-- The merge loop of `detect_strands`: `for (i = 1; i < islands.size(); ++i)`,
where a merge sets `i = 0` before the increment. -/
def merge_islands.loop (radius : Nat) : Nat → Nat → List (Nat × Nat) → List (Nat × Nat)
  | 0, _, islands => islands
  | fuel + 1, i, islands =>
    match merge_islands.step radius i islands with
    | none => islands
    | some (i2, islands2) => merge_islands.loop radius fuel i2 islands2

/-- The merge pass of `detect_strands` with radius
`max(trim_margins()[2], trim_margins()[3])`.  A round either removes an island or
advances the index, so `size * size + 1` rounds are enough. -/
def merge_islands (cfg : Config) (islands : List (Nat × Nat)) : List (Nat × Nat) :=
  merge_islands.loop (max cfg.trim_margins_2 cfg.trim_margins_3)
    (islands.length * islands.length + 1) 1 islands

/-- The lambda `dist_to_middle` of `detect_strands`; `size` is `ed_events().size()`. -/
def dist_to_middle (size : Nat) (p : Nat × Nat) : Nat :=
  min (u32 ((p.1 : ℤ) - (size : ℤ) / 2).natAbs) (u32 ((p.2 : ℤ) - (size : ℤ) / 2).natAbs)

/-- The call `alg::min_of(islands, dist_to_middle)`: the first element whose key is
the least, `none` on an empty range (where the source has returned before the
call).  The header `alg.hpp` is not part of the file; the first-minimum rule is
the one of `std::min_element`. -/
def min_of {α : Type} (f : α → Nat) : List α → Option α
  | [] => none
  | x :: xs => some (xs.foldl (fun best y => if f y < f best then y else best) x)

/-- The function `detect_strands`, on the raw events, the abasic level and the
bounds set by the caller; the result is the new value of `strand_bounds`. -/
def detect_strands (cfg : Config) (ed : List EventDetection_Event_Entry) (abasic_level : ℚ)
    (strand_bounds : Strand_Bounds) : Strand_Bounds :=
  let islands := merge_islands cfg (find_islands_5_consec ed abasic_level)
  match min_of (dist_to_middle ed.length) islands, islands.head?, islands.getLast? with
  | some it, some first, some last =>
    if dist_to_middle ed.length it > ed.length / 6 then strand_bounds
    else
      let s0 := cfg.trim_margins_0
      let s0 := if first.1 < u32 (cfg.trim_margins_0 + cfg.trim_margins_2)
        then max s0 first.2 else s0
      let s1 := u32_sub it.1 cfg.trim_margins_2
      let s2 := u32 (it.1 + cfg.trim_margins_3)
      let s3 := u32 (u64_sub ed.length cfg.trim_margins_1)
      let s3 := if last.2 > u64_sub ed.length (u32 (cfg.trim_margins_3 + cfg.trim_margins_1))
        then min s3 last.1 else s3
      ⟨s0, s1, s2, s3⟩
  | _, _, _ => strand_bounds

/-! ## Abasic level and event filter -/

/-- The function `detect_abasic_level`: the sorted means read at index
`(double)size * (1.0 - top_percent / 100.0)` (converted to an index by dropping
the fraction), plus the offset.  `none` stands for undefined behaviour: the
conversion of a value `≤ -1` to an index, or a read past the end of `s`. -/
def detect_abasic_level (cfg : Config) (ed : List EventDetection_Event_Entry) : Option ℚ :=
  let s := (ed.map (fun e => e.mean)).insertionSort (fun a b => a ≤ b)
  let x : ℚ := (s.length : ℚ) * (1 - cfg.abasic_level_top_percent / 100)
  if x ≤ -1 then none
  else
    match s[(Int.floor x).toNat]? with
    | none => none
    | some v => some (v + cfg.abasic_level_top_offset)

/-- The function `filter_ed_event`: `true` when the event is kept. -/
def filter_ed_event (e : EventDetection_Event_Entry) (abasic_level : ℚ) : Bool :=
  if e.mean ≥ abasic_level then false
  else if e.stdv > 4 then false
  else true

/-! ## External collaborators -/

/-- What the calls on a `fast5::File` give for one file.  A call that can throw
`hdf5_tools::Exception` is an `Option`, with `none` for the throw. -/
structure Fast5_File where
  /-- `false` when `open` throws (for an open handle: `is_open`). -/
  open_ok : Bool
  have_sampling_rate : Bool
  sampling_rate : Option ℚ
  have_eventdetection_events : Bool
  /-- The `read_id` of `get_eventdetection_event_params`. -/
  eventdetection_event_params_read_id : Option String
  eventdetection_events : Option (List EventDetection_Event_Entry)
  basecall_group_list : Option (List String)

/-- What a `Pore_Model` publishes: `mean()`, `stdv()` and `strand()`
(0 template, 1 complement, 2 either). -/
structure Pore_Model where
  mean : ℚ
  stdv : ℚ
  strand : Nat
deriving DecidableEq, Repr

/-- The dictionary `Pore_Model_Dict`, a `std::map` from model name to model:
the list of its entries in iteration order. -/
abbrev Pore_Model_Dict := List (String × Pore_Model)

/-- The record `Pore_Model_Parameters`; the six fields are those of the table header. -/
structure Pore_Model_Parameters where
  scale : ℚ
  shift : ℚ
  drift : ℚ
  var : ℚ
  scale_sd : ℚ
  var_sd : ℚ
deriving DecidableEq, Repr

/-- The record `State_Transition_Parameters`. -/
structure State_Transition_Parameters where
  p_stay : ℚ
  p_skip : ℚ
deriving DecidableEq, Repr

/-- The parts of the headers that are not in the file: `alg::mean_stdv_of` (on the
list of values its second argument extracts) and the default-constructed records. -/
structure Externals where
  mean_stdv_of : List ℚ → ℚ × ℚ
  pm_params_default : Pore_Model_Parameters
  st_params_default : State_Transition_Parameters

/-- Lookup in a `std::map`, kept as a list of entries with distinct keys. -/
def map_find {κ ν : Type} [DecidableEq κ] : List (κ × ν) → κ → Option ν
  | [], _ => none
  | (k2, v) :: rest, k => if k2 = k then some v else map_find rest k

/-- The assignment `m[k] = v` on a `std::map`. -/
def map_set {κ ν : Type} [DecidableEq κ] (m : List (κ × ν)) (k : κ) (v : ν) : List (κ × ν) :=
  (k, v) :: m.filter (fun p => decide (p.1 ≠ k))

/-! ## The read summary -/

/-- The data members of `Fast5_Summary`.  A `unique_ptr` is an `Option`;
`preferred_model_k` is `preferred_model[k]`. -/
structure Fast5_Summary where
  file_name : String
  base_file_name : String
  read_id : String
  bc_grp : String
  preferred_model_0 : String × String
  preferred_model_1 : String × String
  preferred_model_2 : String × String
  pm_params_m : List ((String × String) × Pore_Model_Parameters)
  st_params_m :
    List ((String × String) × (State_Transition_Parameters × State_Transition_Parameters))
  strand_bounds : Strand_Bounds
  time_length : ℚ × ℚ
  num_ed_events : Nat
  sampling_rate : ℚ
  abasic_level : ℚ
  valid : Bool
  scale_strands_together : Bool
  ed_events_ptr : Option (List EventDetection_Event_Entry)
  events_ptr : Option (List Event) × Option (List Event)
deriving DecidableEq

/-- How a call ends. -/
inductive Outcome (α : Type) where
  /-- The call returns, leaving this state. -/
  | returned : α → Outcome α
  /-- An exception leaves the call. -/
  | thrown : Outcome α
  /-- The call ends the process with `std::exit(EXIT_FAILURE)`. -/
  | exited : Outcome α
  /-- The call has undefined behaviour: an element access outside a vector, or a
  failed `assert`. -/
  | undefined : Outcome α
deriving DecidableEq

/-- The state a call leaves when it returns. -/
def Outcome.state? {α : Type} : Outcome α → Option α
  | Outcome.returned s => some s
  | _ => none

/-- The method `drop_events`. -/
def drop_events (self : Fast5_Summary) : Fast5_Summary :=
  { self with events_ptr := (none, none) }

/-- The call `ed_events().resize(n)`. -/
def resize (evs : List EventDetection_Event_Entry) (n : Nat) : List EventDetection_Event_Entry :=
  evs.take n ++ List.replicate (n - evs.length) ⟨0, 0, 0, 0⟩

/-- The method `load_ed_events`; `none` when the signal source throws. -/
def load_ed_events (cfg : Config) (f : Fast5_File) (self : Fast5_Summary) :
    Option Fast5_Summary :=
  match f.eventdetection_events with
  | none => none
  | some evs =>
    let num :=
      if self.num_ed_events = 0 then
        (if evs.length > cfg.max_ed_events then cfg.max_ed_events else u32 evs.length)
      else self.num_ed_events
    some { self with ed_events_ptr := some (resize evs num), num_ed_events := num }

/-- The calibrated event that `load_events` builds from the raw event `e`, with the
raw event `o` as the origin of time. -/
def calibrate (e o : EventDetection_Event_Entry) (sampling_rate : ℚ) : Event :=
  ⟨e.mean, e.mean, e.stdv, ((e.start - o.start : ℤ) : ℚ) / sampling_rate,
    (e.length : ℚ) / sampling_rate⟩

/-- The inner loop of `load_events` for one strand, from index `j`, with `fuel` the
number of indices left before the end of the range; `origin` is the index
`strand_bounds[scale_strands_together ? 0 : 2 * st]`.  `none` stands for a read
outside `ed_events()`. -/
def load_events.loop (ed : List EventDetection_Event_Entry) (abasic_level sampling_rate : ℚ)
    (origin : Nat) : Nat → Nat → Option (List Event)
  | 0, _ => some []
  | fuel + 1, j =>
    match ed[j]? with
    | none => none
    | some e =>
      if filter_ed_event e abasic_level then
        match ed[origin]? with
        | none => none
        | some o =>
          (load_events.loop ed abasic_level sampling_rate origin fuel (j + 1)).map
            (fun rest => calibrate e o sampling_rate :: rest)
      else load_events.loop ed abasic_level sampling_rate origin fuel (j + 1)

/-- The body of the loop over `st` in `load_events`: the calibrated sequence of
strand `st`. -/
def load_events.strand (self : Fast5_Summary) (ed : List EventDetection_Event_Entry)
    (st : Nat) : Option (List Event) :=
  load_events.loop ed self.abasic_level self.sampling_rate
    (self.strand_bounds.get (if self.scale_strands_together then 0 else 2 * st))
    (self.strand_bounds.get (2 * st + 1) - self.strand_bounds.get (2 * st))
    (self.strand_bounds.get (2 * st))

/-- The method `load_events`; `f` is the file behind `f_p`, or the one the method
opens under `file_name` when it has to load the raw events. -/
def load_events (cfg : Config) (f : Fast5_File) (self : Fast5_Summary) :
    Outcome Fast5_Summary :=
  if self.valid = false then Outcome.undefined
  else
    let self := drop_events self
    if self.num_ed_events = 0 then Outcome.returned self
    else
      let must_load_ed_events := self.ed_events_ptr.isNone
      let loaded : Option Fast5_Summary :=
        if must_load_ed_events then
          (if f.open_ok then load_ed_events cfg f self else none)
        else some self
      match loaded with
      | none => Outcome.thrown
      | some self =>
        match self.ed_events_ptr with
        | none => Outcome.undefined
        | some ed =>
          match load_events.strand self ed 0, load_events.strand self ed 1 with
          | some e0, some e1 =>
            Outcome.returned { self with
              events_ptr := (some e0, some e1)
              ed_events_ptr := if must_load_ed_events then none else self.ed_events_ptr }
          | _, _ => Outcome.undefined

/-! ## Strings -/

/-- The call `s.find_last_of(c)`: the last position of `c` in `s`, `none` for `npos`. -/
def find_last_of (s : List Char) (c : Char) : Option Nat :=
  (List.range s.length).reverse.find? (fun k => decide (s[k]? = some c))

/-- The call `s.substr(pos)`: the characters from `pos` on; `none` when the call
throws `std::out_of_range`, which it does for `pos > s.size()`. -/
def substr (s : List Char) (pos : Nat) : Option (List Char) :=
  if pos > s.length then none else some (s.drop pos)

/-- The first statements of `summarize` on the file name: the value of
`base_file_name`, or `none` when `substr` throws. -/
def summarize.base_file_name (fn : String) : Option String :=
  let file_name := fn.data
  let base : Option (List Char) :=
    match find_last_of file_name '/' with
    | some pos => substr file_name (pos + 1)
    | none => some file_name
  match base with
  | none => none
  | some base =>
    match substr base (u64_sub base.length 6) with
    | none => none
    | some tail =>
      if tail = ".fast5".data then some (String.mk (base.take (u64_sub base.length 6)))
      else some (String.mk base)

/-- The text of `tmp << std::setw(3) << std::setfill('0') << i`. -/
def format_tag (i : Nat) : String :=
  String.mk (List.replicate (3 - (Nat.toDigits 10 i).length) '0' ++ Nat.toDigits 10 i)

/-- The constant `bc_grp_prefix` of `summarize`. -/
def bc_grp_prefix_str : String := "Nanocall_"

/-- The set `used_tags` of `summarize`: for each group name that is longer than
the constant and starts with it, the rest of the name. -/
def summarize.used_tags (bc_grp_l : List String) : List String :=
  bc_grp_l.filterMap (fun g =>
    if g.length ≤ bc_grp_prefix_str.length then none
    else if bc_grp_prefix_str.data.isPrefixOf g.data
      then some (String.mk (g.data.drop bc_grp_prefix_str.length))
    else none)

/-! ## Summarisation -/

/-- The loop of `summarize` that sets `time_length`; `none` stands for
`rbegin()` taken on an empty sequence. -/
def summarize.time_length (cfg : Config) (init : ℚ × ℚ) (e0 e1 : List Event) : Option (ℚ × ℚ) :=
  let t0 : Option ℚ :=
    if e0.length < cfg.min_ed_events then some init.1
    else e0.getLast?.map (fun e => e.start + e.length)
  let t1 : Option ℚ :=
    if e1.length < cfg.min_ed_events then some init.2
    else e1.getLast?.map (fun e => e.start + e.length)
  match t0, t1 with
  | some a, some b => some (a, b)
  | _, _ => none

/-- The branch `if (scale_strands_together)` of `summarize`: one entry for every
pair of a model of strand 0 or 2 and a model of strand 1 or 2. -/
def summarize.scale_together (env : Externals) (models : Pore_Model_Dict)
    (e0 e1 : List Event) (self : Fast5_Summary) : Fast5_Summary :=
  let r0 := env.mean_stdv_of (e0.map (fun ev => ev.mean))
  let r1 := env.mean_stdv_of (e1.map (fun ev => ev.mean))
  models.foldl (fun s p0 =>
    if p0.2.strand = 0 ∨ p0.2.strand = 2 then
      models.foldl (fun s p1 =>
        if p1.2.strand = 1 ∨ p1.2.strand = 2 then
          let m_name : String × String := (p0.1, p1.1)
          let scale := (r0.2 / p0.2.stdv + r1.2 / p1.2.stdv) / 2
          let shift := (r0.1 - scale * p0.2.mean + r1.1 - scale * p1.2.mean) / 2
          { s with
            pm_params_m := map_set s.pm_params_m m_name
              { env.pm_params_default with scale := scale, shift := shift }
            st_params_m := map_set s.st_params_m m_name
              (env.st_params_default, env.st_params_default) }
        else s) s
    else s) self

/-- The body of the loop over `st` in the branch `else` of `summarize`, for strand
`st` with calibrated sequence `ev`. -/
def summarize.scale_strand (cfg : Config) (env : Externals) (models : Pore_Model_Dict)
    (st : Nat) (ev : List Event) (self : Fast5_Summary) : Fast5_Summary :=
  if ev.length < cfg.min_ed_events then self
  else
    let r := env.mean_stdv_of (ev.map (fun e => e.mean))
    models.foldl (fun s p =>
      if p.2.strand = st ∨ p.2.strand = 2 then
        let m_name : String × String := if st = 0 then (p.1, "") else ("", p.1)
        let scale := r.2 / p.2.stdv
        let shift := r.1 - scale * p.2.mean
        let old := (map_find s.st_params_m m_name).getD
          (env.st_params_default, env.st_params_default)
        { s with
          pm_params_m := map_set s.pm_params_m m_name
            { env.pm_params_default with scale := scale, shift := shift }
          st_params_m := map_set s.st_params_m m_name
            (if st = 0 then (env.st_params_default, old.2) else (old.1, env.st_params_default)) }
      else s) self

/-- The last part of the `try` block of `summarize`: the choice of `bc_grp`. -/
def summarize.select_bc_grp (bc_grp_l : List String) (self : Fast5_Summary) :
    Outcome Fast5_Summary :=
  let used_tags := summarize.used_tags bc_grp_l
  let self :=
    match (List.range 1000).find? (fun i => decide (format_tag i ∉ used_tags)) with
    | some i => { self with bc_grp := bc_grp_prefix_str ++ format_tag i }
    | none => self
  if self.bc_grp = "" then Outcome.exited else Outcome.returned self

/-- The handler `catch (hdf5_tools::Exception&)` of `summarize`. -/
def summarize.on_exception (self : Fast5_Summary) : Fast5_Summary :=
  { self with num_ed_events := 0 }

/-- The statements `strand_bounds = ...; if (not template_only()) detect_strands();`
of `summarize`: the value of `strand_bounds` after them. -/
def summarize.strand_bounds (cfg : Config) (ed : List EventDetection_Event_Entry)
    (num_ed_events : Nat) (abasic_level : ℚ) : Strand_Bounds :=
  let strand_bounds : Strand_Bounds :=
    ⟨cfg.trim_margins_0, u32_sub num_ed_events cfg.trim_margins_1, 0, 0⟩
  if cfg.template_only = 0 then detect_strands cfg ed abasic_level strand_bounds
  else strand_bounds

/-- The value that `summarize` assigns to `scale_strands_together`. -/
def summarize.scale_strands_together (cfg : Config) (sst : Bool) (sb : Strand_Bounds) : Bool :=
  sst && decide (u32_sub sb.s1 sb.s0 ≥ cfg.min_ed_events)
    && decide (u32_sub sb.s3 sb.s2 ≥ cfg.min_ed_events)

/-- The part `compute initial model scalings` of `summarize`, on the calibrated
sequences `e0` and `e1`. -/
def summarize.model_scalings (cfg : Config) (env : Externals) (models : Pore_Model_Dict)
    (e0 e1 : List Event) (self : Fast5_Summary) : Fast5_Summary :=
  if self.scale_strands_together then summarize.scale_together env models e0 e1 self
  else
    summarize.scale_strand cfg env models 1 e1 (summarize.scale_strand cfg env models 0 e0 self)

/-- The part of the `try` block of `summarize` from the strand detection on, with
the raw events `ed` loaded and the abasic level set. -/
def summarize.strands (cfg : Config) (env : Externals) (models : Pore_Model_Dict) (sst : Bool)
    (f : Fast5_File) (ed : List EventDetection_Event_Entry) (self : Fast5_Summary) :
    Outcome Fast5_Summary :=
  let self := { self with
    strand_bounds := summarize.strand_bounds cfg ed self.num_ed_events self.abasic_level }
  if self.strand_bounds.s1 ≤ self.strand_bounds.s0 then
    Outcome.returned { self with num_ed_events := 0 }
  else
    let self := { self with
      scale_strands_together := summarize.scale_strands_together cfg sst self.strand_bounds }
    match load_events cfg f self with
    | Outcome.returned self =>
      match self.events_ptr with
      | (some e0, some e1) =>
        match summarize.time_length cfg self.time_length e0 e1 with
        | none => Outcome.undefined
        | some tl =>
          let self := summarize.model_scalings cfg env models e0 e1
            { self with time_length := tl }
          match f.basecall_group_list with
          | none => Outcome.returned (summarize.on_exception self)
          | some bc_grp_l => summarize.select_bc_grp bc_grp_l self
      | _ => Outcome.undefined
    | Outcome.thrown => Outcome.thrown
    | Outcome.exited => Outcome.exited
    | Outcome.undefined => Outcome.undefined

/-- The `try` block of `summarize` inside `do ... while (false)`, handler
included: the state with which control reaches the statements after the loop. -/
def summarize.try_block (cfg : Config) (env : Externals) (models : Pore_Model_Dict) (sst : Bool)
    (f : Fast5_File) (self : Fast5_Summary) : Outcome Fast5_Summary :=
  if f.open_ok = false then Outcome.returned (summarize.on_exception self)
  else if f.have_sampling_rate = false then Outcome.returned self
  else
    match f.sampling_rate with
    | none => Outcome.returned (summarize.on_exception self)
    | some rate =>
      let self := { self with sampling_rate := rate }
      if rate < 1000 ∨ rate > 10000 then Outcome.returned self
      else if f.have_eventdetection_events = false then Outcome.returned self
      else
        match f.eventdetection_event_params_read_id with
        | none => Outcome.returned (summarize.on_exception self)
        | some ed_read_id =>
          let self := { self with read_id := if ed_read_id ≠ "" then ed_read_id else self.read_id }
          match load_ed_events cfg f self with
          | none => Outcome.returned (summarize.on_exception self)
          | some self =>
            match self.ed_events_ptr with
            | none => Outcome.undefined
            | some ed =>
              if self.num_ed_events
                  < u32 (cfg.trim_margins_0 + cfg.trim_margins_1 + cfg.min_ed_events) then
                Outcome.returned { self with num_ed_events := 0 }
              else
                match detect_abasic_level cfg ed with
                | none => Outcome.undefined
                | some level =>
                  let self := { self with abasic_level := level }
                  if level ≤ 1 then Outcome.returned { self with num_ed_events := 0 }
                  else summarize.strands cfg env models sst f ed self

/-- The first assignments of `summarize`, with `base` the value computed for
`base_file_name`. -/
def summarize.reset_fields (fn base : String) (self : Fast5_Summary) : Fast5_Summary :=
  { self with
    valid := true
    file_name := fn
    base_file_name := base
    read_id := base
    strand_bounds := ⟨0, 0, 0, 0⟩
    time_length := (0, 0)
    num_ed_events := 0
    abasic_level := 0 }

/-- The statements of `summarize` after the loop, `drop_events(); ed_events_ptr.reset();`,
reached when the `try` block has not ended the call. -/
def summarize.after_loop (o : Outcome Fast5_Summary) : Outcome Fast5_Summary :=
  match o with
  | Outcome.returned self => Outcome.returned { drop_events self with ed_events_ptr := none }
  | Outcome.thrown => Outcome.thrown
  | Outcome.exited => Outcome.exited
  | Outcome.undefined => Outcome.undefined

/-- The method `summarize(fn, models, sst)` on the object `self`, with `f` the
file that `fn` names. -/
def summarize (cfg : Config) (env : Externals) (fn : String) (models : Pore_Model_Dict)
    (sst : Bool) (f : Fast5_File) (self : Fast5_Summary) : Outcome Fast5_Summary :=
  match summarize.base_file_name fn with
  | none => Outcome.thrown
  | some base =>
    summarize.after_loop
      (summarize.try_block cfg env models sst f (summarize.reset_fields fn base self))

/-- The facts along a run of `summarize` that returns the object `s2` with the read
accepted (`num_ed_events > 0`): `evs` are the raw events of the signal source and
`e0`, `e1` the calibrated sequences of the two strands, as loaded during the run. -/
structure Accepted_Run (cfg : Config) (env : Externals) (fn : String)
    (models : Pore_Model_Dict) (sst : Bool) (f : Fast5_File) (s0 s2 : Fast5_Summary)
    (evs : List EventDetection_Event_Entry) (e0 e1 : List Event) : Prop where
  base_name : summarize.base_file_name fn = some s2.base_file_name
  file_open : f.open_ok = true
  rate_present : f.have_sampling_rate = true
  rate_value : f.sampling_rate = some s2.sampling_rate
  rate_range : ¬ (s2.sampling_rate < 1000 ∨ s2.sampling_rate > 10000)
  events_present : f.have_eventdetection_events = true
  read_name : ∃ rid, f.eventdetection_event_params_read_id = some rid ∧
    s2.read_id = if rid ≠ "" then rid else s2.base_file_name
  events_value : f.eventdetection_events = some evs
  num_value : s2.num_ed_events
    = if evs.length > cfg.max_ed_events then cfg.max_ed_events else u32 evs.length
  num_enough : ¬ s2.num_ed_events
    < u32 (cfg.trim_margins_0 + cfg.trim_margins_1 + cfg.min_ed_events)
  num_pos : s2.num_ed_events ≠ 0
  level_value : detect_abasic_level cfg (resize evs s2.num_ed_events) = some s2.abasic_level
  level_high : ¬ s2.abasic_level ≤ 1
  bounds_value : s2.strand_bounds
    = summarize.strand_bounds cfg (resize evs s2.num_ed_events) s2.num_ed_events s2.abasic_level
  template_present : ¬ s2.strand_bounds.s1 ≤ s2.strand_bounds.s0
  together_value : s2.scale_strands_together
    = summarize.scale_strands_together cfg sst s2.strand_bounds
  strand_0 : load_events.strand s2 (resize evs s2.num_ed_events) 0 = some e0
  strand_1 : load_events.strand s2 (resize evs s2.num_ed_events) 1 = some e1
  time_value : summarize.time_length cfg (0, 0) e0 e1 = some s2.time_length
  scalings : ∃ s1 : Fast5_Summary, s1.pm_params_m = s0.pm_params_m ∧
    s1.st_params_m = s0.st_params_m ∧
    s1.scale_strands_together = s2.scale_strands_together ∧
    s2.pm_params_m = (summarize.model_scalings cfg env models e0 e1 s1).pm_params_m ∧
    s2.st_params_m = (summarize.model_scalings cfg env models e0 e1 s1).st_params_m
  groups : ∃ l, f.basecall_group_list = some l ∧ s2.bc_grp ≠ "" ∧
    s2.bc_grp =
      (match (List.range 1000).find?
          (fun i => decide (format_tag i ∉ summarize.used_tags l)) with
        | some i => bc_grp_prefix_str ++ format_tag i
        | none => s0.bc_grp)
  valid_set : s2.valid = true
  name_set : s2.file_name = fn
  buffers_dropped : s2.events_ptr = (none, none) ∧ s2.ed_events_ptr = none

/-! ## The distance of the specification -/

/-- The absolute difference `|a - b|` of two naturals. -/
def abs_diff (a b : Nat) : Nat := if a ≤ b then b - a else a - b

/-- The distance to the read centre in the words of the specification:
`min(|island.start - N/2|, |island.end - N/2|)`, with `N/2` by integer division. -/
def dist_spec (n : Nat) (island : Nat × Nat) : Nat :=
  min (abs_diff island.1 (n / 2)) (abs_diff island.2 (n / 2))

/-! ## Maximal runs, in the words of the specification -/

/-- Whether the event at index `k` exists and has a mean at or above the level. -/
def high_at (ed : List EventDetection_Event_Entry) (level : ℚ) (k : Nat) : Bool :=
  match ed[k]? with
  | some e => decide (e.mean ≥ level)
  | none => false

/-- The half-open range `[i, j)` is a maximal run of consecutive events at or above
the level: it is not empty, every event inside is at or above the level, and the
events at `i - 1` and at `j`, when they exist, are below it. -/
def maximal_run (ed : List EventDetection_Event_Entry) (level : ℚ) (i j : Nat) : Prop :=
  i < j ∧ (∀ k, k < j → i ≤ k → high_at ed level k = true) ∧
  (i = 0 ∨ high_at ed level (i - 1) = false) ∧ high_at ed level j = false

instance (ed : List EventDetection_Event_Entry) (level : ℚ) (i j : Nat) :
    Decidable (maximal_run ed level i j) := by
  unfold maximal_run; infer_instance

/-! ## The merge pass, in the words of the specification -/

/-- Joining from the left: `cur` is the island that the group read so far has been
joined into; the next island joins it when its gap to `cur` is at most the radius,
otherwise `cur` is final and the next island opens a new group. -/
def join_from (radius : Nat) (cur : Nat × Nat) : List (Nat × Nat) → List (Nat × Nat)
  | [] => [cur]
  | b :: rest =>
    if b.1 - cur.2 ≤ radius then join_from radius (cur.1, b.2) rest
    else cur :: join_from radius b rest

/-- The list obtained by joining each maximal group of consecutive islands whose
successive gaps are at most the radius. -/
def join_groups (radius : Nat) : List (Nat × Nat) → List (Nat × Nat)
  | [] => []
  | a :: rest => join_from radius a rest

/-- The island that a group of consecutive islands is joined into: from the start of
the first to the end of the last. -/
def span (g : List (Nat × Nat)) : Nat × Nat :=
  match g.head?, g.getLast? with
  | some a, some b => (a.1, b.2)
  | _, _ => (0, 0)

/-! ## Table output -/

/-- The stream insertions that `write_tsv_header` and `write_tsv` use and that are not
part of the file: `os << unsigned`, `os << Float_Type`, and the methods `write_tsv` of
the two parameter records. -/
structure Tsv_Writers where
  of_unsigned : Nat → String
  of_float : ℚ → String
  pm_params_write_tsv : Pore_Model_Parameters → String
  st_params_write_tsv : State_Transition_Parameters → String

/-- The body of the loop over `st` in `write_tsv_header`: the text it writes. -/
def write_tsv_header.strand (w : Tsv_Writers) (st : Nat) : String :=
  "\tn" ++ w.of_unsigned st ++ "_model_name"
    ++ "\tn" ++ w.of_unsigned st ++ "_scale"
    ++ "\tn" ++ w.of_unsigned st ++ "_shift"
    ++ "\tn" ++ w.of_unsigned st ++ "_drift"
    ++ "\tn" ++ w.of_unsigned st ++ "_var"
    ++ "\tn" ++ w.of_unsigned st ++ "_scale_sd"
    ++ "\tn" ++ w.of_unsigned st ++ "_var_sd"
    ++ "\tn" ++ w.of_unsigned st ++ "_p_stay"
    ++ "\tn" ++ w.of_unsigned st ++ "_p_skip"

/-- Read access `preferred_model[st]`. -/
def Fast5_Summary.preferred_model (self : Fast5_Summary) (st : Nat) : String × String :=
  match st with
  | 0 => self.preferred_model_0
  | 1 => self.preferred_model_1
  | _ => self.preferred_model_2

/-- Component `st` of a `std::array` of two elements. -/
def array_get {α : Type} (p : α × α) (st : Nat) : α :=
  match st with
  | 0 => p.1
  | _ => p.2

/-- The body of the loop over `st` in `write_tsv`: the text it writes, or `none` when
`at` throws `std::out_of_range`. -/
def write_tsv.strand (env : Externals) (w : Tsv_Writers) (self : Fast5_Summary) (st : Nat) :
    Option String :=
  if array_get (self.preferred_model st) st ≠ "" then
    match map_find self.pm_params_m (self.preferred_model st),
        map_find self.st_params_m (self.preferred_model st) with
    | some pm_params, some st_params =>
      some ("\t" ++ array_get (self.preferred_model st) st ++ "\t"
        ++ w.pm_params_write_tsv pm_params ++ "\t"
        ++ w.st_params_write_tsv (array_get st_params st))
    | _, _ => none
  else
    some ("\t" ++ ".\t" ++ w.pm_params_write_tsv env.pm_params_default ++ "\t"
      ++ w.st_params_write_tsv env.st_params_default)

/-- The column names of a strand in the words of the specification. -/
def strand_columns (w : Tsv_Writers) (st : Nat) : List String :=
  ["model_name", "scale", "shift", "drift", "var", "scale_sd", "var_sd", "p_stay",
    "p_skip"].map (fun c => "n" ++ w.of_unsigned st ++ "_" ++ c)

/-- The column names of the table in the words of the specification: 8 columns for
the read, then 9 columns for each of the 2 strands. -/
def header_columns (w : Tsv_Writers) : List String :=
  ["file_name", "read_name", "num_ed_events", "abasic_level", "template_start_idx",
    "template_end_idx", "complement_start_idx", "complement_end_idx"]
  ++ strand_columns w 0 ++ strand_columns w 1

/-- How a scan of the raw events ends. -/
inductive Scan (α : Type) where
  /-- The scan runs to its end with this result. -/
  | done : α → Scan α
  /-- The statement `--window_count` is reached with `window_count == 0`; in the
  source the `unsigned` counter wraps to `2^32 - 1` there. -/
  | count_underflow : Scan α
  /-- The `assert` of the scan fails. -/
  | assert_failed : Scan α
  /-- An element of `ed_events()` is read outside the vector. -/
  | out_of_bounds : Scan α
deriving DecidableEq

/-- Sequencing of two parts of a scan. -/
def Scan.bind {α β : Type} (s : Scan α) (f : α → Scan β) : Scan β :=
  match s with
  | Scan.done a => f a
  | Scan.count_underflow => Scan.count_underflow
  | Scan.assert_failed => Scan.assert_failed
  | Scan.out_of_bounds => Scan.out_of_bounds

/-- The first inner loop of `find_hairpin_islands` at index `i`,
`while (window_start + hairpin_island_window_size() <= i)`: the values of
`window_start` and `window_count` after it. -/
def find_hairpin_islands.trim (ed : List EventDetection_Event_Entry) (abasic_level : ℚ)
    (window_size i : Nat) : Nat → Nat → Nat → Scan (Nat × Nat)
  | 0, window_start, window_count => Scan.done (window_start, window_count)
  | fuel + 1, window_start, window_count =>
    if u32 (window_start + window_size) ≤ i then
      match ed[window_start]? with
      | none => Scan.out_of_bounds
      | some e =>
        if e.mean ≥ abasic_level then
          if window_count = 0 then Scan.count_underflow
          else find_hairpin_islands.trim ed abasic_level window_size i fuel
            (window_start + 1) (window_count - 1)
        else find_hairpin_islands.trim ed abasic_level window_size i fuel
          (window_start + 1) window_count
    else Scan.done (window_start, window_count)

/-- The second inner loop of `find_hairpin_islands` at index `i`,
`while (window_start < i and ed_events()[window_start].mean < abasic_level)`: the
value of `window_start` after it. -/
def find_hairpin_islands.skip (ed : List EventDetection_Event_Entry) (abasic_level : ℚ)
    (i : Nat) : Nat → Nat → Scan Nat
  | 0, window_start => Scan.done window_start
  | fuel + 1, window_start =>
    if window_start < i then
      match ed[window_start]? with
      | none => Scan.out_of_bounds
      | some e =>
        if e.mean < abasic_level then
          find_hairpin_islands.skip ed abasic_level i fuel (window_start + 1)
        else Scan.done window_start
    else Scan.done window_start

/-- The outer loop of `find_hairpin_islands`, from index `i` with the window and the
islands found so far.  The inner loops advance `window_start` up to `i` at most, so
`i + 1` rounds are enough for each. -/
def find_hairpin_islands.loop (window_size window_load : Nat)
    (ed : List EventDetection_Event_Entry) (abasic_level : ℚ) :
    Nat → Nat → Nat → Nat → List (Nat × Nat) → Scan (List (Nat × Nat))
  | 0, _, _, _, islands => Scan.done islands
  | fuel + 1, i, window_start, window_count, islands =>
    match ed[i]? with
    | none => Scan.done islands
    | some e =>
      if e.mean ≥ abasic_level then
        (find_hairpin_islands.trim ed abasic_level window_size i (i + 1)
          window_start window_count).bind (fun w =>
        (find_hairpin_islands.skip ed abasic_level i (i + 1) w.1).bind (fun window_start =>
          if i < u32 (window_start + window_size) then
            if w.2 + 1 ≥ window_load then
              find_hairpin_islands.loop window_size window_load ed abasic_level fuel (i + 1)
                (i + 1) 0 (islands ++ [(window_start, i)])
            else
              find_hairpin_islands.loop window_size window_load ed abasic_level fuel (i + 1)
                window_start (w.2 + 1) islands
          else Scan.assert_failed))
      else
        find_hairpin_islands.loop window_size window_load ed abasic_level fuel (i + 1)
          window_start window_count islands

/-- The function `find_hairpin_islands`: islands `(window_start, i)`, both indices
included, that hold `hairpin_island_window_load()` events at high level within
`hairpin_island_window_size()` consecutive events.  The index grows in every round,
so `ed.length` rounds are enough. -/
def find_hairpin_islands (cfg : Config) (ed : List EventDetection_Event_Entry)
    (abasic_level : ℚ) : Scan (List (Nat × Nat)) :=
  find_hairpin_islands.loop cfg.hairpin_island_window_size cfg.hairpin_island_window_load
    ed abasic_level ed.length 0 0 0 []

/-- The number of events with index in `[a, b)` that are at or above the level. -/
def high_count (ed : List EventDetection_Event_Entry) (level : ℚ) (a b : Nat) : Nat :=
  (List.range' a (b - a)).countP (fun k => high_at ed level k)

/-- The blocks of five events of the range `[p.1, p.2)`, from its start, each as the
pair of its first and last index. -/
def chop5 (p : Nat × Nat) : List (Nat × Nat) :=
  (List.range ((p.2 - p.1) / 5)).map (fun k => (p.1 + 5 * k, p.1 + 5 * k + 4))

/-! ## Test data -/

/-- A raw event with the given mean, deviation 1, starting at tick `t` for one tick. -/
def ev_at (mean : ℚ) (t : Nat) : EventDetection_Event_Entry := ⟨mean, 1, t, 1⟩

/-- A read of `a + b + c` events: `a` events of mean 50, then `b` events of mean 100,
then `c` events of mean 50; event `k` starts at tick `k`. -/
def block_read (a b c : Nat) : List EventDetection_Event_Entry :=
  (List.range (a + b + c)).map (fun k => ev_at (if a ≤ k ∧ k < a + b then 100 else 50) k)


/-- A summary object as the default constructor leaves it, with the members it
does not set given fixed values. -/
def Fast5_Summary.fresh : Fast5_Summary :=
  { file_name := "", base_file_name := "", read_id := "", bc_grp := "",
    preferred_model_0 := ("", ""), preferred_model_1 := ("", ""), preferred_model_2 := ("", ""),
    pm_params_m := [], st_params_m := [], strand_bounds := ⟨0, 0, 0, 0⟩, time_length := (0, 0),
    num_ed_events := 0, sampling_rate := 0, abasic_level := 0, valid := false,
    scale_strands_together := false, ed_events_ptr := none, events_ptr := (none, none) }

/-- A summary object holding the raw events `ed`, as `summarize` has it when it
calls `load_events`: sampling rate 4000, abasic level 100. -/
def Fast5_Summary.loaded (ed : List EventDetection_Event_Entry) (sb : Strand_Bounds)
    (sst : Bool) : Fast5_Summary :=
  { Fast5_Summary.fresh with
    valid := true, num_ed_events := ed.length, sampling_rate := 4000, abasic_level := 100,
    strand_bounds := sb, scale_strands_together := sst, ed_events_ptr := some ed }

/-- A read of three events of ten ticks each, all below the abasic level 100; the
first has deviation 5 and does not pass the filter. -/
def noisy_head_read : List EventDetection_Event_Entry :=
  [⟨50, 5, 0, 10⟩, ⟨50, 1, 10, 10⟩, ⟨50, 1, 20, 10⟩]

/-- A read of 21 events: 8 events of mean 40, then 5 events of mean 100, then 8
events of mean 60; event `k` starts at tick `k`. -/
def two_level_read : List EventDetection_Event_Entry :=
  (List.range 21).map (fun k => ev_at (if k < 8 then 40 else if k < 13 then 100 else 60) k)

/-- A dictionary whose only model has the empty name and fits either strand. -/
def unnamed_models : Pore_Model_Dict := [("", ⟨50, 2, 2⟩)]

/-- A read of 230 events with three blocks at mean 100, at the indices `[0, 8)`,
`[110, 115)` and `[222, 230)`; the other events have mean 50. -/
def three_island_read : List EventDetection_Event_Entry :=
  (List.range 230).map (fun k =>
    ev_at (if k < 8 ∨ (110 ≤ k ∧ k < 115) ∨ 222 ≤ k then 100 else 50) k)

/-- A read of 21 events: 8 events of mean 40, then 5 events of mean 100, then 8
events of mean 60 and deviation 5, which the event filter drops; the other events
have deviation 1. -/
def noisy_tail_read : List EventDetection_Event_Entry :=
  (List.range 21).map (fun k : Nat =>
    (⟨if k < 8 then 40 else if k < 13 then 100 else 60, if k < 13 then 1 else 5, k, 1⟩ :
      EventDetection_Event_Entry))

/-- The initial settings with the window of the windowed island finder set to 5 events
and its load to 5. -/
def exact_window_config : Config := { Config.initial with hairpin_island_window_size := 5 }

/-- The initial settings with the window of the windowed island finder set to the
largest value of an `unsigned`, `2^32 - 1`, and its load to 1. -/
def widest_window_config : Config :=
  { Config.initial with
    hairpin_island_window_size := 4294967295, hairpin_island_window_load := 1 }

/-- A read of 100 events with the means 1, 2, ..., 100. -/
def ramp_read : List EventDetection_Event_Entry :=
  (List.range 100).map (fun k : Nat => ev_at ((k : ℚ) + 1) k)

/-- A signal source on which every call succeeds: sampling rate 4000, no read id
of its own, the given raw events and basecall groups. -/
def good_file (evs : List EventDetection_Event_Entry) (groups : List String) : Fast5_File :=
  ⟨true, true, some 4000, true, some "", some evs, some groups⟩

/-- Stand-ins for the parts of the headers that are not in the file: the mean of the
values with a fixed deviation, and default records. -/
def test_env : Externals :=
  ⟨fun l => (l.sum / l.length, 2), ⟨1, 0, 0, 1, 1, 1⟩, ⟨1 / 10, 3 / 10⟩⟩

/-- Settings with short margins: at least 2 events, margins of 1 event. -/
def small_config : Config := ⟨2, 100000, 1, 0, 10, 5, 0, 1, 1, 1, 1⟩

/-- A dictionary with one model for each strand affinity. -/
def test_models : Pore_Model_Dict :=
  [("c", ⟨60, 4, 1⟩), ("e", ⟨50, 2, 2⟩), ("t", ⟨40, 5, 0⟩)]

/-! ## Island finder: stepping lemmas -/

theorem scan_run (ed : List EventDetection_Event_Entry) (level : ℚ) :
    ∀ (n fuel j : Nat), n ≤ fuel →
      (∀ k, k < n → ∃ e, ed[j + k]? = some e ∧ e.mean ≥ level) →
      (ed[j + n]? = none ∨ ∃ e, ed[j + n]? = some e ∧ e.mean < level) →
      find_islands_5_consec.scan ed level fuel j = j + n := by
  intro n
  induction n with
  | zero =>
    intro fuel j _ _ hstop
    cases fuel with
    | zero => rfl
    | succ fuel =>
      rcases hstop with h | ⟨e, he, hlt⟩
      · simp only [Nat.add_zero] at h
        simp [find_islands_5_consec.scan, h]
      · simp only [Nat.add_zero] at he
        simp [find_islands_5_consec.scan, he, not_le.mpr hlt]
  | succ n ih =>
    intro fuel j hfuel hrun hstop
    cases fuel with
    | zero => omega
    | succ fuel =>
      obtain ⟨e, he, hge⟩ := hrun 0 (Nat.succ_pos n)
      simp only [Nat.add_zero] at he
      have hnext := ih fuel (j + 1) (by omega)
        (fun k hk => by
          have := hrun (k + 1) (by omega)
          rwa [show j + (k + 1) = j + 1 + k by omega] at this)
        (by rwa [show j + (n + 1) = j + 1 + n by omega] at hstop)
      simp only [find_islands_5_consec.scan, he, hge, if_true, hnext]
      omega

theorem loop_skip (ed : List EventDetection_Event_Entry) (level : ℚ) :
    ∀ (n fuel i : Nat) (acc : List (Nat × Nat)),
      (∀ k, k < n → ∃ e, ed[i + k]? = some e ∧ e.mean < level) →
      find_islands_5_consec.loop ed level (fuel + n) i acc
        = find_islands_5_consec.loop ed level fuel (i + n) acc := by
  intro n
  induction n with
  | zero => intro fuel i acc _; rfl
  | succ n ih =>
    intro fuel i acc hlow
    obtain ⟨e, he, hlt⟩ := hlow 0 (Nat.succ_pos n)
    simp only [Nat.add_zero] at he
    have hnext := ih fuel (i + 1) acc (fun k hk => by
      have := hlow (k + 1) (by omega)
      rwa [show i + (k + 1) = i + 1 + k by omega] at this)
    rw [show fuel + (n + 1) = (fuel + n) + 1 by omega]
    simp only [find_islands_5_consec.loop, he, not_le.mpr hlt, if_false, hnext]
    rw [show i + 1 + n = i + (n + 1) by omega]

theorem loop_end (ed : List EventDetection_Event_Entry) (level : ℚ) (fuel i : Nat)
    (acc : List (Nat × Nat)) (h : ed[i]? = none) :
    find_islands_5_consec.loop ed level fuel i acc = acc := by
  cases fuel with
  | zero => rfl
  | succ fuel => simp [find_islands_5_consec.loop, h]

theorem loop_high (ed : List EventDetection_Event_Entry) (level : ℚ) (fuel i : Nat)
    (acc : List (Nat × Nat)) (e : EventDetection_Event_Entry) (he : ed[i]? = some e)
    (hge : e.mean ≥ level) :
    find_islands_5_consec.loop ed level (fuel + 1) i acc
      = find_islands_5_consec.loop ed level fuel
          (find_islands_5_consec.scan ed level ed.length (i + 1) + 1)
          (if find_islands_5_consec.scan ed level ed.length (i + 1) - i ≥ 5
            then acc ++ [(i, find_islands_5_consec.scan ed level ed.length (i + 1))] else acc) := by
  simp only [find_islands_5_consec.loop, he, hge, if_true]

theorem block_read_length (a b c : Nat) : (block_read a b c).length = a + b + c := by
  simp [block_read]

theorem block_read_get (a b c k : Nat) (hk : k < a + b + c) :
    (block_read a b c)[k]? = some (ev_at (if a ≤ k ∧ k < a + b then 100 else 50) k) := by
  simp [block_read, List.getElem?_map, List.getElem?_range, hk]

theorem block_read_none (a b c k : Nat) (hk : a + b + c ≤ k) :
    (block_read a b c)[k]? = none := by
  simp [block_read, hk]

/-- The exact-run island finder on a read with one block of `b ≥ 5` high events. -/
theorem find_islands_block (a b c : Nat) (hb : 5 ≤ b) :
    find_islands_5_consec (block_read a b c) 100 = [(a, a + b)] := by
  have hscan : find_islands_5_consec.scan (block_read a b c) 100 (block_read a b c).length (a + 1)
      = a + b := by
    have := scan_run (block_read a b c) 100 (b - 1) (block_read a b c).length (a + 1)
      (by rw [block_read_length]; omega)
      (fun k hk => ⟨_, block_read_get a b c (a + 1 + k) (by omega), by
        simp only [ev_at]; rw [if_pos (by omega)]⟩)
      (by
        by_cases hc : c = 0
        · left; exact block_read_none a b c _ (by omega)
        · right
          refine ⟨_, block_read_get a b c (a + 1 + (b - 1)) (by omega), ?_⟩
          simp only [ev_at]; rw [if_neg (by omega)]; norm_num)
    rw [this]; omega
  unfold find_islands_5_consec
  rw [block_read_length, show a + b + c = (b + c) + a by omega,
    loop_skip (block_read a b c) 100 a (b + c) 0 [] (fun k hk =>
      ⟨_, block_read_get a b c (0 + k) (by omega), by
        simp only [ev_at]; rw [if_neg (by omega)]; norm_num⟩),
    show b + c = (b + c - 1) + 1 by omega,
    loop_high (block_read a b c) 100 (b + c - 1) (0 + a) [] _
      (block_read_get a b c (0 + a) (by omega))
      (by simp only [ev_at]; rw [if_pos (by omega)])]
  simp only [Nat.zero_add, hscan]
  rw [if_pos (by omega)]
  by_cases hc : c = 0
  · exact loop_end _ _ _ _ _ (block_read_none a b c _ (by omega))
  · rw [show b + c - 1 = b + (c - 1) by omega,
      loop_skip (block_read a b c) 100 (c - 1) b (a + b + 1) _ (fun k hk =>
        ⟨_, block_read_get a b c (a + b + 1 + k) (by omega), by
          simp only [ev_at]; rw [if_neg (by omega)]; norm_num⟩)]
    exact loop_end _ _ _ _ _ (block_read_none a b c _ (by omega))


/-- The strand bounds of a read with one block of `b ≥ 5` high events: what
`detect_strands` computes from the island list `[(a, a + b)]`. -/
theorem detect_strands_block (cfg : Config) (a b c : Nat) (hb : 5 ≤ b) (sb : Strand_Bounds) :
    detect_strands cfg (block_read a b c) 100 sb =
      (match min_of (dist_to_middle (a + b + c)) (merge_islands cfg [(a, a + b)]),
          (merge_islands cfg [(a, a + b)]).head?, (merge_islands cfg [(a, a + b)]).getLast? with
        | some it, some first, some last =>
          if dist_to_middle (a + b + c) it > (a + b + c) / 6 then sb
          else
            ⟨if first.1 < u32 (cfg.trim_margins_0 + cfg.trim_margins_2)
                then max cfg.trim_margins_0 first.2 else cfg.trim_margins_0,
              u32_sub it.1 cfg.trim_margins_2,
              u32 (it.1 + cfg.trim_margins_3),
              if last.2 > u64_sub (a + b + c) (u32 (cfg.trim_margins_3 + cfg.trim_margins_1))
                then min (u32 (u64_sub (a + b + c) cfg.trim_margins_1)) last.1
                else u32 (u64_sub (a + b + c) cfg.trim_margins_1)⟩
        | _, _, _ => sb) := by
  simp only [detect_strands, find_islands_block a b c hb, block_read_length]

/-! ## C1: strand bounds around an accepted hairpin -/

/-- C1, evaluated on the read of the specification: 1000 events of which exactly
those at indices 480..494 are at or above the abasic level 100, margins
(50, 50, 50, 50).  The exact-run island finder returns the single island
`[480, 495)`; `detect_strands` accepts it without edge clamp and sets the template
to `[50, 430)`, but the complement to `[530, 950)`: its start is the island start
plus the margin after the hairpin, not the island end plus that margin (545). -/
theorem C1_complement_starts_at_island_start :
    (block_read 480 15 505).length = 1000 ∧
    (∀ (k : Nat) (e : EventDetection_Event_Entry),
      (block_read 480 15 505)[k]? = some e → (e.mean ≥ 100 ↔ 480 ≤ k ∧ k < 495)) ∧
    find_islands_5_consec (block_read 480 15 505) 100 = [(480, 495)] ∧
    detect_strands Config.initial (block_read 480 15 505) 100 ⟨50, 950, 0, 0⟩
      = ⟨50, 430, 530, 950⟩ ∧
    (detect_strands Config.initial (block_read 480 15 505) 100 ⟨50, 950, 0, 0⟩).s2 ≠ 495 + 50 := by
  have hd : detect_strands Config.initial (block_read 480 15 505) 100 ⟨50, 950, 0, 0⟩
      = ⟨50, 430, 530, 950⟩ := by
    rw [detect_strands_block Config.initial 480 15 505 (by decide)]
    decide
  refine ⟨block_read_length _ _ _, ?_, find_islands_block 480 15 505 (by decide), hd, ?_⟩
  · intro k e hk
    by_cases hlt : k < 480 + 15 + 505
    · rw [block_read_get 480 15 505 k hlt] at hk
      cases hk
      by_cases hin : 480 ≤ k ∧ k < 480 + 15
      · simp only [ev_at, if_pos hin]
        constructor
        · intro _; omega
        · intro _; norm_num
      · simp only [ev_at, if_neg hin]
        constructor
        · intro h; norm_num at h
        · intro h; omega
    · rw [block_read_none 480 15 505 k (by omega)] at hk
      cases hk
  · rw [hd]; decide

/-! ## C4: the abasic level is a rank statistic of the means -/

theorem abasic_rank_lt (p : ℚ) (n : Nat) (hn : 0 < n) (hp0 : 0 < p) (hp1 : p ≤ 100) :
    ¬ ((n : ℚ) * (1 - p / 100) ≤ -1) ∧ (Int.floor ((n : ℚ) * (1 - p / 100))).toNat < n := by
  have hn0 : (0 : ℚ) < n := by exact_mod_cast hn
  have h1 : 0 ≤ 1 - p / 100 := by linarith [div_le_one_of_le₀ hp1 (by norm_num : (0 : ℚ) ≤ 100)]
  have h2 : 1 - p / 100 < 1 := by linarith [div_pos hp0 (by norm_num : (0 : ℚ) < 100)]
  have hx0 : 0 ≤ (n : ℚ) * (1 - p / 100) := mul_nonneg hn0.le h1
  have hx1 : (n : ℚ) * (1 - p / 100) < n := by nlinarith
  refine ⟨by linarith, ?_⟩
  rw [Int.toNat_lt (Int.floor_nonneg.mpr hx0), Int.floor_lt]
  exact_mod_cast hx1

theorem detect_abasic_level_of_sorted (cfg : Config) (ed : List EventDetection_Event_Entry)
    (sorted : List ℚ) (hs : sorted.Sorted (fun a b => a ≤ b))
    (hperm : sorted.Perm (ed.map (fun e => e.mean)))
    (hx : ¬ ((ed.length : ℚ) * (1 - cfg.abasic_level_top_percent / 100) ≤ -1)) :
    detect_abasic_level cfg ed =
      (sorted[(Int.floor ((ed.length : ℚ) * (1 - cfg.abasic_level_top_percent / 100))).toNat]?).map
        (fun v => v + cfg.abasic_level_top_offset) := by
  have hsort : (ed.map (fun e => e.mean)).insertionSort (fun a b => a ≤ b) = sorted :=
    List.eq_of_perm_of_sorted ((List.perm_insertionSort _ _).trans hperm.symm)
      (List.sorted_insertionSort _ _) hs
  have hlen : sorted.length = ed.length := by
    rw [hperm.length_eq, List.length_map]
  unfold detect_abasic_level
  simp only [hsort, hlen, hx, if_false]
  cases sorted[(Int.floor ((ed.length : ℚ) * (1 - cfg.abasic_level_top_percent / 100))).toNat]?
    <;> rfl

/-- C4.  For a non-empty list of raw events and `0 < topPercent ≤ 100`, the rank
`floor(N * (1 - topPercent / 100))` is a valid index, and `detect_abasic_level`
returns the value at that rank of the ascending sort of the means (of any sorted
arrangement of them) plus `topOffset`; two reads with the same multiset of means
have the same level; for means `1, 2, ..., 100` with `topPercent = 1` and
`topOffset = 0` the rank is 99 and the level is the sorted value at rank 99, 100. -/
theorem C4_abasic_level_is_rank_statistic (cfg : Config) (ed : List EventDetection_Event_Entry)
    (hne : ed ≠ []) (hp0 : 0 < cfg.abasic_level_top_percent)
    (hp1 : cfg.abasic_level_top_percent ≤ 100) :
    (Int.floor ((ed.length : ℚ) * (1 - cfg.abasic_level_top_percent / 100))).toNat < ed.length ∧
    (∀ sorted : List ℚ, sorted.Sorted (fun a b => a ≤ b) →
      sorted.Perm (ed.map (fun e => e.mean)) →
      ∃ v, sorted[(Int.floor
            ((ed.length : ℚ) * (1 - cfg.abasic_level_top_percent / 100))).toNat]? = some v ∧
        detect_abasic_level cfg ed = some (v + cfg.abasic_level_top_offset)) ∧
    (∀ ed2 : List EventDetection_Event_Entry,
      (ed2.map (fun e => e.mean)).Perm (ed.map (fun e => e.mean)) →
      detect_abasic_level cfg ed2 = detect_abasic_level cfg ed) ∧
    (cfg.abasic_level_top_percent = 1 → cfg.abasic_level_top_offset = 0 →
      (ed.map (fun e => e.mean)).Perm ((List.range 100).map (fun k : Nat => ((k : ℚ) + 1))) →
      (Int.floor ((ed.length : ℚ) * (1 - cfg.abasic_level_top_percent / 100))).toNat = 99 ∧
      ((List.range 100).map (fun k : Nat => ((k : ℚ) + 1)))[99]? = some 100 ∧
      detect_abasic_level cfg ed = some 100) := by
  have hpos : 0 < ed.length := List.length_pos.mpr hne
  obtain ⟨hx, hrank⟩ := abasic_rank_lt cfg.abasic_level_top_percent ed.length hpos hp0 hp1
  have hmain : ∀ sorted : List ℚ, sorted.Sorted (fun a b => a ≤ b) →
      sorted.Perm (ed.map (fun e => e.mean)) →
      ∃ v, sorted[(Int.floor
            ((ed.length : ℚ) * (1 - cfg.abasic_level_top_percent / 100))).toNat]? = some v ∧
        detect_abasic_level cfg ed = some (v + cfg.abasic_level_top_offset) := by
    intro sorted hs hperm
    have hlen : sorted.length = ed.length := by rw [hperm.length_eq, List.length_map]
    have hlt : (Int.floor
        ((ed.length : ℚ) * (1 - cfg.abasic_level_top_percent / 100))).toNat < sorted.length := by
      omega
    refine ⟨sorted[(Int.floor
      ((ed.length : ℚ) * (1 - cfg.abasic_level_top_percent / 100))).toNat], ?_, ?_⟩
    · exact List.getElem?_eq_getElem hlt
    · rw [detect_abasic_level_of_sorted cfg ed sorted hs hperm hx,
        List.getElem?_eq_getElem hlt]
      rfl
  refine ⟨hrank, hmain, ?_, ?_⟩
  · intro ed2 hperm2
    have hlen2 : ed2.length = ed.length := by
      have := hperm2.length_eq
      simpa using this
    rw [detect_abasic_level_of_sorted cfg ed _ (List.sorted_insertionSort _ _)
        (List.perm_insertionSort _ _) hx,
      detect_abasic_level_of_sorted cfg ed2 _ (List.sorted_insertionSort _ _)
        ((List.perm_insertionSort _ _).trans hperm2.symm) (by rw [hlen2]; exact hx), hlen2]
  · intro h1 h0 hperm
    have hlen : ed.length = 100 := by
      have := hperm.length_eq
      simpa using this
    have hr : (Int.floor ((ed.length : ℚ) * (1 - cfg.abasic_level_top_percent / 100))).toNat
        = 99 := by
      rw [hlen, h1]
      have : ((100 : ℕ) : ℚ) * (1 - 1 / 100) = ((99 : ℤ) : ℚ) := by norm_num
      rw [this, Int.floor_intCast]
      rfl
    have hsorted : ((List.range 100).map (fun k : Nat => ((k : ℚ) + 1))).Sorted (fun a b => a ≤ b) := by
      rw [List.Sorted, List.pairwise_map]
      refine List.Pairwise.imp ?_ (List.pairwise_lt_range 100)
      intro a b hab
      have : (a : ℚ) < b := by exact_mod_cast hab
      linarith
    have hget : ((List.range 100).map (fun k : Nat => ((k : ℚ) + 1)))[99]? = some 100 := by
      simp [List.getElem?_map, List.getElem?_range]
      norm_num
    obtain ⟨v, hv, hres⟩ := hmain _ hsorted hperm.symm
    rw [hr, hget] at hv
    cases hv
    refine ⟨hr, hget, ?_⟩
    rw [hres, h0]
    norm_num

/-- Witness of C4: the read with the means 1, ..., 100 under the initial settings. -/
theorem C4_abasic_level_is_rank_statistic_witness :
    (ramp_read ≠ [] ∧ 0 < Config.initial.abasic_level_top_percent ∧
      Config.initial.abasic_level_top_percent ≤ 100) ∧
    (Int.floor ((ramp_read.length : ℚ)
      * (1 - Config.initial.abasic_level_top_percent / 100))).toNat < ramp_read.length ∧
    detect_abasic_level Config.initial ramp_read = some 100 :=
  ⟨⟨by decide, by decide, by decide⟩,
    (C4_abasic_level_is_rank_statistic Config.initial ramp_read
      (by decide) (by decide) (by decide)).1,
    ((C4_abasic_level_is_rank_statistic Config.initial ramp_read
      (by decide) (by decide) (by decide)).2.2.2 rfl rfl
        (by simp [ramp_read, ev_at, Function.comp_def])).2.2⟩

/-! ## The event loader -/

theorem filter_ed_event_iff (e : EventDetection_Event_Entry) (level : ℚ) :
    filter_ed_event e level = true ↔ e.mean < level ∧ e.stdv ≤ 4 := by
  unfold filter_ed_event
  by_cases h1 : e.mean ≥ level
  · simp only [h1, if_true]
    constructor
    · intro h; cases h
    · intro h; exact absurd h.1 (not_lt.mpr h1)
  · by_cases h2 : e.stdv > 4
    · simp only [h1, h2, if_true, if_false]
      constructor
      · intro h; cases h
      · intro h; exact absurd h.2 (not_le.mpr h2)
    · simp only [h1, h2, if_false]
      constructor
      · intro _; exact ⟨not_le.mp h1, not_lt.mp h2⟩
      · intro _; trivial

/-- The loop of `load_events` over a range inside the raw events: it reads no
element outside the vector and returns the calibrated events of the indices whose
raw event passes the filter, in index order. -/
theorem load_loop_in_bounds (ed : List EventDetection_Event_Entry) (level rate : ℚ)
    (origin : Nat) (o : EventDetection_Event_Entry) (ho : ed[origin]? = some o) :
    ∀ (fuel j : Nat), j + fuel ≤ ed.length →
      load_events.loop ed level rate origin fuel j
        = some ((List.range' j fuel).filterMap (fun i => (ed[i]?).bind (fun e =>
            if e.mean < level ∧ e.stdv ≤ 4 then some (calibrate e o rate) else none))) := by
  intro fuel
  induction fuel with
  | zero => intro j _; rfl
  | succ fuel ih =>
    intro j hj
    have hlt : j < ed.length := by omega
    have he : ed[j]? = some ed[j] := List.getElem?_eq_getElem hlt
    have hrest := ih (j + 1) (by omega)
    rw [List.range'_succ, List.filterMap_cons]
    by_cases hk : ed[j].mean < level ∧ ed[j].stdv ≤ 4
    · have hf : filter_ed_event ed[j] level = true := (filter_ed_event_iff _ _).mpr hk
      simp only [load_events.loop, he, ho, hrest, hf, if_true, Option.some_bind, Option.map_some',
        if_pos hk]
    · have hf : filter_ed_event ed[j] level = false := by
        cases hfe : filter_ed_event ed[j] level with
        | false => rfl
        | true => exact absurd ((filter_ed_event_iff _ _).mp hfe) hk
      simp only [load_events.loop, he, hrest, hf, Option.some_bind, if_neg hk,
        Bool.false_eq_true, if_false]

/-- The loop of `load_events` over a range that ends past the raw events reads an
element outside the vector. -/
theorem load_loop_out_of_bounds (ed : List EventDetection_Event_Entry) (level rate : ℚ)
    (origin : Nat) :
    ∀ (fuel j : Nat), 0 < fuel → ed.length < j + fuel →
      load_events.loop ed level rate origin fuel j = none := by
  intro fuel
  induction fuel with
  | zero =>
    intro j h0 _
    exact absurd h0 (Nat.lt_irrefl 0)
  | succ fuel ih =>
    intro j _ hj
    unfold load_events.loop
    cases he : ed[j]? with
    | none => rfl
    | some e =>
      have hlt : j < ed.length := by
        by_contra hge
        rw [List.getElem?_eq_none (by omega)] at he
        cases he
      have hrest := ih (j + 1) (by omega) (by omega)
      simp only [hrest, Option.map_none']
      split
      · split <;> rfl
      · rfl

/-- The calibrated sequence of one strand under valid bounds, with the origin of
time readable whenever the range is not empty. -/
theorem load_strand_valid (self : Fast5_Summary) (ed : List EventDetection_Event_Entry)
    (st : Nat) (hst : st < 2) (hb : self.strand_bounds.valid ed.length)
    (hj : self.scale_strands_together = true →
      self.strand_bounds.s0 < self.strand_bounds.s1) :
    load_events.strand self ed st
      = some ((List.range' (self.strand_bounds.get (2 * st))
          (self.strand_bounds.get (2 * st + 1) - self.strand_bounds.get (2 * st))).filterMap
          (fun i => (ed[i]?).bind (fun e =>
            (ed[self.strand_bounds.get
                (if self.scale_strands_together then 0 else 2 * st)]?).bind (fun o =>
              if e.mean < self.abasic_level ∧ e.stdv ≤ 4
                then some (calibrate e o self.sampling_rate) else none)))) := by
  unfold load_events.strand
  by_cases hempty : self.strand_bounds.get (2 * st + 1) ≤ self.strand_bounds.get (2 * st)
  · rw [Nat.sub_eq_zero_of_le hempty]
    rfl
  · have hrange : self.strand_bounds.get (2 * st) < self.strand_bounds.get (2 * st + 1) ∧
        self.strand_bounds.get (2 * st + 1) ≤ ed.length := by
      obtain ⟨h0, h1⟩ := hb
      have hcases : st = 0 ∨ st = 1 := by omega
      rcases hcases with rfl | rfl
      · simp only [Strand_Bounds.get] at hempty ⊢
        omega
      · simp only [Strand_Bounds.get] at hempty ⊢
        omega
    have horigin : self.strand_bounds.get (if self.scale_strands_together then 0 else 2 * st)
        < ed.length := by
      obtain ⟨h0, h1⟩ := hb
      by_cases hsst : self.scale_strands_together = true
      · have := hj hsst
        simp only [hsst, if_true, Strand_Bounds.get]
        omega
      · simp only [Bool.not_eq_true] at hsst
        simp only [hsst, Bool.false_eq_true, if_false]
        omega
    rw [load_loop_in_bounds ed _ _ _ _ (List.getElem?_eq_getElem horigin) _ _ (by omega)]
    simp only [List.getElem?_eq_getElem horigin, Option.some_bind]

/-- The method `load_events` on an object that holds its raw events. -/
theorem load_events_cached (cfg : Config) (f : Fast5_File) (self : Fast5_Summary)
    (ed : List EventDetection_Event_Entry) (e0 e1 : List Event)
    (hvalid : self.valid = true) (hnum : self.num_ed_events ≠ 0)
    (hed : self.ed_events_ptr = some ed)
    (h0 : load_events.strand self ed 0 = some e0) (h1 : load_events.strand self ed 1 = some e1) :
    load_events cfg f self = Outcome.returned { self with events_ptr := (some e0, some e1) } := by
  have hd0 : load_events.strand (drop_events self) ed 0 = some e0 := h0
  have hd1 : load_events.strand (drop_events self) ed 1 = some e1 := h1
  have hdn : (drop_events self).num_ed_events = self.num_ed_events := rfl
  have hde : (drop_events self).ed_events_ptr = some ed := hed
  unfold load_events
  rw [if_neg (by rw [hvalid]; decide)]
  simp only [hdn, hnum, hde, hd0, hd1, Option.isNone_some, if_false, Bool.false_eq_true]
  rw [← hed]
  rfl

/-- The calibrated sequence of one strand under valid bounds, with the origin of
time given as the raw event at the origin index. -/
theorem load_strand_valid_origin (self : Fast5_Summary)
    (ed : List EventDetection_Event_Entry) (st : Nat) (hst : st < 2)
    (hb : self.strand_bounds.valid ed.length)
    (hj : self.scale_strands_together = true →
      self.strand_bounds.s0 < self.strand_bounds.s1) :
    load_events.strand self ed st
      = some ((List.range' (self.strand_bounds.get (2 * st))
          (self.strand_bounds.get (2 * st + 1) - self.strand_bounds.get (2 * st))).filterMap
          (fun i => (ed[i]?).bind (fun e =>
            if e.mean < self.abasic_level ∧ e.stdv ≤ 4
              then some (calibrate e
                ((ed[self.strand_bounds.get
                  (if self.scale_strands_together then 0 else 2 * st)]?).getD ⟨0, 0, 0, 0⟩)
                self.sampling_rate)
              else none))) := by
  rw [load_strand_valid self ed st hst hb hj]
  by_cases hempty : self.strand_bounds.get (2 * st + 1) ≤ self.strand_bounds.get (2 * st)
  · rw [Nat.sub_eq_zero_of_le hempty]
    rfl
  · have horigin : self.strand_bounds.get (if self.scale_strands_together then 0 else 2 * st)
        < ed.length := by
      obtain ⟨h0, h1⟩ := hb
      have hcases : st = 0 ∨ st = 1 := by omega
      by_cases hsst : self.scale_strands_together = true
      · have := hj hsst
        simp only [hsst, if_true, Strand_Bounds.get]
        omega
      · simp only [Bool.not_eq_true] at hsst
        simp only [hsst, Bool.false_eq_true, if_false]
        rcases hcases with rfl | rfl
        · simp only [Strand_Bounds.get] at hempty ⊢
          omega
        · simp only [Strand_Bounds.get] at hempty ⊢
          omega
    simp only [List.getElem?_eq_getElem horigin, Option.some_bind, Option.getD_some]

/-! ## C5: the calibrated sequence is the filtered range -/

/-- C5.  For an object that holds its raw events, with valid strand bounds (and a
non-empty template when the strands are scaled together), `load_events` returns,
and the calibrated sequence of strand `st` lists, in increasing index order, the
mean and deviation of exactly the raw events with index in
`[strand_bounds[2 st], strand_bounds[2 st + 1])` whose mean is below the abasic
level and whose deviation is at most 4; the other events of the range are dropped. -/
theorem C5_load_events_keeps_filtered_range (cfg : Config) (f : Fast5_File)
    (self : Fast5_Summary) (ed : List EventDetection_Event_Entry) (st : Nat) (hst : st < 2)
    (hvalid : self.valid = true) (hnum : self.num_ed_events ≠ 0)
    (hed : self.ed_events_ptr = some ed) (hb : self.strand_bounds.valid ed.length)
    (hj : self.scale_strands_together = true →
      self.strand_bounds.s0 < self.strand_bounds.s1) :
    ∃ e0 e1 : List Event,
      load_events cfg f self = Outcome.returned { self with events_ptr := (some e0, some e1) } ∧
      (if st = 0 then e0 else e1).map (fun e => (e.mean, e.stdv))
        = (List.range' (self.strand_bounds.get (2 * st))
            (self.strand_bounds.get (2 * st + 1) - self.strand_bounds.get (2 * st))).filterMap
            (fun j => (ed[j]?).bind (fun e =>
              if e.mean < self.abasic_level ∧ e.stdv ≤ 4 then some (e.mean, e.stdv) else none)) := by
  have h0 := load_strand_valid_origin self ed 0 (by decide) hb hj
  have h1 := load_strand_valid_origin self ed 1 (by decide) hb hj
  refine ⟨_, _, load_events_cached cfg f self ed _ _ hvalid hnum hed h0 h1, ?_⟩
  have hmap : ∀ (o : EventDetection_Event_Entry) (l : List Nat),
      (l.filterMap (fun i => (ed[i]?).bind (fun e =>
          if e.mean < self.abasic_level ∧ e.stdv ≤ 4
            then some (calibrate e o self.sampling_rate) else none))).map
        (fun e => (e.mean, e.stdv))
      = l.filterMap (fun j => (ed[j]?).bind (fun e =>
          if e.mean < self.abasic_level ∧ e.stdv ≤ 4 then some (e.mean, e.stdv) else none)) := by
    intro o l
    rw [List.map_filterMap]
    congr 1
    funext i
    cases ed[i]? with
    | none => rfl
    | some e =>
      simp only [Option.some_bind]
      split <;> rfl
  have hcases : st = 0 ∨ st = 1 := by omega
  rcases hcases with rfl | rfl
  · rw [if_pos rfl]
    exact hmap _ _
  · rw [if_neg (by decide)]
    exact hmap _ _

/-- Witness of C5: the complement of a read of 21 events with bounds
`[1, 7)` and `[9, 20)`, of which the events 9..12 are at the abasic level. -/
theorem C5_load_events_keeps_filtered_range_witness :
    ((1 : Nat) < 2 ∧
      (Fast5_Summary.loaded (block_read 8 5 8) ⟨1, 7, 9, 20⟩ false).valid = true ∧
      (Fast5_Summary.loaded (block_read 8 5 8) ⟨1, 7, 9, 20⟩ false).num_ed_events ≠ 0 ∧
      (Fast5_Summary.loaded (block_read 8 5 8) ⟨1, 7, 9, 20⟩ false).ed_events_ptr
        = some (block_read 8 5 8) ∧
      (Fast5_Summary.loaded (block_read 8 5 8) ⟨1, 7, 9, 20⟩ false).strand_bounds.valid
        (block_read 8 5 8).length) ∧
    ∃ e0 e1 : List Event,
      load_events small_config (good_file [] [])
          (Fast5_Summary.loaded (block_read 8 5 8) ⟨1, 7, 9, 20⟩ false)
        = Outcome.returned { Fast5_Summary.loaded (block_read 8 5 8) ⟨1, 7, 9, 20⟩ false with
            events_ptr := (some e0, some e1) } ∧
      (if 1 = 0 then e0 else e1).map (fun e => (e.mean, e.stdv))
        = (List.range' 9 (20 - 9)).filterMap
            (fun j => ((block_read 8 5 8)[j]?).bind (fun e =>
              if e.mean < 100 ∧ e.stdv ≤ 4 then some (e.mean, e.stdv) else none)) :=
  ⟨⟨by decide, by decide, by decide, rfl, by decide⟩,
    C5_load_events_keeps_filtered_range small_config (good_file [] [])
      (Fast5_Summary.loaded (block_read 8 5 8) ⟨1, 7, 9, 20⟩ false) (block_read 8 5 8) 1
      (by decide) (by decide) (by decide) rfl (by decide) (by decide)⟩

/-! ## C7: calibrated events are increasing and do not overlap -/

/-- C6 fails as stated: on a read whose template range `[0, 3)` starts with an event
that the filter drops (deviation 5), under independent scaling, the first
calibrated event of the template is the raw event 1 and its start is
`(10 - 0) / 4000`, measured from the raw event 0 at `strand_bounds[0]`, not from
the first kept event (which would give 0). -/
theorem C6_first_kept_event_not_at_zero :
    (load_events small_config (good_file [] [])
        (Fast5_Summary.loaded noisy_head_read ⟨0, 3, 0, 0⟩ false)).state?.map
      (fun s : Fast5_Summary => s.scale_strands_together) = some false ∧
    (load_events small_config (good_file [] [])
        (Fast5_Summary.loaded noisy_head_read ⟨0, 3, 0, 0⟩ false)).state?.map
      (fun s : Fast5_Summary =>
        s.events_ptr.1.map (fun l => l.map (fun e : Event => (e.start, e.length))))
      = some (some [(1 / 400, 1 / 400), (1 / 200, 1 / 400)]) ∧
    (1 / 400 : ℚ) ≠ 0 := by
  refine ⟨by decide!, by decide!, by norm_num⟩

/-- C6, amended.  For an object that holds its raw events, with valid strand bounds,
`load_events` returns, and the calibrated sequence of strand `st` holds, for each
raw event of the range that passes the filter, in index order, an event with
`length = raw length / sampling_rate` and
`start = (raw start - start of the raw event at index strand_bounds[2 o]) / sampling_rate`,
where `o` is `st` under independent scaling and 0 (the template) under joint
scaling; under independent scaling, when the first raw event of a non-empty range
passes the filter, the first calibrated event has start 0. -/
theorem C6_start_is_relative_to_range_start (cfg : Config) (f : Fast5_File)
    (self : Fast5_Summary) (ed : List EventDetection_Event_Entry) (st : Nat) (hst : st < 2)
    (hvalid : self.valid = true) (hnum : self.num_ed_events ≠ 0)
    (hed : self.ed_events_ptr = some ed) (hb : self.strand_bounds.valid ed.length)
    (hj : self.scale_strands_together = true →
      self.strand_bounds.s0 < self.strand_bounds.s1) :
    ∃ e0 e1 : List Event,
      load_events cfg f self = Outcome.returned { self with events_ptr := (some e0, some e1) } ∧
      (if st = 0 then e0 else e1)
        = (List.range' (self.strand_bounds.get (2 * st))
            (self.strand_bounds.get (2 * st + 1) - self.strand_bounds.get (2 * st))).filterMap
            (fun j => (ed[j]?).bind (fun e =>
              (ed[self.strand_bounds.get
                  (if self.scale_strands_together then 0 else 2 * st)]?).bind (fun o =>
                if e.mean < self.abasic_level ∧ e.stdv ≤ 4 then
                  some ⟨e.mean, e.mean, e.stdv,
                    ((e.start - o.start : ℤ) : ℚ) / self.sampling_rate,
                    (e.length : ℚ) / self.sampling_rate⟩
                else none))) ∧
      (self.scale_strands_together = false →
        self.strand_bounds.get (2 * st) < self.strand_bounds.get (2 * st + 1) →
        ∀ e : EventDetection_Event_Entry, ed[self.strand_bounds.get (2 * st)]? = some e →
          e.mean < self.abasic_level → e.stdv ≤ 4 →
          ∃ first : Event, (if st = 0 then e0 else e1).head? = some first ∧ first.start = 0) := by
  have h0 := load_strand_valid self ed 0 (by decide) hb hj
  have h1 := load_strand_valid self ed 1 (by decide) hb hj
  refine ⟨_, _, load_events_cached cfg f self ed _ _ hvalid hnum hed h0 h1, ?_, ?_⟩
  · have hcases : st = 0 ∨ st = 1 := by omega
    rcases hcases with rfl | rfl
    · rw [if_pos rfl]; rfl
    · rw [if_neg (by decide)]; rfl
  · intro hsst hne e he hmean hstdv
    have hhead : ∀ l : List Event,
        l = (List.range' (self.strand_bounds.get (2 * st))
            (self.strand_bounds.get (2 * st + 1) - self.strand_bounds.get (2 * st))).filterMap
            (fun i => (ed[i]?).bind (fun e =>
              (ed[self.strand_bounds.get
                  (if self.scale_strands_together then 0 else 2 * st)]?).bind (fun o =>
                if e.mean < self.abasic_level ∧ e.stdv ≤ 4
                  then some (calibrate e o self.sampling_rate) else none))) →
        ∃ first : Event, l.head? = some first ∧ first.start = 0 := by
      intro l hl
      rw [show self.strand_bounds.get (2 * st + 1) - self.strand_bounds.get (2 * st)
          = (self.strand_bounds.get (2 * st + 1) - self.strand_bounds.get (2 * st) - 1) + 1 by
            omega, List.range'_succ, List.filterMap_cons] at hl
      simp only [hsst, Bool.false_eq_true, if_false, he, Option.some_bind,
        if_pos (And.intro hmean hstdv)] at hl
      refine ⟨calibrate e e self.sampling_rate, by rw [hl]; rfl, ?_⟩
      simp [calibrate]
    have hcases : st = 0 ∨ st = 1 := by omega
    rcases hcases with rfl | rfl
    · rw [if_pos rfl]; exact hhead _ rfl
    · rw [if_neg (by decide)]; exact hhead _ rfl

/-- Witness of C6 (amended): the template `[1, 7)` of a read of 21 events. -/
theorem C6_start_is_relative_to_range_start_witness :
    ((0 : Nat) < 2 ∧
      (Fast5_Summary.loaded (block_read 8 5 8) ⟨1, 7, 9, 20⟩ false).valid = true ∧
      (Fast5_Summary.loaded (block_read 8 5 8) ⟨1, 7, 9, 20⟩ false).num_ed_events ≠ 0 ∧
      (Fast5_Summary.loaded (block_read 8 5 8) ⟨1, 7, 9, 20⟩ false).strand_bounds.valid
        (block_read 8 5 8).length) ∧
    ∃ e0 e1 : List Event,
      load_events small_config (good_file [] [])
          (Fast5_Summary.loaded (block_read 8 5 8) ⟨1, 7, 9, 20⟩ false)
        = Outcome.returned { Fast5_Summary.loaded (block_read 8 5 8) ⟨1, 7, 9, 20⟩ false with
            events_ptr := (some e0, some e1) } ∧
      e0.map (fun e => (e.start, e.length))
        = [(0, 1 / 4000), (1 / 4000, 1 / 4000), (2 / 4000, 1 / 4000), (3 / 4000, 1 / 4000),
            (4 / 4000, 1 / 4000), (5 / 4000, 1 / 4000)] := by
  refine ⟨⟨by decide, by decide, by decide, by decide⟩, ?_⟩
  obtain ⟨e0, e1, hret, hev, _⟩ := C6_start_is_relative_to_range_start small_config
    (good_file [] []) (Fast5_Summary.loaded (block_read 8 5 8) ⟨1, 7, 9, 20⟩ false)
    (block_read 8 5 8) 0 (by decide) (by decide) (by decide) rfl (by decide) (by decide)
  refine ⟨e0, e1, hret, ?_⟩
  rw [if_pos rfl] at hev
  rw [hev]
  decide!

/-! ## Maps and folds of map updates -/

theorem map_find_filter_ne {κ ν : Type} [DecidableEq κ] (m : List (κ × ν)) (k k2 : κ)
    (hne : k2 ≠ k) :
    map_find (m.filter (fun p => decide (p.1 ≠ k))) k2 = map_find m k2 := by
  induction m with
  | nil => rfl
  | cons p rest ih =>
    obtain ⟨pk, pv⟩ := p
    by_cases hpk : pk = k
    · have hpk2 : ¬ pk = k2 := fun h => hne (h ▸ hpk)
      simp only [List.filter, hpk, ne_eq, not_true_eq_false, decide_False, map_find]
      rw [ih, if_neg (by rw [← hpk]; exact hpk2)]
    · simp only [List.filter, ne_eq, hpk, not_false_eq_true, decide_True, map_find, ih]

theorem map_find_set_same {κ ν : Type} [DecidableEq κ] (m : List (κ × ν)) (k : κ) (v : ν) :
    map_find (map_set m k v) k = some v := by
  simp [map_set, map_find]

theorem map_find_set_other {κ ν : Type} [DecidableEq κ] (m : List (κ × ν)) (k k2 : κ) (v : ν)
    (hne : k2 ≠ k) :
    map_find (map_set m k v) k2 = map_find m k2 := by
  unfold map_set
  rw [map_find, if_neg (fun h => hne h.symm)]
  exact map_find_filter_ne m k k2 hne

theorem option_or_assoc {ν : Type} (a b c : Option ν) : (a.or b).or c = a.or (b.or c) := by
  cases a <;> rfl

/-- A fold of state updates each of which sets some keys of a map in the state and
leaves the others: a key ends with the value of the last update that sets it. -/
theorem foldl_touch {σ ι κ ν : Type} [DecidableEq κ] (get : σ → List (κ × ν))
    (F : σ → ι → σ) (touch : ι → κ → Option ν)
    (hT : ∀ p s k, map_find (get (F s p)) k = (touch p k).or (map_find (get s) k)) :
    ∀ (l : List ι) (s : σ) (k : κ),
      map_find (get (l.foldl F s)) k
        = (l.reverse.findSome? (fun p => touch p k)).or (map_find (get s) k) := by
  intro l
  induction l with
  | nil => intro s k; rfl
  | cons p rest ih =>
    intro s k
    rw [List.foldl_cons, ih, hT, List.reverse_cons, List.findSome?_append, option_or_assoc]
    congr 1
    simp only [List.findSome?_cons, List.findSome?_nil]
    cases touch p k <;> rfl

/-- The last update that sets a key, when all updates that set it agree. -/
theorem findSome_unique {ι ν : Type} (l : List ι) (f : ι → Option ν) (v : ν)
    (hex : ∃ p ∈ l, f p = some v) (hall : ∀ q ∈ l, ∀ w, f q = some w → w = v) :
    l.reverse.findSome? f = some v := by
  cases h : l.reverse.findSome? f with
  | none =>
    obtain ⟨p, hp, hfp⟩ := hex
    rw [List.findSome?_eq_none_iff] at h
    rw [h p (List.mem_reverse.mpr hp)] at hfp
    cases hfp
  | some w =>
    obtain ⟨l1, a, l2, hl, hfa, _⟩ := List.findSome?_eq_some_iff.mp h
    have ha : a ∈ l := by
      rw [← List.mem_reverse, hl]
      simp
    rw [hall a ha w hfa]

theorem findSome_none {ι ν : Type} (l : List ι) (f : ι → Option ν)
    (hall : ∀ q ∈ l, f q = none) :
    l.reverse.findSome? f = none := by
  rw [List.findSome?_eq_none_iff]
  intro q hq
  exact hall q (List.mem_reverse.mp hq)

/-- In a dictionary with distinct names, an entry is determined by its name. -/
theorem dict_entry_unique (models : Pore_Model_Dict) (hnodup : (models.map Prod.fst).Nodup)
    (p q : String × Pore_Model) (hp : p ∈ models) (hq : q ∈ models) (hname : p.1 = q.1) :
    p = q := by
  induction models with
  | nil => cases hp
  | cons x rest ih =>
    rw [List.map_cons, List.nodup_cons] at hnodup
    rcases List.mem_cons.mp hp with rfl | hp2
    · rcases List.mem_cons.mp hq with rfl | hq2
      · rfl
      · exact absurd (List.mem_map.mpr ⟨q, hq2, hname.symm⟩) hnodup.1
    · rcases List.mem_cons.mp hq with rfl | hq2
      · exact absurd (List.mem_map.mpr ⟨p, hp2, hname⟩) hnodup.1
      · exact ih hnodup.2 hp2 hq2

/-! ## The model scale estimator -/

/-- The parameter map after the scaling of one strand: a key holds the value of the
last eligible model whose key it is, or what it held before. -/
theorem scale_strand_find (cfg : Config) (env : Externals) (models : Pore_Model_Dict)
    (st : Nat) (ev : List Event) (s : Fast5_Summary) (k : String × String)
    (hmin : cfg.min_ed_events ≤ ev.length) :
    map_find (summarize.scale_strand cfg env models st ev s).pm_params_m k
      = (models.reverse.findSome? (fun p =>
          if (p.2.strand = st ∨ p.2.strand = 2)
              ∧ (if st = 0 then (p.1, "") else ("", p.1)) = k then
            some { env.pm_params_default with
              scale := (env.mean_stdv_of (ev.map (fun e => e.mean))).2 / p.2.stdv
              shift := (env.mean_stdv_of (ev.map (fun e => e.mean))).1
                - (env.mean_stdv_of (ev.map (fun e => e.mean))).2 / p.2.stdv * p.2.mean }
          else none)).or (map_find s.pm_params_m k) := by
  unfold summarize.scale_strand
  rw [if_neg (by omega)]
  refine foldl_touch (fun s : Fast5_Summary => s.pm_params_m) _
    (fun p k => if (p.2.strand = st ∨ p.2.strand = 2)
        ∧ (if st = 0 then (p.1, "") else ("", p.1)) = k then
      some { env.pm_params_default with
        scale := (env.mean_stdv_of (ev.map (fun e => e.mean))).2 / p.2.stdv
        shift := (env.mean_stdv_of (ev.map (fun e => e.mean))).1
          - (env.mean_stdv_of (ev.map (fun e => e.mean))).2 / p.2.stdv * p.2.mean }
      else none) ?_ models s k
  intro p s k
  by_cases helig : p.2.strand = st ∨ p.2.strand = 2
  · by_cases hkey : (if st = 0 then (p.1, "") else ("", p.1)) = k
    · simp only [helig, if_true, hkey, and_self, Option.or_some]
      rw [← hkey]
      exact map_find_set_same _ _ _
    · simp only [helig, if_true, hkey, and_false, if_false, Option.none_or]
      exact map_find_set_other _ _ _ _ (fun h => hkey h.symm)
  · simp only [helig, if_false, false_and, Option.none_or]

/-- A strand with fewer calibrated events than `min_ed_events` leaves the object as
it is. -/
theorem scale_strand_skip (cfg : Config) (env : Externals) (models : Pore_Model_Dict)
    (st : Nat) (ev : List Event) (s : Fast5_Summary) (hmin : ev.length < cfg.min_ed_events) :
    summarize.scale_strand cfg env models st ev s = s := by
  unfold summarize.scale_strand
  rw [if_pos hmin]

/-- The parameter map after the joint scaling: a key holds the value of the last
eligible pair of models whose key it is, or what it held before. -/
theorem scale_together_find (env : Externals) (models : Pore_Model_Dict)
    (e0 e1 : List Event) (s : Fast5_Summary) (k : String × String) :
    map_find (summarize.scale_together env models e0 e1 s).pm_params_m k
      = (models.reverse.findSome? (fun p0 =>
          if p0.2.strand = 0 ∨ p0.2.strand = 2 then
            models.reverse.findSome? (fun p1 =>
              if (p1.2.strand = 1 ∨ p1.2.strand = 2) ∧ (p0.1, p1.1) = k then
                some { env.pm_params_default with
                  scale := ((env.mean_stdv_of (e0.map (fun e => e.mean))).2 / p0.2.stdv
                    + (env.mean_stdv_of (e1.map (fun e => e.mean))).2 / p1.2.stdv) / 2
                  shift := ((env.mean_stdv_of (e0.map (fun e => e.mean))).1
                    - ((env.mean_stdv_of (e0.map (fun e => e.mean))).2 / p0.2.stdv
                      + (env.mean_stdv_of (e1.map (fun e => e.mean))).2 / p1.2.stdv) / 2
                      * p0.2.mean
                    + (env.mean_stdv_of (e1.map (fun e => e.mean))).1
                    - ((env.mean_stdv_of (e0.map (fun e => e.mean))).2 / p0.2.stdv
                      + (env.mean_stdv_of (e1.map (fun e => e.mean))).2 / p1.2.stdv) / 2
                      * p1.2.mean) / 2 }
              else none)
          else none)).or (map_find s.pm_params_m k) := by
  unfold summarize.scale_together
  refine foldl_touch (fun s : Fast5_Summary => s.pm_params_m) _
    (fun p0 k => if p0.2.strand = 0 ∨ p0.2.strand = 2 then
      models.reverse.findSome? (fun p1 =>
        if (p1.2.strand = 1 ∨ p1.2.strand = 2) ∧ (p0.1, p1.1) = k then
          some { env.pm_params_default with
            scale := ((env.mean_stdv_of (e0.map (fun e => e.mean))).2 / p0.2.stdv
              + (env.mean_stdv_of (e1.map (fun e => e.mean))).2 / p1.2.stdv) / 2
            shift := ((env.mean_stdv_of (e0.map (fun e => e.mean))).1
              - ((env.mean_stdv_of (e0.map (fun e => e.mean))).2 / p0.2.stdv
                + (env.mean_stdv_of (e1.map (fun e => e.mean))).2 / p1.2.stdv) / 2
                * p0.2.mean
              + (env.mean_stdv_of (e1.map (fun e => e.mean))).1
              - ((env.mean_stdv_of (e0.map (fun e => e.mean))).2 / p0.2.stdv
                + (env.mean_stdv_of (e1.map (fun e => e.mean))).2 / p1.2.stdv) / 2
                * p1.2.mean) / 2 }
        else none)
      else none) ?_ models s k
  intro p0 s k
  by_cases h0 : p0.2.strand = 0 ∨ p0.2.strand = 2
  · simp only [h0, if_true]
    refine foldl_touch (fun s : Fast5_Summary => s.pm_params_m) _
      (fun p1 k => if (p1.2.strand = 1 ∨ p1.2.strand = 2) ∧ (p0.1, p1.1) = k then
          some { env.pm_params_default with
            scale := ((env.mean_stdv_of (e0.map (fun e => e.mean))).2 / p0.2.stdv
              + (env.mean_stdv_of (e1.map (fun e => e.mean))).2 / p1.2.stdv) / 2
            shift := ((env.mean_stdv_of (e0.map (fun e => e.mean))).1
              - ((env.mean_stdv_of (e0.map (fun e => e.mean))).2 / p0.2.stdv
                + (env.mean_stdv_of (e1.map (fun e => e.mean))).2 / p1.2.stdv) / 2
                * p0.2.mean
              + (env.mean_stdv_of (e1.map (fun e => e.mean))).1
              - ((env.mean_stdv_of (e0.map (fun e => e.mean))).2 / p0.2.stdv
                + (env.mean_stdv_of (e1.map (fun e => e.mean))).2 / p1.2.stdv) / 2
                * p1.2.mean) / 2 }
        else none) ?_ models s k
    intro p1 s k
    by_cases h1 : p1.2.strand = 1 ∨ p1.2.strand = 2
    · by_cases hkey : (p0.1, p1.1) = k
      · simp only [h1, if_true, hkey, and_self, Option.or_some]
        rw [← hkey]
        exact map_find_set_same _ _ _
      · simp only [h1, if_true, hkey, and_false, if_false, Option.none_or]
        exact map_find_set_other _ _ _ _ (fun h => hkey h.symm)
    · simp only [h1, if_false, false_and, Option.none_or]
  · simp only [h0, if_false, Option.none_or]

/-! ## Runs of `summarize` that accept the read -/

theorem foldl_rel {σ ι : Type} (R : σ → σ → Prop) (hrefl : ∀ s, R s s)
    (htrans : ∀ a b c, R a b → R b c → R a c) (F : σ → ι → σ) (hstep : ∀ s p, R s (F s p)) :
    ∀ (l : List ι) (s : σ), R s (l.foldl F s) := by
  intro l
  induction l with
  | nil => intro s; exact hrefl s
  | cons p rest ih => intro s; exact htrans _ _ _ (hstep s p) (ih (F s p))

/-- The model scalings change the two parameter maps and nothing else. -/
theorem model_scalings_frame (cfg : Config) (env : Externals) (models : Pore_Model_Dict)
    (e0 e1 : List Event) (s : Fast5_Summary) :
    summarize.model_scalings cfg env models e0 e1 s
      = { s with
          pm_params_m := (summarize.model_scalings cfg env models e0 e1 s).pm_params_m
          st_params_m := (summarize.model_scalings cfg env models e0 e1 s).st_params_m } := by
  have hrefl : ∀ a : Fast5_Summary,
      a = { a with pm_params_m := a.pm_params_m, st_params_m := a.st_params_m } := fun a => rfl
  have htrans : ∀ a b c : Fast5_Summary,
      b = { a with pm_params_m := b.pm_params_m, st_params_m := b.st_params_m } →
      c = { b with pm_params_m := c.pm_params_m, st_params_m := c.st_params_m } →
      c = { a with pm_params_m := c.pm_params_m, st_params_m := c.st_params_m } := by
    intro a b c hab hbc
    rw [hbc, hab]
  have hstrand : ∀ (st : Nat) (ev : List Event) (a : Fast5_Summary),
      summarize.scale_strand cfg env models st ev a
        = { a with
            pm_params_m := (summarize.scale_strand cfg env models st ev a).pm_params_m
            st_params_m := (summarize.scale_strand cfg env models st ev a).st_params_m } := by
    intro st ev a
    unfold summarize.scale_strand
    split
    · rfl
    · refine foldl_rel (fun a b : Fast5_Summary =>
        b = { a with pm_params_m := b.pm_params_m, st_params_m := b.st_params_m })
        hrefl htrans _ ?_ models a
      intro s p
      dsimp only
      split <;> rfl
  unfold summarize.model_scalings
  split
  · unfold summarize.scale_together
    refine foldl_rel (fun a b : Fast5_Summary =>
      b = { a with pm_params_m := b.pm_params_m, st_params_m := b.st_params_m })
      hrefl htrans _ ?_ models s
    intro s p0
    dsimp only
    split
    · refine foldl_rel (fun a b : Fast5_Summary =>
        b = { a with pm_params_m := b.pm_params_m, st_params_m := b.st_params_m })
        hrefl htrans _ ?_ models s
      intro s p1
      dsimp only
      split <;> rfl
    · rfl
  · exact htrans _ _ _ (hstrand 0 e0 s) (hstrand 1 e1 _)

/-- What a return of `load_events` tells, for an object that holds its raw events. -/
theorem load_events_inv (cfg : Config) (f : Fast5_File) (s s3 : Fast5_Summary)
    (ed : List EventDetection_Event_Entry) (hed : s.ed_events_ptr = some ed)
    (h : load_events cfg f s = Outcome.returned s3) :
    (s.num_ed_events = 0 ∧ s3 = drop_events s) ∨
    (s.num_ed_events ≠ 0 ∧ ∃ e0 e1, load_events.strand s ed 0 = some e0 ∧
      load_events.strand s ed 1 = some e1 ∧ s3 = { s with events_ptr := (some e0, some e1) }) := by
  unfold load_events at h
  by_cases hv : s.valid = false
  · rw [if_pos hv] at h
    cases h
  · rw [if_neg hv] at h
    have hdn : (drop_events s).num_ed_events = s.num_ed_events := rfl
    have hde : (drop_events s).ed_events_ptr = some ed := hed
    by_cases hn : s.num_ed_events = 0
    · left
      simp only [hdn, hn, if_true] at h
      cases h
      exact ⟨hn, rfl⟩
    · right
      refine ⟨hn, ?_⟩
      simp only [hdn, hn, if_false, hde, Option.isNone_some, Bool.false_eq_true] at h
      have hs0 : load_events.strand (drop_events s) ed 0 = load_events.strand s ed 0 := rfl
      have hs1 : load_events.strand (drop_events s) ed 1 = load_events.strand s ed 1 := rfl
      rw [hs0, hs1] at h
      cases h0 : load_events.strand s ed 0 with
      | none => simp [h0] at h
      | some e0 =>
        cases h1 : load_events.strand s ed 1 with
        | none => simp [h0, h1] at h
        | some e1 =>
          simp only [h0, h1] at h
          cases h
          refine ⟨e0, e1, rfl, rfl, ?_⟩
          rw [← hed]
          rfl

/-- What a return of the choice of `bc_grp` tells. -/
theorem select_bc_grp_returned (l : List String) (s s2 : Fast5_Summary)
    (h : summarize.select_bc_grp l s = Outcome.returned s2) :
    s2 = { s with bc_grp := s2.bc_grp } ∧ s2.bc_grp ≠ "" ∧
    s2.bc_grp =
      (match (List.range 1000).find?
          (fun i => decide (format_tag i ∉ summarize.used_tags l)) with
        | some i => bc_grp_prefix_str ++ format_tag i
        | none => s.bc_grp) := by
  unfold summarize.select_bc_grp at h
  simp only [] at h
  generalize (List.range 1000).find?
    (fun i => decide (format_tag i ∉ summarize.used_tags l)) = r at h ⊢
  cases r with
  | none =>
    by_cases hb : s.bc_grp = ""
    · simp only [hb, if_true] at h
      cases h
    · simp only [hb, if_false] at h
      cases h
      exact ⟨rfl, hb, rfl⟩
  | some i =>
    by_cases hb : bc_grp_prefix_str ++ format_tag i = ""
    · simp only [hb, if_true] at h
      cases h
    · simp only [hb, if_false] at h
      cases h
      exact ⟨rfl, hb, rfl⟩

theorem load_strand_congr (a b : Fast5_Summary) (ed : List EventDetection_Event_Entry)
    (st : Nat) (h1 : a.abasic_level = b.abasic_level) (h2 : a.sampling_rate = b.sampling_rate)
    (h3 : a.strand_bounds = b.strand_bounds)
    (h4 : a.scale_strands_together = b.scale_strands_together) :
    load_events.strand a ed st = load_events.strand b ed st := by
  unfold load_events.strand
  rw [h1, h2, h3, h4]

/-- What a return of the last part of the `try` block with a positive event count
tells. -/
theorem strands_returned (cfg : Config) (env : Externals) (models : Pore_Model_Dict)
    (sst : Bool) (f : Fast5_File) (ed : List EventDetection_Event_Entry)
    (s st : Fast5_Summary) (hed : s.ed_events_ptr = some ed)
    (h : summarize.strands cfg env models sst f ed s = Outcome.returned st)
    (hpos : 0 < st.num_ed_events) :
    ∃ (e0 e1 : List Event) (tl : ℚ × ℚ) (l : List String) (s4 : Fast5_Summary),
      s4 = { s with
          strand_bounds := summarize.strand_bounds cfg ed s.num_ed_events s.abasic_level
          scale_strands_together := summarize.scale_strands_together cfg sst
            (summarize.strand_bounds cfg ed s.num_ed_events s.abasic_level)
          events_ptr := (some e0, some e1)
          time_length := tl } ∧
      ¬ (summarize.strand_bounds cfg ed s.num_ed_events s.abasic_level).s1
          ≤ (summarize.strand_bounds cfg ed s.num_ed_events s.abasic_level).s0 ∧
      s.num_ed_events ≠ 0 ∧
      load_events.strand { s with
          strand_bounds := summarize.strand_bounds cfg ed s.num_ed_events s.abasic_level
          scale_strands_together := summarize.scale_strands_together cfg sst
            (summarize.strand_bounds cfg ed s.num_ed_events s.abasic_level) } ed 0 = some e0 ∧
      load_events.strand { s with
          strand_bounds := summarize.strand_bounds cfg ed s.num_ed_events s.abasic_level
          scale_strands_together := summarize.scale_strands_together cfg sst
            (summarize.strand_bounds cfg ed s.num_ed_events s.abasic_level) } ed 1 = some e1 ∧
      summarize.time_length cfg s.time_length e0 e1 = some tl ∧
      f.basecall_group_list = some l ∧
      summarize.select_bc_grp l (summarize.model_scalings cfg env models e0 e1 s4)
        = Outcome.returned st := by
  unfold summarize.strands at h
  simp only [] at h
  by_cases hb : (summarize.strand_bounds cfg ed s.num_ed_events s.abasic_level).s1
      ≤ (summarize.strand_bounds cfg ed s.num_ed_events s.abasic_level).s0
  · rw [if_pos hb] at h
    cases h
    exact absurd hpos (Nat.lt_irrefl 0)
  · rw [if_neg hb] at h
    cases hl : load_events cfg f { s with
          strand_bounds := summarize.strand_bounds cfg ed s.num_ed_events s.abasic_level
          scale_strands_together := summarize.scale_strands_together cfg sst
            (summarize.strand_bounds cfg ed s.num_ed_events s.abasic_level) } with
    | thrown => rw [hl] at h; cases h
    | exited => rw [hl] at h; cases h
    | undefined => rw [hl] at h; cases h
    | returned s3 =>
      rw [hl] at h
      simp only [] at h
      rcases load_events_inv cfg f _ s3 ed (by exact hed) hl with
        ⟨_, h3⟩ | ⟨hn, e0, e1, h0, h1, h3⟩
      · rw [h3] at h
        cases h
      · rw [h3] at h
        simp only [] at h
        cases htl : summarize.time_length cfg s.time_length e0 e1 with
        | none => rw [htl] at h; cases h
        | some tl =>
          rw [htl] at h
          simp only [] at h
          cases hg : f.basecall_group_list with
          | none =>
            rw [hg] at h
            cases h
            exact absurd hpos (Nat.lt_irrefl 0)
          | some l =>
            rw [hg] at h
            exact ⟨e0, e1, tl, l, _, rfl, hb, hn, h0, h1, htl, rfl, h⟩

/-- What a return of the `try` block with a positive event count tells. -/
theorem try_block_returned (cfg : Config) (env : Externals) (models : Pore_Model_Dict)
    (sst : Bool) (f : Fast5_File) (s st : Fast5_Summary) (h0 : s.num_ed_events = 0)
    (h : summarize.try_block cfg env models sst f s = Outcome.returned st)
    (hpos : 0 < st.num_ed_events) :
    ∃ (rate : ℚ) (rid : String) (evs : List EventDetection_Event_Entry) (level : ℚ),
      f.open_ok = true ∧ f.have_sampling_rate = true ∧ f.sampling_rate = some rate ∧
      ¬ (rate < 1000 ∨ rate > 10000) ∧ f.have_eventdetection_events = true ∧
      f.eventdetection_event_params_read_id = some rid ∧ f.eventdetection_events = some evs ∧
      ¬ (if evs.length > cfg.max_ed_events then cfg.max_ed_events else u32 evs.length)
        < u32 (cfg.trim_margins_0 + cfg.trim_margins_1 + cfg.min_ed_events) ∧
      detect_abasic_level cfg (resize evs
        (if evs.length > cfg.max_ed_events then cfg.max_ed_events else u32 evs.length))
        = some level ∧
      ¬ level ≤ 1 ∧
      summarize.strands cfg env models sst f
        (resize evs (if evs.length > cfg.max_ed_events then cfg.max_ed_events
          else u32 evs.length))
        { s with
          sampling_rate := rate
          read_id := if rid ≠ "" then rid else s.read_id
          ed_events_ptr := some (resize evs
            (if evs.length > cfg.max_ed_events then cfg.max_ed_events else u32 evs.length))
          num_ed_events :=
            if evs.length > cfg.max_ed_events then cfg.max_ed_events else u32 evs.length
          abasic_level := level } = Outcome.returned st := by
  have hzero : ∀ t : Fast5_Summary, t.num_ed_events = 0 → Outcome.returned t = Outcome.returned st
      → False := by
    intro t ht heq
    cases heq
    omega
  unfold summarize.try_block at h
  by_cases h1 : f.open_ok = false
  · rw [if_pos h1] at h
    exact (hzero _ rfl h).elim
  rw [if_neg h1] at h
  by_cases h2 : f.have_sampling_rate = false
  · rw [if_pos h2] at h
    exact (hzero _ (by exact h0) h).elim
  rw [if_neg h2] at h
  cases h3 : f.sampling_rate with
  | none =>
    rw [h3] at h
    exact (hzero _ rfl h).elim
  | some rate =>
    rw [h3] at h
    simp only [] at h
    by_cases h4 : rate < 1000 ∨ rate > 10000
    · rw [if_pos h4] at h
      exact (hzero _ (by exact h0) h).elim
    rw [if_neg h4] at h
    by_cases h5 : f.have_eventdetection_events = false
    · rw [if_pos h5] at h
      exact (hzero _ (by exact h0) h).elim
    rw [if_neg h5] at h
    cases h6 : f.eventdetection_event_params_read_id with
    | none =>
      rw [h6] at h
      exact (hzero _ rfl h).elim
    | some rid =>
      rw [h6] at h
      simp only [] at h
      cases h7 : f.eventdetection_events with
      | none =>
        simp only [load_ed_events, h7] at h
        exact (hzero _ rfl h).elim
      | some evs =>
        simp only [load_ed_events, h7, h0, if_true] at h
        by_cases h8 : (if evs.length > cfg.max_ed_events then cfg.max_ed_events
            else u32 evs.length)
            < u32 (cfg.trim_margins_0 + cfg.trim_margins_1 + cfg.min_ed_events)
        · rw [if_pos h8] at h
          exact (hzero _ rfl h).elim
        rw [if_neg h8] at h
        cases h9 : detect_abasic_level cfg (resize evs
            (if evs.length > cfg.max_ed_events then cfg.max_ed_events else u32 evs.length)) with
        | none =>
          rw [h9] at h
          cases h
        | some level =>
          rw [h9] at h
          simp only [] at h
          by_cases h10 : level ≤ 1
          · rw [if_pos h10] at h
            exact (hzero _ rfl h).elim
          rw [if_neg h10] at h
          refine ⟨rate, rid, evs, level, ?_, ?_, rfl, h4, ?_, rfl, rfl, h8, h9, h10, h⟩
          · simpa using h1
          · simpa using h2
          · simpa using h5

/-- A run of `summarize` that returns with a positive event count went through
every stage; the facts along the run. -/
theorem summarize_accepted (cfg : Config) (env : Externals) (fn : String)
    (models : Pore_Model_Dict) (sst : Bool) (f : Fast5_File) (self s2 : Fast5_Summary)
    (h : summarize cfg env fn models sst f self = Outcome.returned s2)
    (hpos : 0 < s2.num_ed_events) :
    ∃ (evs : List EventDetection_Event_Entry) (e0 e1 : List Event),
      Accepted_Run cfg env fn models sst f self s2 evs e0 e1 := by
  unfold summarize at h
  cases hb : summarize.base_file_name fn with
  | none => rw [hb] at h; cases h
  | some base =>
    rw [hb] at h
    simp only [] at h
    cases ht : summarize.try_block cfg env models sst f (summarize.reset_fields fn base self) with
    | thrown => rw [ht] at h; cases h
    | exited => rw [ht] at h; cases h
    | undefined => rw [ht] at h; cases h
    | returned st =>
      rw [ht] at h
      simp only [summarize.after_loop] at h
      cases h
      have hpos2 : 0 < st.num_ed_events := hpos
      obtain ⟨rate, rid, evs, level, h1, h2, h3, h4, h5, h6, h7, h8, h9, h10, hstr⟩ :=
        try_block_returned cfg env models sst f _ st rfl ht hpos2
      obtain ⟨e0, e1, tl, l, s4, hs4, hb1, hn, hs0, hs1, htl, hg, hsel⟩ :=
        strands_returned cfg env models sst f _ _ st rfl hstr hpos2
      obtain ⟨hst, hne, hbc⟩ := select_bc_grp_returned l _ st hsel
      have q_pm : s4.pm_params_m = self.pm_params_m :=
        (congrArg Fast5_Summary.pm_params_m hs4).trans rfl
      have q_st : s4.st_params_m = self.st_params_m :=
        (congrArg Fast5_Summary.st_params_m hs4).trans rfl
      have q_bc : s4.bc_grp = self.bc_grp := (congrArg Fast5_Summary.bc_grp hs4).trans rfl
      have e_pm : st.pm_params_m
          = (summarize.model_scalings cfg env models e0 e1 s4).pm_params_m :=
        (congrArg Fast5_Summary.pm_params_m hst).trans rfl
      have e_st : st.st_params_m
          = (summarize.model_scalings cfg env models e0 e1 s4).st_params_m :=
        (congrArg Fast5_Summary.st_params_m hst).trans rfl
      rw [model_scalings_frame, hs4] at hst
      rw [(congrArg Fast5_Summary.bc_grp (model_scalings_frame cfg env models e0 e1 s4)).trans
        q_bc] at hbc
      have e_base : st.base_file_name = base :=
        (congrArg Fast5_Summary.base_file_name hst).trans rfl
      have e_rate : st.sampling_rate = rate :=
        (congrArg Fast5_Summary.sampling_rate hst).trans rfl
      have e_rid : st.read_id = if rid ≠ "" then rid else base :=
        (congrArg Fast5_Summary.read_id hst).trans rfl
      have e_num : st.num_ed_events
          = if evs.length > cfg.max_ed_events then cfg.max_ed_events else u32 evs.length :=
        (congrArg Fast5_Summary.num_ed_events hst).trans rfl
      have e_level : st.abasic_level = level :=
        (congrArg Fast5_Summary.abasic_level hst).trans rfl
      have e_bounds : st.strand_bounds = summarize.strand_bounds cfg
          (resize evs (if evs.length > cfg.max_ed_events then cfg.max_ed_events
            else u32 evs.length))
          (if evs.length > cfg.max_ed_events then cfg.max_ed_events else u32 evs.length)
          level :=
        (congrArg Fast5_Summary.strand_bounds hst).trans rfl
      have e_sst : st.scale_strands_together = summarize.scale_strands_together cfg sst
          (summarize.strand_bounds cfg
            (resize evs (if evs.length > cfg.max_ed_events then cfg.max_ed_events
              else u32 evs.length))
            (if evs.length > cfg.max_ed_events then cfg.max_ed_events else u32 evs.length)
            level) :=
        (congrArg Fast5_Summary.scale_strands_together hst).trans rfl
      have e_tl : st.time_length = tl := (congrArg Fast5_Summary.time_length hst).trans rfl
      have e_valid : st.valid = true := (congrArg Fast5_Summary.valid hst).trans rfl
      have e_name : st.file_name = fn := (congrArg Fast5_Summary.file_name hst).trans rfl
      have q_sst : s4.scale_strands_together = st.scale_strands_together := by
        rw [e_sst, hs4]
      refine ⟨evs, e0, e1, ?_⟩
      constructor
      · show summarize.base_file_name fn = some st.base_file_name
        rw [e_base, hb]
      · exact h1
      · exact h2
      · show f.sampling_rate = some st.sampling_rate
        rw [e_rate, h3]
      · show ¬ (st.sampling_rate < 1000 ∨ st.sampling_rate > 10000)
        rw [e_rate]; exact h4
      · exact h5
      · refine ⟨rid, h6, ?_⟩
        show st.read_id = if rid ≠ "" then rid else st.base_file_name
        rw [e_rid, e_base]
      · exact h7
      · exact e_num
      · show ¬ st.num_ed_events < _
        rw [e_num]; exact h8
      · show st.num_ed_events ≠ 0
        rw [e_num]; exact hn
      · show detect_abasic_level cfg (resize evs st.num_ed_events) = some st.abasic_level
        rw [e_num, e_level, h9]
      · show ¬ st.abasic_level ≤ 1
        rw [e_level]; exact h10
      · show st.strand_bounds
            = summarize.strand_bounds cfg (resize evs st.num_ed_events) st.num_ed_events
              st.abasic_level
        rw [e_num, e_level, e_bounds]
      · show ¬ st.strand_bounds.s1 ≤ st.strand_bounds.s0
        rw [e_bounds]; exact hb1
      · show st.scale_strands_together
            = summarize.scale_strands_together cfg sst st.strand_bounds
        rw [e_bounds, e_sst]
      · show load_events.strand _ (resize evs st.num_ed_events) 0 = some e0
        rw [e_num, ← hs0]
        exact load_strand_congr _ _ _ _ e_level e_rate e_bounds e_sst
      · show load_events.strand _ (resize evs st.num_ed_events) 1 = some e1
        rw [e_num, ← hs1]
        exact load_strand_congr _ _ _ _ e_level e_rate e_bounds e_sst
      · show summarize.time_length cfg (0, 0) e0 e1 = some st.time_length
        rw [e_tl]; exact htl
      · exact ⟨s4, q_pm, q_st, q_sst, e_pm, e_st⟩
      · exact ⟨l, hg, hne, hbc⟩
      · exact e_valid
      · exact e_name
      · exact ⟨rfl, rfl⟩

/-! ## C9: joint scaling -/

theorem scale_together_pair (env : Externals) (models : Pore_Model_Dict)
    (e0 e1 : List Event) (s : Fast5_Summary) (hnodup : (models.map Prod.fst).Nodup)
    (p0 p1 : String × Pore_Model) (hp0 : p0 ∈ models) (hp1 : p1 ∈ models)
    (h0 : p0.2.strand = 0 ∨ p0.2.strand = 2) (h1 : p1.2.strand = 1 ∨ p1.2.strand = 2) :
    map_find (summarize.scale_together env models e0 e1 s).pm_params_m (p0.1, p1.1)
      = some { env.pm_params_default with
          scale := ((env.mean_stdv_of (e0.map (fun e => e.mean))).2 / p0.2.stdv
            + (env.mean_stdv_of (e1.map (fun e => e.mean))).2 / p1.2.stdv) / 2
          shift := ((env.mean_stdv_of (e0.map (fun e => e.mean))).1
            - ((env.mean_stdv_of (e0.map (fun e => e.mean))).2 / p0.2.stdv
              + (env.mean_stdv_of (e1.map (fun e => e.mean))).2 / p1.2.stdv) / 2
              * p0.2.mean
            + (env.mean_stdv_of (e1.map (fun e => e.mean))).1
            - ((env.mean_stdv_of (e0.map (fun e => e.mean))).2 / p0.2.stdv
              + (env.mean_stdv_of (e1.map (fun e => e.mean))).2 / p1.2.stdv) / 2
              * p1.2.mean) / 2 } := by
  rw [scale_together_find]
  have hinner : ∀ q0 : String × Pore_Model, q0 ∈ models → ∀ w,
      models.reverse.findSome? (fun q1 =>
        if (q1.2.strand = 1 ∨ q1.2.strand = 2) ∧ (q0.1, q1.1) = (p0.1, p1.1) then
          some ({ env.pm_params_default with
            scale := ((env.mean_stdv_of (e0.map (fun e => e.mean))).2 / q0.2.stdv
              + (env.mean_stdv_of (e1.map (fun e => e.mean))).2 / q1.2.stdv) / 2
            shift := ((env.mean_stdv_of (e0.map (fun e => e.mean))).1
              - ((env.mean_stdv_of (e0.map (fun e => e.mean))).2 / q0.2.stdv
                + (env.mean_stdv_of (e1.map (fun e => e.mean))).2 / q1.2.stdv) / 2
                * q0.2.mean
              + (env.mean_stdv_of (e1.map (fun e => e.mean))).1
              - ((env.mean_stdv_of (e0.map (fun e => e.mean))).2 / q0.2.stdv
                + (env.mean_stdv_of (e1.map (fun e => e.mean))).2 / q1.2.stdv) / 2
                * q1.2.mean) / 2 } : Pore_Model_Parameters)
        else none) = some w →
      q0 = p0 ∧ w = { env.pm_params_default with
          scale := ((env.mean_stdv_of (e0.map (fun e => e.mean))).2 / p0.2.stdv
            + (env.mean_stdv_of (e1.map (fun e => e.mean))).2 / p1.2.stdv) / 2
          shift := ((env.mean_stdv_of (e0.map (fun e => e.mean))).1
            - ((env.mean_stdv_of (e0.map (fun e => e.mean))).2 / p0.2.stdv
              + (env.mean_stdv_of (e1.map (fun e => e.mean))).2 / p1.2.stdv) / 2
              * p0.2.mean
            + (env.mean_stdv_of (e1.map (fun e => e.mean))).1
            - ((env.mean_stdv_of (e0.map (fun e => e.mean))).2 / p0.2.stdv
              + (env.mean_stdv_of (e1.map (fun e => e.mean))).2 / p1.2.stdv) / 2
              * p1.2.mean) / 2 } := by
    intro q0 hq0 w hw
    obtain ⟨l1, q1, l2, hl, hq1, _⟩ := List.findSome?_eq_some_iff.mp hw
    have hq1m : q1 ∈ models := by
      rw [← List.mem_reverse, hl]
      simp
    split at hq1
    · rename_i hc
      have hk := hc.2
      simp only [Prod.mk.injEq] at hk
      have e0q := dict_entry_unique models hnodup q0 p0 hq0 hp0 hk.1
      have e1q := dict_entry_unique models hnodup q1 p1 hq1m hp1 hk.2
      subst e0q
      subst e1q
      cases hq1
      exact ⟨rfl, rfl⟩
    · cases hq1
  have hor : ∀ (a b : Option Pore_Model_Parameters) (v : Pore_Model_Parameters),
      a = some v → a.or b = some v := by
    intro a b v ha
    rw [ha]
    rfl
  refine hor _ _ _ (findSome_unique models _ _ ⟨p0, hp0, ?_⟩ ?_)
  · rw [if_pos h0]
    refine findSome_unique models _ _ ⟨p1, hp1, ?_⟩ ?_
    · rw [if_pos ⟨h1, rfl⟩]
    · intro q1 hq1 w hw
      split at hw
      · rename_i hc
        have hk := hc.2
        simp only [Prod.mk.injEq, true_and] at hk
        have e1q := dict_entry_unique models hnodup q1 p1 hq1 hp1 hk
        subst e1q
        cases hw
        rfl
      · cases hw
  · intro q0 hq0 w hw
    split at hw
    · exact (hinner q0 hq0 w hw).2
    · cases hw

theorem scale_together_other (env : Externals) (models : Pore_Model_Dict)
    (e0 e1 : List Event) (s : Fast5_Summary) (key : String × String)
    (hkey : ¬ ∃ p0 ∈ models, ∃ p1 ∈ models, (p0.2.strand = 0 ∨ p0.2.strand = 2) ∧
      (p1.2.strand = 1 ∨ p1.2.strand = 2) ∧ key = (p0.1, p1.1)) :
    map_find (summarize.scale_together env models e0 e1 s).pm_params_m key
      = map_find s.pm_params_m key := by
  rw [scale_together_find, findSome_none, Option.none_or]
  intro p0 hp0
  split
  · rename_i h0
    apply findSome_none
    intro p1 hp1
    split
    · rename_i hc
      exact absurd ⟨p0, hp0, p1, hp1, h0, hc.1, hc.2.symm⟩ hkey
    · rfl
  · rfl

/-- C9.  On a read that `summarize` accepts with joint scaling, with `(mu_0, sigma_0)`
and `(mu_1, sigma_1)` the statistics that `mean_stdv_of` gives for the calibrated
means of the template and of the complement: for every pair of a model `p0` of
strand 0 or 2 and a model `p1` of strand 1 or 2 the parameter map holds under the
key `(p0 name, p1 name)` the scale `(sigma_0 / p0.stdv + sigma_1 / p1.stdv) / 2`
and the shift `((mu_0 - scale * p0.mean) + (mu_1 - scale * p1.mean)) / 2`, and every
other key holds what it held before the call. -/
theorem C9_joint_scaling_parameters (cfg : Config) (env : Externals) (fn : String)
    (models : Pore_Model_Dict) (sst : Bool) (f : Fast5_File) (self s2 : Fast5_Summary)
    (hnodup : (models.map Prod.fst).Nodup)
    (h : summarize cfg env fn models sst f self = Outcome.returned s2)
    (hpos : 0 < s2.num_ed_events) (hjoint : s2.scale_strands_together = true) :
    ∃ (evs : List EventDetection_Event_Entry) (e0 e1 : List Event),
      f.eventdetection_events = some evs ∧
      load_events.strand s2 (resize evs s2.num_ed_events) 0 = some e0 ∧
      load_events.strand s2 (resize evs s2.num_ed_events) 1 = some e1 ∧
      (∀ p0 ∈ models, ∀ p1 ∈ models, (p0.2.strand = 0 ∨ p0.2.strand = 2) →
        (p1.2.strand = 1 ∨ p1.2.strand = 2) →
        map_find s2.pm_params_m (p0.1, p1.1)
          = some { env.pm_params_default with
              scale := ((env.mean_stdv_of (e0.map (fun e => e.mean))).2 / p0.2.stdv
                + (env.mean_stdv_of (e1.map (fun e => e.mean))).2 / p1.2.stdv) / 2
              shift := (((env.mean_stdv_of (e0.map (fun e => e.mean))).1
                  - ((env.mean_stdv_of (e0.map (fun e => e.mean))).2 / p0.2.stdv
                    + (env.mean_stdv_of (e1.map (fun e => e.mean))).2 / p1.2.stdv) / 2
                    * p0.2.mean)
                + ((env.mean_stdv_of (e1.map (fun e => e.mean))).1
                  - ((env.mean_stdv_of (e0.map (fun e => e.mean))).2 / p0.2.stdv
                    + (env.mean_stdv_of (e1.map (fun e => e.mean))).2 / p1.2.stdv) / 2
                    * p1.2.mean)) / 2 }) ∧
      (∀ key : String × String,
        (¬ ∃ p0 ∈ models, ∃ p1 ∈ models, (p0.2.strand = 0 ∨ p0.2.strand = 2) ∧
          (p1.2.strand = 1 ∨ p1.2.strand = 2) ∧ key = (p0.1, p1.1)) →
        map_find s2.pm_params_m key = map_find self.pm_params_m key) := by
  obtain ⟨evs, e0, e1, run⟩ := summarize_accepted cfg env fn models sst f self s2 h hpos
  obtain ⟨s1, hpm, _, hsst, hres, _⟩ := run.scalings
  have hmode : summarize.model_scalings cfg env models e0 e1 s1
      = summarize.scale_together env models e0 e1 s1 := by
    unfold summarize.model_scalings
    rw [if_pos (hsst.trans hjoint)]
  refine ⟨evs, e0, e1, run.events_value, run.strand_0, run.strand_1, ?_, ?_⟩
  · intro p0 hp0 p1 hp1 h0 h1
    rw [hres, hmode, scale_together_pair env models e0 e1 s1 hnodup p0 p1 hp0 hp1 h0 h1]
    congr 2
    ring_nf
  · intro key hkey
    rw [hres, hmode, scale_together_other env models e0 e1 s1 key hkey, hpm]

/-- Witness of C9: a read of 21 events with a hairpin at `[8, 13)`, margins of one
event, three models, joint scaling requested. -/
theorem C9_joint_scaling_parameters_witness :
    (test_models.map Prod.fst).Nodup ∧
    ∃ s2 : Fast5_Summary,
      summarize small_config test_env "a/b/read1.fast5" test_models true
        (good_file (block_read 8 5 8) ["Nanocall_000"]) Fast5_Summary.fresh
        = Outcome.returned s2 ∧
      0 < s2.num_ed_events ∧ s2.scale_strands_together = true ∧
      map_find s2.pm_params_m ("t", "c") = some ⟨9 / 20, 55 / 2, 0, 1, 1, 1⟩ ∧
      ∀ key : String × String,
        (¬ ∃ p0 ∈ test_models, ∃ p1 ∈ test_models, (p0.2.strand = 0 ∨ p0.2.strand = 2) ∧
          (p1.2.strand = 1 ∨ p1.2.strand = 2) ∧ key = (p0.1, p1.1)) →
        map_find s2.pm_params_m key = map_find Fast5_Summary.fresh.pm_params_m key := by
  have hfact : (summarize small_config test_env "a/b/read1.fast5" test_models true
      (good_file (block_read 8 5 8) ["Nanocall_000"]) Fast5_Summary.fresh).state?.map
      (fun s : Fast5_Summary => (s.num_ed_events, s.scale_strands_together,
        map_find s.pm_params_m ("t", "c")))
      = some (21, true, some ⟨9 / 20, 55 / 2, 0, 1, 1, 1⟩) := by decide!
  cases hsum : summarize small_config test_env "a/b/read1.fast5" test_models true
      (good_file (block_read 8 5 8) ["Nanocall_000"]) Fast5_Summary.fresh with
  | returned s2 =>
    rw [hsum] at hfact
    simp only [Outcome.state?, Option.map_some', Option.some.injEq, Prod.mk.injEq] at hfact
    obtain ⟨hnum, hsst, hkey⟩ := hfact
    obtain ⟨_, _, _, _, _, _, _, hother⟩ := C9_joint_scaling_parameters small_config test_env
      "a/b/read1.fast5" test_models true (good_file (block_read 8 5 8) ["Nanocall_000"])
      Fast5_Summary.fresh s2 (by decide) hsum (by omega) hsst
    exact ⟨by decide, s2, rfl, by omega, hsst, hkey, hother⟩
  | thrown => rw [hsum] at hfact; cases hfact
  | exited => rw [hsum] at hfact; cases hfact
  | undefined => rw [hsum] at hfact; cases hfact

/-! ## C8: independent scaling -/

theorem scale_strand_entry (cfg : Config) (env : Externals) (models : Pore_Model_Dict)
    (st : Nat) (ev : List Event) (s : Fast5_Summary) (hmin : cfg.min_ed_events ≤ ev.length)
    (hnodup : (models.map Prod.fst).Nodup) (p : String × Pore_Model) (hp : p ∈ models)
    (helig : p.2.strand = st ∨ p.2.strand = 2) :
    map_find (summarize.scale_strand cfg env models st ev s).pm_params_m
        (if st = 0 then (p.1, "") else ("", p.1))
      = some { env.pm_params_default with
          scale := (env.mean_stdv_of (ev.map (fun e => e.mean))).2 / p.2.stdv
          shift := (env.mean_stdv_of (ev.map (fun e => e.mean))).1
            - (env.mean_stdv_of (ev.map (fun e => e.mean))).2 / p.2.stdv * p.2.mean } := by
  rw [scale_strand_find cfg env models st ev s _ hmin]
  have hor : ∀ (a b : Option Pore_Model_Parameters) (v : Pore_Model_Parameters),
      a = some v → a.or b = some v := by
    intro a b v ha
    rw [ha]
    rfl
  refine hor _ _ _ (findSome_unique models _ _ ⟨p, hp, ?_⟩ ?_)
  · rw [if_pos ⟨helig, rfl⟩]
  · intro q hq w hw
    by_cases hc : (q.2.strand = st ∨ q.2.strand = 2)
        ∧ (if st = 0 then (q.1, "") else ("", q.1)) = (if st = 0 then (p.1, "") else ("", p.1))
    · rw [if_pos hc] at hw
      have hname : q.1 = p.1 := by
        have hk := hc.2
        by_cases hst : st = 0
        · simp only [hst, if_true, Prod.mk.injEq, and_true] at hk
          exact hk
        · simp only [hst, if_false, Prod.mk.injEq, true_and] at hk
          exact hk
      have := dict_entry_unique models hnodup q p hq hp hname
      subst this
      cases hw
      rfl
    · rw [if_neg hc] at hw
      cases hw

theorem scale_strand_other (cfg : Config) (env : Externals) (models : Pore_Model_Dict)
    (st : Nat) (ev : List Event) (s : Fast5_Summary) (key : String × String)
    (hkey : ∀ p ∈ models, (if st = 0 then (p.1, "") else ("", p.1)) ≠ key) :
    map_find (summarize.scale_strand cfg env models st ev s).pm_params_m key
      = map_find s.pm_params_m key := by
  by_cases hmin : ev.length < cfg.min_ed_events
  · rw [scale_strand_skip cfg env models st ev s hmin]
  · rw [scale_strand_find cfg env models st ev s key (by omega), findSome_none, Option.none_or]
    intro p hp
    rw [if_neg (fun hc => hkey p hp hc.2)]

/-- C8 fails as stated for a model whose name is empty: the keys of the two strands
are then the same key `("", "")`.  On a read with template means 40 and complement
means 60, both strands with at least `min_ed_events` calibrated events, and one model
named `""` of strand 2 with mean 50 and deviation 2, the map holds under `("", "")`
the shift `60 - 1 * 50 = 10` of the complement, not the shift `40 - 1 * 50 = -10`
of the template. -/
theorem C8_empty_model_name_overwritten :
    (summarize small_config test_env "a/b/read1.fast5" unnamed_models false
        (good_file two_level_read []) Fast5_Summary.fresh).state?.map
      (fun s : Fast5_Summary => (s.scale_strands_together, map_find s.pm_params_m ("", "")))
      = some (false, some ⟨1, 10, 0, 1, 1, 1⟩) ∧
    (summarize small_config test_env "a/b/read1.fast5" unnamed_models false
        (good_file two_level_read []) Fast5_Summary.fresh).state?.bind
      (fun s : Fast5_Summary =>
        (load_events.strand s (resize two_level_read s.num_ed_events) 0).map
          (fun l => (decide (small_config.min_ed_events ≤ l.length),
            test_env.mean_stdv_of (l.map (fun e => e.mean)))))
      = some (true, (40, 2)) ∧
    ((⟨2 / 2, 40 - 2 / 2 * 50, 0, 1, 1, 1⟩ : Pore_Model_Parameters) ≠ ⟨1, 10, 0, 1, 1, 1⟩) := by
  refine ⟨by decide!, by decide!, by decide!⟩

/-- C8, amended.  On a read that `summarize` accepts with independent scaling, for
every strand `st` whose calibrated sequence has at least `min_ed_events` events,
with `(mu, sigma)` the statistics that `mean_stdv_of` gives for its means, and every
model with a non-empty name and strand `st` or 2, the parameter map holds under the
key with the model name in slot `st` and the empty string in the other slot the
scale `sigma / M_stdev` and the shift `mu - scale * M_mean`; for `(mu, sigma) = (80, 10)`
and a model with mean 0 and deviation 1 these are scale 10 and shift 80. -/
theorem C8_independent_scaling_parameters (cfg : Config) (env : Externals) (fn : String)
    (models : Pore_Model_Dict) (sst : Bool) (f : Fast5_File) (self s2 : Fast5_Summary)
    (hnodup : (models.map Prod.fst).Nodup)
    (h : summarize cfg env fn models sst f self = Outcome.returned s2)
    (hpos : 0 < s2.num_ed_events) (hindep : s2.scale_strands_together = false) :
    ∃ (evs : List EventDetection_Event_Entry) (e0 e1 : List Event),
      f.eventdetection_events = some evs ∧
      load_events.strand s2 (resize evs s2.num_ed_events) 0 = some e0 ∧
      load_events.strand s2 (resize evs s2.num_ed_events) 1 = some e1 ∧
      ∀ (st : Nat) (name : String) (model : Pore_Model), st < 2 → (name, model) ∈ models →
        name ≠ "" → (model.strand = st ∨ model.strand = 2) →
        cfg.min_ed_events ≤ (if st = 0 then e0 else e1).length →
        map_find s2.pm_params_m (if st = 0 then (name, "") else ("", name))
          = some { env.pm_params_default with
              scale := (env.mean_stdv_of
                ((if st = 0 then e0 else e1).map (fun e => e.mean))).2 / model.stdv
              shift := (env.mean_stdv_of
                  ((if st = 0 then e0 else e1).map (fun e => e.mean))).1
                - (env.mean_stdv_of
                  ((if st = 0 then e0 else e1).map (fun e => e.mean))).2 / model.stdv
                  * model.mean } ∧
        (env.mean_stdv_of ((if st = 0 then e0 else e1).map (fun e => e.mean)) = (80, 10) →
          model.mean = 0 → model.stdv = 1 →
          map_find s2.pm_params_m (if st = 0 then (name, "") else ("", name))
            = some { env.pm_params_default with scale := 10, shift := 80 }) := by
  obtain ⟨evs, e0, e1, run⟩ := summarize_accepted cfg env fn models sst f self s2 h hpos
  obtain ⟨s1, hpm, _, hsst, hres, _⟩ := run.scalings
  have hmode : summarize.model_scalings cfg env models e0 e1 s1
      = summarize.scale_strand cfg env models 1 e1
          (summarize.scale_strand cfg env models 0 e0 s1) := by
    unfold summarize.model_scalings
    rw [if_neg (by rw [hsst, hindep]; decide)]
  refine ⟨evs, e0, e1, run.events_value, run.strand_0, run.strand_1, ?_⟩
  intro st name model hst hmem hname helig hmin
  have hmain : map_find s2.pm_params_m (if st = 0 then (name, "") else ("", name))
      = some { env.pm_params_default with
          scale := (env.mean_stdv_of
            ((if st = 0 then e0 else e1).map (fun e => e.mean))).2 / model.stdv
          shift := (env.mean_stdv_of
              ((if st = 0 then e0 else e1).map (fun e => e.mean))).1
            - (env.mean_stdv_of
              ((if st = 0 then e0 else e1).map (fun e => e.mean))).2 / model.stdv
              * model.mean } := by
    rw [hres, hmode]
    have hcases : st = 0 ∨ st = 1 := by omega
    rcases hcases with rfl | rfl
    · simp only [if_true] at hmin ⊢
      rw [scale_strand_other cfg env models 1 e1 _ (name, "") (by
        intro p _ hp
        simp only [if_neg (by decide : ¬ (1 = 0)), Prod.mk.injEq] at hp
        exact hname hp.1.symm)]
      exact scale_strand_entry cfg env models 0 e0 s1 hmin hnodup (name, model) hmem helig
    · simp only [if_neg (by decide : ¬ (1 = 0))] at hmin ⊢
      have := scale_strand_entry cfg env models 1 e1
        (summarize.scale_strand cfg env models 0 e0 s1) hmin hnodup (name, model) hmem helig
      simpa only [if_neg (by decide : ¬ (1 = 0))] using this
  refine ⟨hmain, ?_⟩
  intro hstat hmean hstdv
  rw [hmain, hstat, hmean, hstdv]
  norm_num

/-- Witness of C8 (amended): the template of a read of 21 events with a hairpin at
`[8, 13)` and the template model `t`, independent scaling. -/
theorem C8_independent_scaling_parameters_witness :
    (test_models.map Prod.fst).Nodup ∧
    ∃ s2 : Fast5_Summary,
      summarize small_config test_env "a/b/read1.fast5" test_models false
        (good_file (block_read 8 5 8) ["Nanocall_000"]) Fast5_Summary.fresh
        = Outcome.returned s2 ∧
      0 < s2.num_ed_events ∧ s2.scale_strands_together = false ∧
      ∃ e0 : List Event,
        load_events.strand s2 (resize (block_read 8 5 8) s2.num_ed_events) 0 = some e0 ∧
        small_config.min_ed_events ≤ e0.length ∧
        map_find s2.pm_params_m ("t", "")
          = some { test_env.pm_params_default with
              scale := (test_env.mean_stdv_of (e0.map (fun e => e.mean))).2 / 5
              shift := (test_env.mean_stdv_of (e0.map (fun e => e.mean))).1
                - (test_env.mean_stdv_of (e0.map (fun e => e.mean))).2 / 5 * 40 } := by
  have hfact : (summarize small_config test_env "a/b/read1.fast5" test_models false
      (good_file (block_read 8 5 8) ["Nanocall_000"]) Fast5_Summary.fresh).state?.bind
      (fun s : Fast5_Summary =>
        (load_events.strand s (resize (block_read 8 5 8) s.num_ed_events) 0).map
          (fun l => (s.num_ed_events, s.scale_strands_together, l.length)))
      = some (21, false, 6) := by decide!
  cases hsum : summarize small_config test_env "a/b/read1.fast5" test_models false
      (good_file (block_read 8 5 8) ["Nanocall_000"]) Fast5_Summary.fresh with
  | returned s2 =>
    rw [hsum] at hfact
    simp only [Outcome.state?, Option.some_bind] at hfact
    obtain ⟨evs, e0, e1, hevs, hs0, _, hall⟩ := C8_independent_scaling_parameters small_config
      test_env "a/b/read1.fast5" test_models false
      (good_file (block_read 8 5 8) ["Nanocall_000"]) Fast5_Summary.fresh s2 (by decide) hsum
      (by
        cases hl : load_events.strand s2 (resize (block_read 8 5 8) s2.num_ed_events) 0 with
        | none => rw [hl] at hfact; cases hfact
        | some l =>
          rw [hl] at hfact
          simp only [Option.map_some', Option.some.injEq, Prod.mk.injEq] at hfact
          omega)
      (by
        cases hl : load_events.strand s2 (resize (block_read 8 5 8) s2.num_ed_events) 0 with
        | none => rw [hl] at hfact; cases hfact
        | some l =>
          rw [hl] at hfact
          simp only [Option.map_some', Option.some.injEq, Prod.mk.injEq] at hfact
          exact hfact.2.1)
    have hevs2 : evs = block_read 8 5 8 := by
      simp only [good_file, Option.some.injEq] at hevs
      exact hevs.symm
    subst hevs2
    rw [hs0] at hfact
    simp only [Option.map_some', Option.some.injEq, Prod.mk.injEq] at hfact
    obtain ⟨hnum, hsst, hlen⟩ := hfact
    have hmin : small_config.min_ed_events ≤ e0.length := by
      rw [hlen]
      decide
    exact ⟨by decide, s2, rfl, by omega, hsst, e0, hs0, hmin,
      (hall 0 "t" ⟨40, 5, 0⟩ (by decide) (by decide) (by decide) (by decide) hmin).1⟩
  | thrown => rw [hsum] at hfact; cases hfact
  | exited => rw [hsum] at hfact; cases hfact
  | undefined => rw [hsum] at hfact; cases hfact

/-! ## Every run of `summarize` -/

theorem format_tag_length_pos (i : Nat) : 0 < (format_tag i).length := by
  unfold format_tag
  rw [String.length, List.length_append, List.length_replicate]
  omega

/-- The tag of a group named by the constant followed by `t` is `t`. -/
theorem used_tags_step (t : String) (ht : 0 < t.length) :
    (if (bc_grp_prefix_str ++ t).length ≤ bc_grp_prefix_str.length then none
      else if bc_grp_prefix_str.data.isPrefixOf (bc_grp_prefix_str ++ t).data
        then some (String.mk ((bc_grp_prefix_str ++ t).data.drop bc_grp_prefix_str.length))
      else none) = some t := by
  rw [if_neg (by rw [String.length_append]; omega), String.data_append,
    if_pos (List.isPrefixOf_iff_prefix.mpr (List.prefix_append _ _))]
  have : List.drop bc_grp_prefix_str.length (bc_grp_prefix_str.data ++ t.data) = t.data :=
    List.drop_left' rfl
  rw [this]

/-- What the end of the process in the choice of `bc_grp` tells. -/
theorem select_bc_grp_exited (l : List String) (s : Fast5_Summary)
    (h : summarize.select_bc_grp l s = Outcome.exited) :
    s.bc_grp = "" ∧
    (List.range 1000).find? (fun i => decide (format_tag i ∉ summarize.used_tags l)) = none := by
  unfold summarize.select_bc_grp at h
  simp only [] at h
  generalize (List.range 1000).find?
    (fun i => decide (format_tag i ∉ summarize.used_tags l)) = r at h ⊢
  cases r with
  | none =>
    by_cases hb : s.bc_grp = ""
    · exact ⟨hb, rfl⟩
    · simp only [hb, if_false] at h
      cases h
  | some i =>
    by_cases hb : bc_grp_prefix_str ++ format_tag i = ""
    · have hlen := congrArg String.length hb
      rw [String.length_append] at hlen
      have hpos := format_tag_length_pos i
      have : ("" : String).length = 0 := rfl
      omega
    · simp only [hb, if_false] at h
      cases h

/-- The abasic level is defined on a non-empty list of events when
`0 < abasic_level_top_percent ≤ 100`. -/
theorem detect_abasic_level_defined (cfg : Config) (ed : List EventDetection_Event_Entry)
    (hlen : 0 < ed.length) (hp0 : 0 < cfg.abasic_level_top_percent)
    (hp1 : cfg.abasic_level_top_percent ≤ 100) :
    detect_abasic_level cfg ed ≠ none := by
  obtain ⟨hx, hrank⟩ := abasic_rank_lt cfg.abasic_level_top_percent ed.length hlen hp0 hp1
  rw [detect_abasic_level_of_sorted cfg ed
    ((ed.map (fun e => e.mean)).insertionSort (fun a b => a ≤ b))
    (List.sorted_insertionSort _ _) (List.perm_insertionSort _ _) hx]
  have hl : ((ed.map (fun e => e.mean)).insertionSort (fun a b => a ≤ b)).length = ed.length := by
    rw [List.length_insertionSort, List.length_map]
  rw [List.getElem?_eq_getElem (by rw [hl]; exact hrank)]
  simp

/-- C2, evaluated on a read of 120 events whose only island, `[45, 50)`, starts before
the margin `trim_margins()[2] = 50`: the abasic level is 100, the subtraction
`it->first - trim_margins()[2]` wraps to `4294967291`, the bounds after
`detect_strands` are `(50, 4294967291, 95, 45)`, the guard
`strand_bounds[1] <= strand_bounds[0]` does not reject the read, and `load_events`
reads `ed_events()` outside its 120 elements: the behaviour of `summarize` is
undefined instead of a rejection. -/
theorem C2_template_end_wraps_below_margin :
    (block_read 45 5 70).length = 120 ∧
    detect_abasic_level Config.initial (block_read 45 5 70) = some 100 ∧
    find_islands_5_consec (block_read 45 5 70) 100 = [(45, 50)] ∧
    u32_sub 45 Config.initial.trim_margins_2 = 4294967291 ∧
    summarize.strand_bounds Config.initial (block_read 45 5 70) 120 100
      = ⟨50, 4294967291, 95, 45⟩ ∧
    ¬ (4294967291 ≤ 50) ∧
    summarize Config.initial test_env "a/b/read1.fast5" test_models false
      (good_file (block_read 45 5 70) []) Fast5_Summary.fresh = Outcome.undefined := by
  refine ⟨by decide!, by decide!, by decide!, by decide!, by decide!, by decide, by decide!⟩

/-! ## C10: the joint-scaling flag -/

/-- C10, evaluated on a read of 166 events whose only island is `[110, 115)`, with
joint scaling requested and `min_ed_events = 10`: the read is accepted with the
bounds `(50, 60, 160, 110)`, the complement range is inverted, the `unsigned`
difference `strand_bounds[3] - strand_bounds[2]` wraps to `4294967246`, and
`scale_strands_together` is `true` although the complement has no event at all. -/
theorem C10_joint_flag_set_with_inverted_complement :
    Config.initial.min_ed_events = 10 ∧
    detect_abasic_level Config.initial (block_read 110 5 51) = some 100 ∧
    (summarize Config.initial test_env "a/b/read1.fast5" test_models true
      (good_file (block_read 110 5 51) []) Fast5_Summary.fresh).state?.map
        (fun s => (s.num_ed_events, s.strand_bounds, s.scale_strands_together))
      = some (166, ⟨50, 60, 160, 110⟩, true) ∧
    u32_sub 110 160 = 4294967246 ∧
    load_events.strand (Fast5_Summary.loaded (block_read 110 5 51) ⟨50, 60, 160, 110⟩ true)
      (block_read 110 5 51) 1 = some [] := by
  refine ⟨by decide, by decide!, by decide!, by decide!, by decide!⟩

/-! ## Strand detection: the selected island -/

theorem foldl_min_spec {α : Type} (f : α → Nat) :
    ∀ (xs : List α) (x : α),
      (xs.foldl (fun best y => if f y < f best then y else best) x ∈ x :: xs) ∧
      (∀ p ∈ x :: xs, f (xs.foldl (fun best y => if f y < f best then y else best) x) ≤ f p) := by
  intro xs
  induction xs with
  | nil =>
    intro x
    refine ⟨List.mem_singleton.mpr rfl, fun p hp => ?_⟩
    rw [List.mem_singleton] at hp
    rw [hp]
    exact Nat.le_refl _
  | cons y ys ih =>
    intro x
    simp only [List.foldl_cons]
    by_cases hlt : f y < f x
    · rw [if_pos hlt]
      obtain ⟨hmem, hmin⟩ := ih y
      refine ⟨List.mem_cons_of_mem _ hmem, fun p hp => ?_⟩
      rcases List.mem_cons.mp hp with hpx | hp2
      · rw [hpx]
        exact Nat.le_trans (hmin y (List.mem_cons_self _ _)) (Nat.le_of_lt hlt)
      · exact hmin p hp2
    · rw [if_neg hlt]
      obtain ⟨hmem, hmin⟩ := ih x
      refine ⟨?_, fun p hp => ?_⟩
      · rcases List.mem_cons.mp hmem with h1 | h2
        · rw [h1]
          exact List.mem_cons_self _ _
        · exact List.mem_cons_of_mem _ (List.mem_cons_of_mem _ h2)
      · rcases List.mem_cons.mp hp with hpx | hp2
        · rw [hpx]
          exact hmin x (List.mem_cons_self _ _)
        · rcases List.mem_cons.mp hp2 with hpy | hp3
          · rw [hpy]
            exact Nat.le_trans (hmin x (List.mem_cons_self _ _)) (Nat.le_of_not_lt hlt)
          · exact hmin p (List.mem_cons_of_mem _ hp3)

/-- The element that `min_of` returns belongs to the list and has the least key. -/
theorem min_of_spec {α : Type} (f : α → Nat) (l : List α) (it : α)
    (h : min_of f l = some it) : it ∈ l ∧ ∀ p ∈ l, f it ≤ f p := by
  cases l with
  | nil => cases h
  | cons x xs =>
    simp only [min_of, Option.some.injEq] at h
    rw [← h]
    exact foldl_min_spec f xs x

theorem min_of_some {α : Type} (f : α → Nat) (l : List α) (h : l ≠ []) :
    ∃ it, min_of f l = some it := by
  cases l with
  | nil => exact absurd rfl h
  | cons x xs => exact ⟨_, rfl⟩

/-- The result of `detect_strands` when the merged island list is empty. -/
theorem detect_strands_no_island (cfg : Config) (ed : List EventDetection_Event_Entry)
    (level : ℚ) (sb : Strand_Bounds)
    (h : merge_islands cfg (find_islands_5_consec ed level) = []) :
    detect_strands cfg ed level sb = sb := by
  unfold detect_strands
  simp only []
  rw [h]
  rfl

/-- The result of `detect_strands` when the selected island is too far from the
middle. -/
theorem detect_strands_rejected (cfg : Config) (ed : List EventDetection_Event_Entry)
    (level : ℚ) (sb : Strand_Bounds) (it : Nat × Nat)
    (hsel : min_of (dist_to_middle ed.length)
      (merge_islands cfg (find_islands_5_consec ed level)) = some it)
    (hrej : dist_to_middle ed.length it > ed.length / 6) :
    detect_strands cfg ed level sb = sb := by
  unfold detect_strands
  simp only []
  rw [hsel]
  cases hh : (merge_islands cfg (find_islands_5_consec ed level)).head? with
  | none => rfl
  | some first =>
    cases hl : (merge_islands cfg (find_islands_5_consec ed level)).getLast? with
    | none => rfl
    | some last =>
      simp only []
      rw [if_pos hrej]

/-- The result of `detect_strands` when the selected island is accepted. -/
theorem detect_strands_accepted (cfg : Config) (ed : List EventDetection_Event_Entry)
    (level : ℚ) (sb : Strand_Bounds) (it first last : Nat × Nat)
    (hsel : min_of (dist_to_middle ed.length)
      (merge_islands cfg (find_islands_5_consec ed level)) = some it)
    (hfirst : (merge_islands cfg (find_islands_5_consec ed level)).head? = some first)
    (hlast : (merge_islands cfg (find_islands_5_consec ed level)).getLast? = some last)
    (hacc : dist_to_middle ed.length it ≤ ed.length / 6) :
    detect_strands cfg ed level sb =
      ⟨if first.1 < u32 (cfg.trim_margins_0 + cfg.trim_margins_2)
          then max cfg.trim_margins_0 first.2 else cfg.trim_margins_0,
        u32_sub it.1 cfg.trim_margins_2,
        u32 (it.1 + cfg.trim_margins_3),
        if last.2 > u64_sub ed.length (u32 (cfg.trim_margins_3 + cfg.trim_margins_1))
          then min (u32 (u64_sub ed.length cfg.trim_margins_1)) last.1
          else u32 (u64_sub ed.length cfg.trim_margins_1)⟩ := by
  unfold detect_strands
  simp only []
  rw [hsel, hfirst, hlast]
  simp only []
  rw [if_neg (Nat.not_lt.mpr hacc)]

theorem head_getLast_some {α : Type} (l : List α) (h : l ≠ []) :
    (∃ a, l.head? = some a) ∧ (∃ b, l.getLast? = some b) := by
  cases l with
  | nil => exact absurd rfl h
  | cons x xs => exact ⟨⟨x, rfl⟩, ⟨_, List.getLast?_eq_getLast _ (List.cons_ne_nil x xs)⟩⟩

theorem u32_sub_of_le (a b : Nat) (hb : b ≤ a) (ha : a < 4294967296) : u32_sub a b = a - b := by
  unfold u32_sub
  rw [Nat.mod_eq_of_lt ha, Nat.mod_eq_of_lt (Nat.lt_of_le_of_lt hb ha),
    show a + 4294967296 - b = (a - b) + 4294967296 by omega, Nat.add_mod_right]
  exact Nat.mod_eq_of_lt (by omega)

theorem u64_sub_of_le (a b : Nat) (hb : b ≤ a) (ha : a < 4294967296) : u64_sub a b = a - b := by
  unfold u64_sub
  have h1 : a % 18446744073709551616 = a := Nat.mod_eq_of_lt (by omega)
  have h2 : b % 18446744073709551616 = b := Nat.mod_eq_of_lt (by omega)
  rw [h1, h2, show a + 18446744073709551616 - b = (a - b) + 18446744073709551616 by omega,
    Nat.add_mod_right]
  exact Nat.mod_eq_of_lt (by omega)

theorem u32_of_lt (a : Nat) (ha : a < 4294967296) : u32 a = a := Nat.mod_eq_of_lt ha

/-! ## C15: the distance to the read centre -/

/-- C15 fails in its two examples: by the formula the island `[495, 505)` of a read of
1000 events has distance `min(|495 - 500|, |505 - 500|) = 5`, not 0, and the island
`[0, 10)` has distance `min(|0 - 500|, |10 - 500|) = 490`, not 500. -/
theorem C15_example_distances_are_5_and_490 :
    dist_to_middle 1000 (495, 505) = 5 ∧ dist_to_middle 1000 (495, 505) ≠ 0 ∧
    dist_to_middle 1000 (0, 10) = 490 ∧ dist_to_middle 1000 (0, 10) ≠ 500 := by
  decide

/-- C15, amended.  For island indices and a read size that fit in 32 bits,
`dist_to_middle` is `min(|island.start - N/2|, |island.end - N/2|)` with `N/2` by
integer division; for `N = 1000` the island `[495, 505)` has distance 5 and the
island `[0, 10)` has distance 490. -/
theorem C15_dist_to_middle_formula (n : Nat) (island : Nat × Nat)
    (h1 : island.1 < 4294967296) (h2 : island.2 < 4294967296) (hn : n < 4294967296) :
    dist_to_middle n island = dist_spec n island ∧
    dist_spec n island = min (abs_diff island.1 (n / 2)) (abs_diff island.2 (n / 2)) ∧
    dist_to_middle 1000 (495, 505) = 5 ∧ dist_to_middle 1000 (0, 10) = 490 := by
  have habs : ∀ a : Nat, a < 4294967296 →
      u32 ((a : ℤ) - (n : ℤ) / 2).natAbs = abs_diff a (n / 2) := by
    intro a ha
    have hcast : ((n : ℤ) / 2) = ((n / 2 : Nat) : ℤ) := by norm_cast
    rw [hcast]
    unfold abs_diff
    by_cases hle : a ≤ n / 2
    · rw [if_pos hle]
      have : ((a : ℤ) - ((n / 2 : Nat) : ℤ)).natAbs = n / 2 - a := by omega
      rw [this]
      exact u32_of_lt _ (by omega)
    · rw [if_neg hle]
      have : ((a : ℤ) - ((n / 2 : Nat) : ℤ)).natAbs = a - n / 2 := by omega
      rw [this]
      exact u32_of_lt _ (by omega)
  refine ⟨?_, rfl, by decide, by decide⟩
  unfold dist_to_middle dist_spec
  rw [habs _ h1, habs _ h2]

/-- Witness of C15: the island `[495, 505)` of a read of 1000 events. -/
theorem C15_dist_to_middle_formula_witness :
    dist_to_middle 1000 (495, 505) = dist_spec 1000 (495, 505) ∧
    dist_spec 1000 (495, 505) = min (abs_diff 495 (1000 / 2)) (abs_diff 505 (1000 / 2)) ∧
    dist_to_middle 1000 (495, 505) = 5 ∧ dist_to_middle 1000 (0, 10) = 490 :=
  C15_dist_to_middle_formula 1000 (495, 505) (by decide) (by decide) (by decide)

/-! ## C14: the middle-third rule -/

/-- The bounds that `summarize` has after strand detection when `template_only` is
not set: those of `detect_strands` on the template-only preset. -/
theorem strand_bounds_detect (cfg : Config) (ed : List EventDetection_Event_Entry)
    (num : Nat) (level : ℚ) (hto : cfg.template_only = 0) :
    summarize.strand_bounds cfg ed num level
      = detect_strands cfg ed level
          ⟨cfg.trim_margins_0, u32_sub num cfg.trim_margins_1, 0, 0⟩ := by
  unfold summarize.strand_bounds
  simp only []
  rw [if_pos hto]

/-- C14.  For a read of `N` events (`trimEnd ≤ N < 2^32`) whose merged island list is
not empty, with `template_only` not set: the island that `detect_strands` selects
belongs to the list and has the least distance to the middle; if that distance
exceeds `N / 6` the bounds stay at template `[trimStart, N - trimEnd)` and complement
`(0, 0)`; otherwise the template end and the complement start are computed from the
selected island.  With `N = 1000`, an only island `[495, 505)` (distance 5) is
accepted and an only island `[0, 10)` (distance 490) is rejected, which leaves the
template-only bounds `(50, 950, 0, 0)`. -/
theorem C14_middle_third_rule (cfg : Config) (ed : List EventDetection_Event_Entry)
    (level : ℚ) (hto : cfg.template_only = 0)
    (hne : merge_islands cfg (find_islands_5_consec ed level) ≠ [])
    (ht1 : cfg.trim_margins_1 ≤ ed.length) (hn : ed.length < 4294967296) :
    (∃ it : Nat × Nat,
      min_of (dist_to_middle ed.length) (merge_islands cfg (find_islands_5_consec ed level))
        = some it ∧
      it ∈ merge_islands cfg (find_islands_5_consec ed level) ∧
      (∀ p ∈ merge_islands cfg (find_islands_5_consec ed level),
        dist_to_middle ed.length it ≤ dist_to_middle ed.length p) ∧
      (dist_to_middle ed.length it > ed.length / 6 →
        summarize.strand_bounds cfg ed ed.length level
          = ⟨cfg.trim_margins_0, ed.length - cfg.trim_margins_1, 0, 0⟩) ∧
      (dist_to_middle ed.length it ≤ ed.length / 6 →
        (summarize.strand_bounds cfg ed ed.length level).s1
          = u32_sub it.1 cfg.trim_margins_2 ∧
        (summarize.strand_bounds cfg ed ed.length level).s2
          = u32 (it.1 + cfg.trim_margins_3))) ∧
    (merge_islands Config.initial (find_islands_5_consec (block_read 495 10 495) 100)
        = [(495, 505)] ∧
      dist_to_middle 1000 (495, 505) ≤ 1000 / 6 ∧
      summarize.strand_bounds Config.initial (block_read 495 10 495) 1000 100
        = ⟨50, 445, 545, 950⟩) ∧
    (merge_islands Config.initial (find_islands_5_consec (block_read 0 10 990) 100)
        = [(0, 10)] ∧
      dist_to_middle 1000 (0, 10) > 1000 / 6 ∧
      summarize.strand_bounds Config.initial (block_read 0 10 990) 1000 100
        = ⟨50, 950, 0, 0⟩) := by
  refine ⟨?_, ⟨?_, by decide, ?_⟩, ⟨?_, by decide, ?_⟩⟩
  · obtain ⟨it, hsel⟩ := min_of_some (dist_to_middle ed.length) _ hne
    obtain ⟨hmem, hmin⟩ := min_of_spec _ _ it hsel
    obtain ⟨⟨first, hfirst⟩, ⟨last, hlast⟩⟩ := head_getLast_some _ hne
    refine ⟨it, hsel, hmem, hmin, fun hrej => ?_, fun hacc => ?_⟩
    · rw [strand_bounds_detect cfg ed _ level hto,
        detect_strands_rejected cfg ed level _ it hsel hrej, u32_sub_of_le _ _ ht1 hn]
    · rw [strand_bounds_detect cfg ed _ level hto,
        detect_strands_accepted cfg ed level _ it first last hsel hfirst hlast hacc]
      exact ⟨rfl, rfl⟩
  · rw [find_islands_block 495 10 495 (by decide)]
    decide
  · rw [strand_bounds_detect _ _ _ _ (by decide),
      detect_strands_block Config.initial 495 10 495 (by decide)]
    decide
  · rw [find_islands_block 0 10 990 (by decide)]
    decide
  · rw [strand_bounds_detect _ _ _ _ (by decide),
      detect_strands_block Config.initial 0 10 990 (by decide)]
    decide

/-- Witness of C14: the read of 1000 events with the only island `[495, 505)`. -/
theorem C14_middle_third_rule_witness :
    Config.initial.template_only = 0 ∧
    merge_islands Config.initial (find_islands_5_consec (block_read 495 10 495) 100) ≠ [] ∧
    ∃ it : Nat × Nat,
      min_of (dist_to_middle (block_read 495 10 495).length)
        (merge_islands Config.initial (find_islands_5_consec (block_read 495 10 495) 100))
        = some it ∧
      it ∈ merge_islands Config.initial (find_islands_5_consec (block_read 495 10 495) 100) := by
  have hne : merge_islands Config.initial (find_islands_5_consec (block_read 495 10 495) 100)
      ≠ [] := by
    rw [find_islands_block 495 10 495 (by decide)]
    decide
  obtain ⟨it, hsel, hmem, _⟩ := (C14_middle_third_rule Config.initial (block_read 495 10 495) 100
    (by decide) hne (by rw [block_read_length]; decide) (by rw [block_read_length]; decide)).1
  exact ⟨by decide, hne, it, hsel, hmem⟩

/-! ## C16: template-only bounds -/

/-- C16.  For a read of `N` events with `trimStart + trimEnd + minEvents ≤ N < 2^32`,
if `template_only` is set or the island list is empty after the merge pass, the
strand bounds after strand detection are template `[trimStart, N - trimEnd)` and
complement `(0, 0)`: the complement is empty and the template has at least
`minEvents` events. -/
theorem C16_template_only_bounds (cfg : Config) (ed : List EventDetection_Event_Entry)
    (level : ℚ)
    (hsize : cfg.trim_margins_0 + cfg.trim_margins_1 + cfg.min_ed_events ≤ ed.length)
    (hn : ed.length < 4294967296)
    (h : cfg.template_only ≠ 0 ∨ merge_islands cfg (find_islands_5_consec ed level) = []) :
    summarize.strand_bounds cfg ed ed.length level
      = ⟨cfg.trim_margins_0, ed.length - cfg.trim_margins_1, 0, 0⟩ ∧
    (summarize.strand_bounds cfg ed ed.length level).s3
      ≤ (summarize.strand_bounds cfg ed ed.length level).s2 ∧
    (summarize.strand_bounds cfg ed ed.length level).s0 + cfg.min_ed_events
      ≤ (summarize.strand_bounds cfg ed ed.length level).s1 := by
  have hb : summarize.strand_bounds cfg ed ed.length level
      = ⟨cfg.trim_margins_0, ed.length - cfg.trim_margins_1, 0, 0⟩ := by
    by_cases hto : cfg.template_only = 0
    · rcases h with h | h
      · exact absurd hto h
      · rw [strand_bounds_detect cfg ed _ level hto, detect_strands_no_island cfg ed level _ h,
          u32_sub_of_le _ _ (by omega) hn]
    · unfold summarize.strand_bounds
      simp only []
      rw [if_neg hto, u32_sub_of_le _ _ (by omega) hn]
  rw [hb]
  refine ⟨rfl, Nat.le_refl _, ?_⟩
  show cfg.trim_margins_0 + cfg.min_ed_events ≤ ed.length - cfg.trim_margins_1
  omega

/-- Witness of C16: a read of 120 events at mean 50 with the abasic level 100 has no
island. -/
theorem C16_template_only_bounds_witness :
    Config.initial.trim_margins_0 + Config.initial.trim_margins_1 + Config.initial.min_ed_events
      ≤ (block_read 120 0 0).length ∧
    merge_islands Config.initial (find_islands_5_consec (block_read 120 0 0) 100) = [] ∧
    summarize.strand_bounds Config.initial (block_read 120 0 0) (block_read 120 0 0).length 100
      = ⟨50, 70, 0, 0⟩ := by
  have hno : merge_islands Config.initial (find_islands_5_consec (block_read 120 0 0) 100) = []
      := by decide!
  exact ⟨by decide, hno,
    (C16_template_only_bounds Config.initial (block_read 120 0 0) 100 (by decide) (by decide)
      (Or.inr hno)).1⟩

/-! ## C12, C13: the clamps at the two ends of the read -/

theorem three_island_length : three_island_read.length = 230 := by
  simp [three_island_read]

theorem three_island_merged :
    merge_islands Config.initial (find_islands_5_consec three_island_read 100)
      = [(0, 8), (110, 115), (222, 230)] := by
  decide!

theorem three_island_bounds :
    detect_strands Config.initial three_island_read 100 ⟨50, 180, 0, 0⟩ = ⟨50, 60, 160, 180⟩ := by
  decide!

/-- C12 fails in its example and for every leading island that ends before
`trimStart`: on a read of 230 events with the merged islands `[0, 8)`, `[110, 115)`
and `[222, 230)` and the margins `(50, 50, 50, 50)`, the hairpin `[110, 115)` is
accepted, the first island starts less than `50 + 50` events from the read start, and
the template start is 50, not the island end 8. -/
theorem C12_template_start_stays_at_margin :
    merge_islands Config.initial (find_islands_5_consec three_island_read 100)
      = [(0, 8), (110, 115), (222, 230)] ∧
    min_of (dist_to_middle 230) [(0, 8), (110, 115), (222, 230)] = some (110, 115) ∧
    dist_to_middle 230 (110, 115) ≤ 230 / 6 ∧
    (detect_strands Config.initial three_island_read 100 ⟨50, 180, 0, 0⟩).s0 = 50 ∧
    (detect_strands Config.initial three_island_read 100 ⟨50, 180, 0, 0⟩).s0 ≠ 8 := by
  rw [three_island_bounds]
  exact ⟨three_island_merged, by decide, by decide, rfl, by decide⟩

/-- C12, amended.  Whenever `detect_strands` accepts a hairpin, the template start is
`max(trimStart, end of the first island)` if the first island of the merged list
starts less than `trimStart + trimBeforeHairpin` events from the read start, and
`trimStart` otherwise (`trimStart + trimBeforeHairpin < 2^32`). -/
theorem C12_template_start_is_max_of_margin_and_island_end (cfg : Config)
    (ed : List EventDetection_Event_Entry) (level : ℚ) (sb : Strand_Bounds)
    (it first : Nat × Nat)
    (hsel : min_of (dist_to_middle ed.length)
      (merge_islands cfg (find_islands_5_consec ed level)) = some it)
    (hacc : dist_to_middle ed.length it ≤ ed.length / 6)
    (hfirst : (merge_islands cfg (find_islands_5_consec ed level)).head? = some first)
    (hsum : cfg.trim_margins_0 + cfg.trim_margins_2 < 4294967296) :
    (first.1 < cfg.trim_margins_0 + cfg.trim_margins_2 →
      (detect_strands cfg ed level sb).s0 = max cfg.trim_margins_0 first.2) ∧
    (¬ first.1 < cfg.trim_margins_0 + cfg.trim_margins_2 →
      (detect_strands cfg ed level sb).s0 = cfg.trim_margins_0) := by
  have hne : merge_islands cfg (find_islands_5_consec ed level) ≠ [] := by
    intro hnil
    rw [hnil] at hfirst
    cases hfirst
  obtain ⟨_, ⟨last, hlast⟩⟩ := head_getLast_some _ hne
  rw [detect_strands_accepted cfg ed level sb it first last hsel hfirst hlast hacc,
    u32_of_lt _ hsum]
  exact ⟨fun h => if_pos h, fun h => if_neg h⟩

/-- Witness of C12: the read of 230 events with the islands `[0, 8)`, `[110, 115)`
and `[222, 230)`; the template start is `max(50, 8) = 50`. -/
theorem C12_template_start_is_max_of_margin_and_island_end_witness :
    (0 < Config.initial.trim_margins_0 + Config.initial.trim_margins_2 →
      (detect_strands Config.initial three_island_read 100 ⟨50, 180, 0, 0⟩).s0
        = max Config.initial.trim_margins_0 8) ∧
    (¬ 0 < Config.initial.trim_margins_0 + Config.initial.trim_margins_2 →
      (detect_strands Config.initial three_island_read 100 ⟨50, 180, 0, 0⟩).s0
        = Config.initial.trim_margins_0) :=
  C12_template_start_is_max_of_margin_and_island_end Config.initial three_island_read 100
    ⟨50, 180, 0, 0⟩ (110, 115) (0, 8)
    (by rw [three_island_merged, three_island_length]; decide)
    (by rw [three_island_length]; decide)
    (by rw [three_island_merged]; rfl) (by decide)

/-- C13 fails for a last island that starts within the last `trimEnd` events: on a
read of 230 events with the merged islands `[0, 8)`, `[110, 115)` and `[222, 230)` and
the margins `(50, 50, 50, 50)`, the hairpin `[110, 115)` is accepted, the last island
ends after `230 - (50 + 50)`, and the complement end is `230 - 50 = 180`, not the
island start 222. -/
theorem C13_complement_end_stays_at_margin :
    merge_islands Config.initial (find_islands_5_consec three_island_read 100)
      = [(0, 8), (110, 115), (222, 230)] ∧
    min_of (dist_to_middle 230) [(0, 8), (110, 115), (222, 230)] = some (110, 115) ∧
    dist_to_middle 230 (110, 115) ≤ 230 / 6 ∧
    230 > 230 - (Config.initial.trim_margins_1 + Config.initial.trim_margins_3) ∧
    (detect_strands Config.initial three_island_read 100 ⟨50, 180, 0, 0⟩).s3 = 180 ∧
    (detect_strands Config.initial three_island_read 100 ⟨50, 180, 0, 0⟩).s3 ≠ 222 := by
  rw [three_island_bounds]
  exact ⟨three_island_merged, by decide, by decide, by decide, rfl, by decide⟩

/-- C13, amended.  Whenever `detect_strands` accepts a hairpin on a read of `N` events
(`trimEnd + trimAfterHairpin ≤ N < 2^32`), the complement end is
`min(N - trimEnd, start of the last island)` if the last island of the merged list
ends after `N - (trimEnd + trimAfterHairpin)`, and `N - trimEnd` otherwise. -/
theorem C13_complement_end_is_min_of_margin_and_island_start (cfg : Config)
    (ed : List EventDetection_Event_Entry) (level : ℚ) (sb : Strand_Bounds)
    (it last : Nat × Nat)
    (hsel : min_of (dist_to_middle ed.length)
      (merge_islands cfg (find_islands_5_consec ed level)) = some it)
    (hacc : dist_to_middle ed.length it ≤ ed.length / 6)
    (hlast : (merge_islands cfg (find_islands_5_consec ed level)).getLast? = some last)
    (hsum : cfg.trim_margins_1 + cfg.trim_margins_3 ≤ ed.length)
    (hn : ed.length < 4294967296) :
    (last.2 > ed.length - (cfg.trim_margins_1 + cfg.trim_margins_3) →
      (detect_strands cfg ed level sb).s3 = min (ed.length - cfg.trim_margins_1) last.1) ∧
    (¬ last.2 > ed.length - (cfg.trim_margins_1 + cfg.trim_margins_3) →
      (detect_strands cfg ed level sb).s3 = ed.length - cfg.trim_margins_1) := by
  have hne : merge_islands cfg (find_islands_5_consec ed level) ≠ [] := by
    intro hnil
    rw [hnil] at hlast
    cases hlast
  obtain ⟨⟨first, hfirst⟩, _⟩ := head_getLast_some _ hne
  rw [detect_strands_accepted cfg ed level sb it first last hsel hfirst hlast hacc,
    u32_of_lt (cfg.trim_margins_3 + cfg.trim_margins_1) (by omega),
    u64_sub_of_le _ _ (by omega) hn, u64_sub_of_le _ _ (by omega) hn,
    u32_of_lt (ed.length - cfg.trim_margins_1) (by omega),
    Nat.add_comm cfg.trim_margins_3 cfg.trim_margins_1]
  exact ⟨fun h => if_pos h, fun h => if_neg h⟩

/-- Witness of C13: the read of 230 events with the islands `[0, 8)`, `[110, 115)`
and `[222, 230)`; the complement end is `min(230 - 50, 222) = 180`. -/
theorem C13_complement_end_is_min_of_margin_and_island_start_witness :
    (230 > three_island_read.length
        - (Config.initial.trim_margins_1 + Config.initial.trim_margins_3) →
      (detect_strands Config.initial three_island_read 100 ⟨50, 180, 0, 0⟩).s3
        = min (three_island_read.length - Config.initial.trim_margins_1) 222) ∧
    (¬ 230 > three_island_read.length
        - (Config.initial.trim_margins_1 + Config.initial.trim_margins_3) →
      (detect_strands Config.initial three_island_read 100 ⟨50, 180, 0, 0⟩).s3
        = three_island_read.length - Config.initial.trim_margins_1) :=
  C13_complement_end_is_min_of_margin_and_island_start Config.initial three_island_read 100
    ⟨50, 180, 0, 0⟩ (110, 115) (222, 230)
    (by rw [three_island_merged, three_island_length]; decide)
    (by rw [three_island_length]; decide)
    (by rw [three_island_merged]; rfl)
    (by rw [three_island_length]; decide) (by rw [three_island_length]; decide)

/-! ## C20: the islands of `find_islands_5_consec` are the maximal runs -/

theorem high_at_lt (ed : List EventDetection_Event_Entry) (level : ℚ) (k : Nat)
    (h : high_at ed level k = true) : k < ed.length := by
  unfold high_at at h
  by_contra hlt
  rw [List.getElem?_eq_none (by omega)] at h
  cases h

theorem high_at_true (ed : List EventDetection_Event_Entry) (level : ℚ) (k : Nat)
    (h : high_at ed level k = true) : ∃ e, ed[k]? = some e ∧ e.mean ≥ level := by
  unfold high_at at h
  cases he : ed[k]? with
  | none => rw [he] at h; cases h
  | some e =>
    rw [he] at h
    exact ⟨e, rfl, of_decide_eq_true h⟩

theorem high_at_false (ed : List EventDetection_Event_Entry) (level : ℚ) (k : Nat)
    (hk : k < ed.length) (h : high_at ed level k = false) :
    ∃ e, ed[k]? = some e ∧ e.mean < level := by
  unfold high_at at h
  rw [List.getElem?_eq_getElem hk] at h
  refine ⟨ed[k], List.getElem?_eq_getElem hk, ?_⟩
  exact not_le.mp (of_decide_eq_false h)

theorem maximal_run_start_high (ed : List EventDetection_Event_Entry) (level : ℚ) (i j : Nat)
    (h : maximal_run ed level i j) : high_at ed level i = true :=
  h.2.1 i h.1 (Nat.le_refl i)

/-- The inner loop stops at the first index from `j0` on that is not at high level. -/
theorem scan_spec (ed : List EventDetection_Event_Entry) (level : ℚ) :
    ∀ (fuel j0 : Nat), ed.length ≤ j0 + fuel →
      j0 ≤ find_islands_5_consec.scan ed level fuel j0 ∧
      (∀ k, j0 ≤ k → k < find_islands_5_consec.scan ed level fuel j0 →
        high_at ed level k = true) ∧
      high_at ed level (find_islands_5_consec.scan ed level fuel j0) = false := by
  intro fuel
  induction fuel with
  | zero =>
    intro j0 h
    simp only [find_islands_5_consec.scan]
    refine ⟨Nat.le_refl _, fun k h1 h2 => absurd h2 (by omega), ?_⟩
    unfold high_at
    rw [List.getElem?_eq_none (by omega)]
  | succ fuel ih =>
    intro j0 h
    simp only [find_islands_5_consec.scan]
    cases he : ed[j0]? with
    | none =>
      simp only []
      refine ⟨Nat.le_refl _, fun k h1 h2 => absurd h2 (by omega), ?_⟩
      unfold high_at
      rw [he]
    | some e =>
      simp only []
      by_cases hge : e.mean ≥ level
      · rw [if_pos hge]
        obtain ⟨h1, h2, h3⟩ := ih (j0 + 1) (by omega)
        refine ⟨by omega, fun k hk1 hk2 => ?_, h3⟩
        by_cases hk : k = j0
        · rw [hk]
          unfold high_at
          rw [he]
          exact decide_eq_true hge
        · exact h2 k (by omega) hk2
      · rw [if_neg hge]
        refine ⟨Nat.le_refl _, fun k h1 h2 => absurd h2 (by omega), ?_⟩
        unfold high_at
        rw [he]
        exact decide_eq_false hge

/-- The outer loop from index `i`, where a run can start, appends the maximal runs
of length at least 5 that start at `i` or later, in increasing order. -/
theorem loop_spec (ed : List EventDetection_Event_Entry) (level : ℚ) :
    ∀ (fuel i : Nat) (acc : List (Nat × Nat)), ed.length ≤ i + fuel →
      (i = 0 ∨ high_at ed level (i - 1) = false) →
      ∃ L : List (Nat × Nat),
        find_islands_5_consec.loop ed level fuel i acc = acc ++ L ∧
        (∀ p : Nat × Nat,
          p ∈ L ↔ (i ≤ p.1 ∧ maximal_run ed level p.1 p.2 ∧ 5 ≤ p.2 - p.1)) ∧
        L.Pairwise (fun p q => p.2 < q.1) := by
  have hend : ∀ i : Nat, ed.length ≤ i → ∀ p : Nat × Nat,
      p ∈ ([] : List (Nat × Nat))
        ↔ (i ≤ p.1 ∧ maximal_run ed level p.1 p.2 ∧ 5 ≤ p.2 - p.1) := by
    intro i hi p
    constructor
    · intro h
      cases h
    · rintro ⟨h1, h2, _⟩
      have := high_at_lt ed level p.1 (maximal_run_start_high ed level _ _ h2)
      omega
  intro fuel
  induction fuel with
  | zero =>
    intro i acc hlen _
    exact ⟨[], by simp [find_islands_5_consec.loop], hend i (by omega), List.Pairwise.nil⟩
  | succ fuel ih =>
    intro i acc hlen hbound
    cases he : ed[i]? with
    | none =>
      have hi : ed.length ≤ i := by
        by_contra hlt
        rw [List.getElem?_eq_getElem (by omega)] at he
        cases he
      exact ⟨[], by simp [find_islands_5_consec.loop, he], hend i hi, List.Pairwise.nil⟩
    | some e =>
      by_cases hge : e.mean ≥ level
      · have hhi : high_at ed level i = true := by
          unfold high_at
          rw [he]
          exact decide_eq_true hge
        have hloop := loop_high ed level fuel i acc e he hge
        obtain ⟨hj1, hj2, hj3⟩ := scan_spec ed level ed.length (i + 1) (by omega)
        generalize find_islands_5_consec.scan ed level ed.length (i + 1) = j
          at hj1 hj2 hj3 hloop
        have hrun : maximal_run ed level i j := by
          refine ⟨by omega, fun k hk1 hk2 => ?_, hbound, hj3⟩
          by_cases hk : k = i
          · rw [hk]
            exact hhi
          · exact hj2 k (by omega) hk1
        obtain ⟨L2, hL2, hiff, hpw⟩ := ih (j + 1) (if j - i ≥ 5 then acc ++ [(i, j)] else acc)
          (by omega) (Or.inr (by rw [Nat.add_sub_cancel]; exact hj3))
        have hafter : ∀ p : Nat × Nat, i ≤ p.1 → maximal_run ed level p.1 p.2 →
            p = (i, j) ∨ j + 1 ≤ p.1 := by
          intro p hp hr
          by_cases hpi : p.1 = i
          · left
            have h2 : p.2 = j := by
              rcases Nat.lt_trichotomy p.2 j with hlt | heq | hgt
              · have hp12 := hr.1
                have := hj2 p.2 (by omega) hlt
                rw [hr.2.2.2] at this
                cases this
              · exact heq
              · have := hr.2.1 j hgt (by omega)
                rw [hj3] at this
                cases this
            exact Prod.ext hpi h2
          · right
            by_contra hlt
            have hpj : p.1 ≤ j := by omega
            rcases Nat.lt_or_eq_of_le hpj with hlt2 | heq
            · rcases hr.2.2.1 with h0 | hlow
              · omega
              · have : high_at ed level (p.1 - 1) = true := by
                  by_cases hk : p.1 - 1 = i
                  · rw [hk]
                    exact hhi
                  · exact hj2 (p.1 - 1) (by omega) (by omega)
                rw [hlow] at this
                cases this
            · have := maximal_run_start_high ed level _ _ hr
              rw [heq, hj3] at this
              cases this
        by_cases hlen5 : j - i ≥ 5
        · rw [if_pos hlen5] at hL2
          refine ⟨(i, j) :: L2, ?_, ?_, ?_⟩
          · rw [hloop, if_pos hlen5, hL2, List.append_assoc]
            rfl
          · intro p
            rw [List.mem_cons, hiff]
            constructor
            · rintro (hp | ⟨h1, h2, h3⟩)
              · rw [hp]
                exact ⟨Nat.le_refl _, hrun, hlen5⟩
              · exact ⟨by omega, h2, h3⟩
            · rintro ⟨h1, h2, h3⟩
              rcases hafter p h1 h2 with hp | hp
              · exact Or.inl hp
              · exact Or.inr ⟨hp, h2, h3⟩
          · rw [List.pairwise_cons]
            refine ⟨fun q hq => ?_, hpw⟩
            have := ((hiff q).mp hq).1
            show j < q.1
            omega
        · rw [if_neg hlen5] at hL2
          refine ⟨L2, ?_, ?_, hpw⟩
          · rw [hloop, if_neg hlen5, hL2]
          · intro p
            rw [hiff]
            constructor
            · rintro ⟨h1, h2, h3⟩
              exact ⟨by omega, h2, h3⟩
            · rintro ⟨h1, h2, h3⟩
              rcases hafter p h1 h2 with hp | hp
              · rw [hp] at h3
                exact absurd h3 hlen5
              · exact ⟨hp, h2, h3⟩
      · have hlo : high_at ed level i = false := by
          unfold high_at
          rw [he]
          exact decide_eq_false hge
        obtain ⟨L2, hL2, hiff, hpw⟩ := ih (i + 1) acc (by omega)
          (Or.inr (by rw [Nat.add_sub_cancel]; exact hlo))
        refine ⟨L2, ?_, ?_, hpw⟩
        · simp only [find_islands_5_consec.loop, he, hge, if_false]
          exact hL2
        · intro p
          rw [hiff]
          constructor
          · rintro ⟨h1, h2, h3⟩
            exact ⟨by omega, h2, h3⟩
          · rintro ⟨h1, h2, h3⟩
            refine ⟨?_, h2, h3⟩
            by_contra hlt
            have hpi : p.1 = i := by omega
            have := maximal_run_start_high ed level _ _ h2
            rw [hpi, hlo] at this
            cases this

/-- The islands of `find_islands_5_consec`: exactly the maximal runs of length at
least 5, each before the next. -/
theorem find_islands_spec (ed : List EventDetection_Event_Entry) (level : ℚ) :
    (∀ p : Nat × Nat, p ∈ find_islands_5_consec ed level
      ↔ (maximal_run ed level p.1 p.2 ∧ 5 ≤ p.2 - p.1)) ∧
    (find_islands_5_consec ed level).Pairwise (fun p q => p.2 < q.1) := by
  obtain ⟨L, hL, hiff, hpw⟩ := loop_spec ed level ed.length 0 [] (by omega) (Or.inl rfl)
  unfold find_islands_5_consec
  rw [hL, List.nil_append]
  refine ⟨fun p => ?_, hpw⟩
  rw [hiff]
  exact ⟨fun h => ⟨h.2.1, h.2.2⟩, fun h => ⟨Nat.zero_le _, h.1, h.2⟩⟩

/-- C20.  For every raw event array (of fewer than `2^32 - 1` events, so that the
`unsigned` counters do not wrap) and abasic level: a range `[i, j)` is in the list of
`find_islands_5_consec` if and only if it is a maximal run of events with
`mean >= abasic_level` and `j - i >= 5`; the list is in increasing order with each
range ending before the next starts; and for every range of the list the events
inside are at or above the level and the events at `i - 1` and `j`, when they exist,
are below it. -/
theorem C20_islands_are_the_maximal_runs (ed : List EventDetection_Event_Entry) (level : ℚ)
    (hn : ed.length < 4294967295) :
    (∀ p : Nat × Nat, p ∈ find_islands_5_consec ed level
      ↔ (maximal_run ed level p.1 p.2 ∧ 5 ≤ p.2 - p.1)) ∧
    (find_islands_5_consec ed level).Pairwise (fun p q => p.2 < q.1) ∧
    (∀ p ∈ find_islands_5_consec ed level,
      p.1 + 5 ≤ p.2 ∧ p.2 ≤ ed.length ∧ p.2 < 4294967295 ∧
      (∀ k, p.1 ≤ k → k < p.2 → ∃ e, ed[k]? = some e ∧ e.mean ≥ level) ∧
      (0 < p.1 → ∃ e, ed[p.1 - 1]? = some e ∧ e.mean < level) ∧
      (p.2 < ed.length → ∃ e, ed[p.2]? = some e ∧ e.mean < level)) := by
  obtain ⟨hiff, hpw⟩ := find_islands_spec ed level
  refine ⟨hiff, hpw, fun p hp => ?_⟩
  obtain ⟨⟨h1, h2, h3, h4⟩, h5⟩ := (hiff p).mp hp
  have hlast := high_at_lt ed level (p.2 - 1) (h2 (p.2 - 1) (by omega) (by omega))
  refine ⟨by omega, by omega, by omega, fun k hk1 hk2 => high_at_true ed level k (h2 k hk2 hk1),
    fun h0 => ?_, fun hlt => high_at_false ed level p.2 hlt h4⟩
  rcases h3 with h3 | h3
  · omega
  · exact high_at_false ed level (p.1 - 1) (by omega) h3

/-- Witness of C20: a read of 21 events whose events 8 to 12 are at the level 100;
the only island is `[8, 13)`. -/
theorem C20_islands_are_the_maximal_runs_witness :
    (block_read 8 5 8).length < 4294967295 ∧
    find_islands_5_consec (block_read 8 5 8) 100 = [(8, 13)] ∧
    maximal_run (block_read 8 5 8) 100 8 13 := by
  have hlen : (block_read 8 5 8).length < 4294967295 := by
    rw [block_read_length]
    decide
  have hfind := find_islands_block 8 5 8 (by decide)
  have hmem : ((8, 13) : Nat × Nat) ∈ find_islands_5_consec (block_read 8 5 8) 100 := by
    rw [hfind]
    exact List.mem_singleton.mpr rfl
  exact ⟨hlen, hfind,
    (((C20_islands_are_the_maximal_runs (block_read 8 5 8) 100 hlen).1 (8, 13)).mp hmem).1⟩

/-! ## C19: the merge pass -/

theorem merge_step_zipper (radius : Nat) (pre : List (Nat × Nat)) (cur : Nat × Nat)
    (rest : List (Nat × Nat)) :
    merge_islands.step radius (pre.length + 1) (pre ++ cur :: rest) =
      (match rest with
        | [] => none
        | b :: rest2 =>
          if u32 (cur.2 + radius) ≥ b.1 then some (1, pre ++ (cur.1, b.2) :: rest2)
          else some (pre.length + 2, pre ++ cur :: b :: rest2)) := by
  unfold merge_islands.step
  have h1 : (pre ++ cur :: rest)[pre.length + 1 - 1]? = some cur := by
    rw [Nat.add_sub_cancel, List.getElem?_append_right (Nat.le_refl _)]
    simp
  rw [h1]
  cases rest with
  | nil =>
    have h2 : (pre ++ [cur])[pre.length + 1]? = none := by
      simp
    rw [h2]
  | cons b rest2 =>
    have h2 : (pre ++ cur :: b :: rest2)[pre.length + 1]? = some b := by
      rw [List.getElem?_append_right (by omega)]
      simp
    rw [h2]
    simp only []
    by_cases hm : u32 (cur.2 + radius) ≥ b.1
    · rw [if_pos hm, if_pos hm]
      congr 2
      simp [List.set_append, List.eraseIdx_append_of_length_le]
    · rw [if_neg hm, if_neg hm]

theorem join_from_skip (radius : Nat) :
    ∀ (ps : List (Nat × Nat)) (p cur : Nat × Nat) (rest : List (Nat × Nat)),
      (p :: ps ++ [cur]).Chain' (fun a b => radius < b.1 - a.2) →
      join_from radius p (ps ++ cur :: rest) = p :: ps ++ join_from radius cur rest := by
  intro ps
  induction ps with
  | nil =>
    intro p cur rest h
    have hpc : radius < cur.1 - p.2 := by
      simpa using h
    simp only [List.nil_append, join_from]
    rw [if_neg (by omega)]
    rfl
  | cons q qs ih =>
    intro p cur rest h
    have hpq : radius < q.1 - p.2 := (List.chain'_cons.mp h).1
    have hrest : (q :: qs ++ [cur]).Chain' (fun a b => radius < b.1 - a.2) :=
      (List.chain'_cons.mp h).2
    rw [List.cons_append, join_from, if_neg (by omega), ih q cur rest hrest]
    rfl

theorem join_groups_skip (radius : Nat) (pre : List (Nat × Nat)) (cur : Nat × Nat)
    (rest : List (Nat × Nat))
    (h : (pre ++ [cur]).Chain' (fun a b => radius < b.1 - a.2)) :
    join_groups radius (pre ++ cur :: rest) = pre ++ join_from radius cur rest := by
  cases pre with
  | nil => rfl
  | cons p ps => exact join_from_skip radius ps p cur rest h

/-- The merge loop at index `pre.length + 1`, when no two neighbours up to that index
can be merged and the fuel covers the rounds left. -/
theorem merge_loop_zipper (radius : Nat) :
    ∀ (fuel n : Nat) (pre : List (Nat × Nat)) (cur : Nat × Nat) (rest : List (Nat × Nat)),
      n = pre.length + 1 + rest.length → n * n ≤ fuel + pre.length + 1 →
      (∀ p ∈ pre ++ cur :: rest, p.2 + radius < 4294967296) →
      (pre ++ [cur]).Chain' (fun a b => radius < b.1 - a.2) →
      merge_islands.loop radius fuel (pre.length + 1) (pre ++ cur :: rest)
        = pre ++ join_from radius cur rest := by
  intro fuel
  induction fuel with
  | zero =>
    intro n pre cur rest hn hfuel _ _
    have hn1 : n ≤ 1 := by
      by_contra hgt
      have := Nat.mul_le_mul_right n (show 2 ≤ n by omega)
      omega
    have hpre : pre = [] := List.length_eq_zero.mp (by omega)
    have hrest : rest = [] := List.length_eq_zero.mp (by omega)
    rw [hpre, hrest]
    rfl
  | succ fuel ih =>
    intro n pre cur rest hn hfuel hno hchain
    simp only [merge_islands.loop]
    rw [merge_step_zipper]
    cases rest with
    | nil => rfl
    | cons b rest2 =>
      simp only []
      have hcur : cur.2 + radius < 4294967296 :=
        hno cur (List.mem_append_right _ (List.mem_cons_self _ _))
      have hb : b.2 + radius < 4294967296 :=
        hno b (List.mem_append_right _ (List.mem_cons_of_mem _ (List.mem_cons_self _ _)))
      rw [u32_of_lt _ hcur]
      by_cases hm : cur.2 + radius ≥ b.1
      · rw [if_pos hm]
        simp only []
        have hchain2 : (pre ++ [(cur.1, b.2)]).Chain' (fun a b => radius < b.1 - a.2) := by
          rw [List.chain'_append] at hchain ⊢
          refine ⟨hchain.1, List.chain'_singleton _, fun x hx y hy => ?_⟩
          have := hchain.2.2 x hx cur (by simp)
          simp only [List.head?_cons, Option.mem_def, Option.some.injEq] at hy
          rw [← hy]
          exact this
        have hno2 : ∀ p ∈ pre ++ (cur.1, b.2) :: rest2, p.2 + radius < 4294967296 := by
          intro p hp
          rcases List.mem_append.mp hp with hp1 | hp2
          · exact hno p (List.mem_append_left _ hp1)
          · rcases List.mem_cons.mp hp2 with hp3 | hp4
            · rw [hp3]
              exact hb
            · exact hno p (List.mem_append_right _
                (List.mem_cons_of_mem _ (List.mem_cons_of_mem _ hp4)))
        have hjoin : join_groups radius (pre ++ (cur.1, b.2) :: rest2)
            = pre ++ join_from radius cur (b :: rest2) := by
          rw [join_groups_skip radius pre (cur.1, b.2) rest2 hchain2]
          simp only [join_from]
          rw [if_pos (by omega)]
        rw [← hjoin]
        simp only [List.length_cons] at hn
        have hsq : n * n = (n - 1) * (n - 1) + 2 * (n - 1) + 1 := by
          obtain ⟨m, hm2⟩ : ∃ m, n = m + 1 := ⟨n - 1, by omega⟩
          rw [hm2]
          simp only [Nat.add_sub_cancel]
          ring
        cases hl : pre ++ (cur.1, b.2) :: rest2 with
        | nil =>
          have := congrArg List.length hl
          simp at this
        | cons x xs =>
          have hlen : xs.length + 1 = n - 1 := by
            have := congrArg List.length hl
            simp only [List.length_append, List.length_cons] at this
            omega
          have := ih (n - 1) [] x xs (by simp only [List.length_nil]; omega)
            (by simp only [List.length_nil]; omega)
            (by rw [List.nil_append, ← hl]; exact hno2)
            (List.chain'_singleton _)
          simp only [List.length_nil, List.nil_append, Nat.zero_add] at this
          rw [this]
          rfl
      · rw [if_neg hm]
        simp only []
        have := ih n (pre ++ [cur]) b rest2
          (by simp only [List.length_append, List.length_cons, List.length_nil] at hn ⊢; omega)
          (by simp only [List.length_append, List.length_cons, List.length_nil]; omega)
          (by rw [List.append_assoc]; exact hno)
          (by
            rw [List.chain'_append]
            refine ⟨hchain, List.chain'_singleton _, fun x hx y hy => ?_⟩
            simp [List.getLast?_append] at hx
            simp only [List.head?_cons, Option.mem_def, Option.some.injEq] at hy
            rw [← hx, ← hy]
            omega)
        simp only [List.length_append, List.length_cons, List.length_nil,
          List.append_assoc, List.singleton_append] at this
        rw [this]
        simp only [join_from]
        rw [if_neg (by omega)]

/-- The merge pass of `detect_strands` returns the joined groups when no sum
`island end + radius` leaves the 32 bits. -/
theorem merge_islands_eq_join (cfg : Config) (islands : List (Nat × Nat))
    (hno : ∀ p ∈ islands, p.2 + max cfg.trim_margins_2 cfg.trim_margins_3 < 4294967296) :
    merge_islands cfg islands
      = join_groups (max cfg.trim_margins_2 cfg.trim_margins_3) islands := by
  unfold merge_islands
  cases islands with
  | nil => rfl
  | cons a rest =>
    have := merge_loop_zipper (max cfg.trim_margins_2 cfg.trim_margins_3)
      ((a :: rest).length * (a :: rest).length + 1) (a :: rest).length [] a rest
      (by simp only [List.length_cons, List.length_nil]; omega)
      (by simp only [List.length_nil]; omega) hno (List.chain'_singleton _)
    simp only [List.length_nil, List.nil_append, Nat.zero_add] at this
    exact this

theorem span_eq (g : List (Nat × Nat)) (hne : g ≠ []) :
    ∃ a c, g.head? = some a ∧ g.getLast? = some c ∧ span g = (a.1, c.2) := by
  cases g with
  | nil => exact absurd rfl hne
  | cons x xs =>
    refine ⟨x, (x :: xs).getLast (List.cons_ne_nil x xs), rfl,
      List.getLast?_eq_getLast _ (List.cons_ne_nil x xs), ?_⟩
    unfold span
    rw [List.getLast?_eq_getLast _ (List.cons_ne_nil x xs)]
    rfl

theorem span_fst (g : List (Nat × Nat)) (b : Nat × Nat) (h : g.head? = some b) :
    (span g).1 = b.1 := by
  have hne : g ≠ [] := by
    intro hnil
    rw [hnil] at h
    cases h
  obtain ⟨a, c, ha, _, hs⟩ := span_eq g hne
  rw [ha] at h
  cases h
  rw [hs]

theorem span_snd (g : List (Nat × Nat)) (b : Nat × Nat) (h : g.getLast? = some b) :
    (span g).2 = b.2 := by
  have hne : g ≠ [] := by
    intro hnil
    rw [hnil] at h
    cases h
  obtain ⟨a, c, _, hc, hs⟩ := span_eq g hne
  rw [hc] at h
  cases h
  rw [hs]

theorem span_append_singleton (g : List (Nat × Nat)) (b : Nat × Nat) (hne : g ≠ []) :
    span (g ++ [b]) = ((span g).1, b.2) := by
  obtain ⟨a, c, ha, _, hs⟩ := span_eq g hne
  obtain ⟨a2, c2, ha2, hc2, hs2⟩ := span_eq (g ++ [b]) (by simp)
  rw [List.head?_append_of_ne_nil _ hne, ha] at ha2
  rw [List.getLast?_append, List.getLast?_singleton] at hc2
  cases ha2
  simp at hc2
  rw [hs2, hs, ← hc2]

/-- The joined list comes from a division of the input into maximal groups. -/
theorem join_from_groups (radius : Nat) :
    ∀ (rest g : List (Nat × Nat)), g ≠ [] → g.Chain' (fun a b => b.1 - a.2 ≤ radius) →
      ∃ gs : List (List (Nat × Nat)),
        (∃ g2 tl, gs = (g ++ g2) :: tl) ∧ gs.flatten = g ++ rest ∧
        (∀ x ∈ gs, x ≠ [] ∧ x.Chain' (fun a b => b.1 - a.2 ≤ radius)) ∧
        gs.Chain' (fun x y => ∃ a b, x.getLast? = some a ∧ y.head? = some b ∧
          radius < b.1 - a.2) ∧
        join_from radius (span g) rest = gs.map span := by
  intro rest
  induction rest with
  | nil =>
    intro g hne hchain
    refine ⟨[g], ⟨[], [], by simp⟩, by simp, fun x hx => ?_, List.chain'_singleton _, rfl⟩
    rw [List.mem_singleton] at hx
    rw [hx]
    exact ⟨hne, hchain⟩
  | cons b rest2 ih =>
    intro g hne hchain
    obtain ⟨a, c, ha, hc, hs⟩ := span_eq g hne
    have hs2 : (span g).2 = c.2 := by rw [hs]
    by_cases hm : b.1 - (span g).2 ≤ radius
    · have hchain2 : (g ++ [b]).Chain' (fun a b => b.1 - a.2 ≤ radius) := by
        rw [List.chain'_append]
        refine ⟨hchain, List.chain'_singleton _, fun x hx y hy => ?_⟩
        rw [hc] at hx
        simp only [Option.mem_def, Option.some.injEq, List.head?_cons] at hx hy
        rw [← hx, ← hy, ← hs2]
        exact hm
      obtain ⟨gs, ⟨g2, tl, hgs⟩, hjoin, hall, hch, hmap⟩ := ih (g ++ [b]) (by simp) hchain2
      refine ⟨gs, ⟨[b] ++ g2, tl, by rw [hgs, List.append_assoc]⟩, ?_, hall, hch, ?_⟩
      · rw [hjoin, List.append_assoc]
        rfl
      · rw [join_from, if_pos hm, ← span_append_singleton g b hne, hmap]
    · obtain ⟨gs, ⟨g2, tl, hgs⟩, hjoin, hall, hch, hmap⟩ := ih [b] (by simp)
        (List.chain'_singleton _)
      refine ⟨g :: gs, ⟨[], gs, by simp⟩, ?_, fun x hx => ?_, ?_, ?_⟩
      · rw [List.flatten_cons, hjoin]
        rfl
      · rcases List.mem_cons.mp hx with hx1 | hx2
        · rw [hx1]
          exact ⟨hne, hchain⟩
        · exact hall x hx2
      · rw [hgs, List.chain'_cons]
        refine ⟨⟨c, b, hc, rfl, ?_⟩, ?_⟩
        · omega
        · rw [← hgs]
          exact hch
      · rw [join_from, if_neg hm, List.map_cons, ← hmap]
        rfl

/-- C19.  For every island list in which no sum `island end + R` leaves the 32 bits,
with `R = max(trimBeforeHairpin, trimAfterHairpin)`: the merge pass of
`detect_strands` returns the list obtained by dividing the input into groups of
consecutive islands, each with all successive gaps `next.start - previous.end` at
most `R` and with a gap above `R` between the last island of a group and the first of
the next, and joining every group into one island from the start of its first island
to the end of its last; in the output every two consecutive islands have a gap above
`R`; two islands alone are joined if and only if their gap is at most `R`. -/
theorem C19_merge_pass_joins_maximal_groups (cfg : Config) (islands : List (Nat × Nat))
    (hno : ∀ p ∈ islands, p.2 + max cfg.trim_margins_2 cfg.trim_margins_3 < 4294967296) :
    (∃ groups : List (List (Nat × Nat)),
      groups.flatten = islands ∧
      (∀ g ∈ groups, g ≠ [] ∧
        g.Chain' (fun a b => b.1 - a.2 ≤ max cfg.trim_margins_2 cfg.trim_margins_3)) ∧
      groups.Chain' (fun g h => ∃ a b, g.getLast? = some a ∧ h.head? = some b ∧
        max cfg.trim_margins_2 cfg.trim_margins_3 < b.1 - a.2) ∧
      merge_islands cfg islands = groups.map span) ∧
    merge_islands cfg islands
      = join_groups (max cfg.trim_margins_2 cfg.trim_margins_3) islands ∧
    (merge_islands cfg islands).Chain'
      (fun a b => max cfg.trim_margins_2 cfg.trim_margins_3 < b.1 - a.2) ∧
    (∀ a b : Nat × Nat, islands = [a, b] →
      merge_islands cfg islands
        = if b.1 - a.2 ≤ max cfg.trim_margins_2 cfg.trim_margins_3 then [(a.1, b.2)]
          else [a, b]) := by
  have hmerge := merge_islands_eq_join cfg islands hno
  have hgroups : ∃ groups : List (List (Nat × Nat)),
      groups.flatten = islands ∧
      (∀ g ∈ groups, g ≠ [] ∧
        g.Chain' (fun a b => b.1 - a.2 ≤ max cfg.trim_margins_2 cfg.trim_margins_3)) ∧
      groups.Chain' (fun g h => ∃ a b, g.getLast? = some a ∧ h.head? = some b ∧
        max cfg.trim_margins_2 cfg.trim_margins_3 < b.1 - a.2) ∧
      merge_islands cfg islands = groups.map span := by
    cases islands with
    | nil =>
      refine ⟨[], rfl, ?_, List.chain'_nil, ?_⟩
      · intro g hg
        cases hg
      · rw [hmerge]
        rfl
    | cons a rest =>
      obtain ⟨gs, _, hjoin, hall, hch, hmap⟩ :=
        join_from_groups (max cfg.trim_margins_2 cfg.trim_margins_3) rest [a] (by simp)
          (List.chain'_singleton _)
      exact ⟨gs, hjoin, hall, hch, by rw [hmerge, ← hmap]; rfl⟩
  refine ⟨hgroups, hmerge, ?_, fun a b hab => ?_⟩
  · obtain ⟨gs, _, _, hch, hmap⟩ := hgroups
    rw [hmap, List.chain'_map]
    refine hch.imp (fun x y hxy => ?_)
    obtain ⟨a, b, ha, hb, hab⟩ := hxy
    rw [span_fst y b hb, span_snd x a ha]
    exact hab
  · rw [hmerge, hab]
    by_cases hm : b.1 - a.2 ≤ max cfg.trim_margins_2 cfg.trim_margins_3
    · simp only [join_groups, join_from, if_pos hm]
    · simp only [join_groups, join_from, if_neg hm]

/-- Witness of C19: with the radius 50, the islands `[0, 10)` and `[60, 70)` (gap 50)
are joined and the island `[121, 130)` (gap 51) stays apart. -/
theorem C19_merge_pass_joins_maximal_groups_witness :
    (∀ p ∈ [((0 : Nat), (10 : Nat)), (60, 70), (121, 130)],
      p.2 + max Config.initial.trim_margins_2 Config.initial.trim_margins_3 < 4294967296) ∧
    merge_islands Config.initial [(0, 10), (60, 70), (121, 130)] = [(0, 70), (121, 130)] ∧
    merge_islands Config.initial [(0, 10), (60, 70), (121, 130)]
      = join_groups (max Config.initial.trim_margins_2 Config.initial.trim_margins_3)
          [(0, 10), (60, 70), (121, 130)] :=
  ⟨by decide, by decide,
    (C19_merge_pass_joins_maximal_groups Config.initial [(0, 10), (60, 70), (121, 130)]
      (by decide)).2.1⟩

/-! ## C17: `load_events` after `drop_events` -/

theorem load_events_drop (cfg : Config) (f : Fast5_File) (s : Fast5_Summary) :
    load_events cfg f (drop_events s) = load_events cfg f s := by
  unfold load_events
  rfl

/-- The method `load_events` on an object that has to load its raw events from the
signal source. -/
theorem load_events_uncached (cfg : Config) (f : Fast5_File) (s : Fast5_Summary)
    (hvalid : s.valid = true) (hnum : s.num_ed_events ≠ 0) (hed : s.ed_events_ptr = none) :
    load_events cfg f s =
      (if f.open_ok then
        match f.eventdetection_events with
        | none => Outcome.thrown
        | some evs =>
          match load_events.strand s (resize evs s.num_ed_events) 0,
              load_events.strand s (resize evs s.num_ed_events) 1 with
          | some e0, some e1 => Outcome.returned { s with events_ptr := (some e0, some e1) }
          | _, _ => Outcome.undefined
      else Outcome.thrown) := by
  have hdn : (drop_events s).num_ed_events = s.num_ed_events := rfl
  have hde : (drop_events s).ed_events_ptr = none := hed
  unfold load_events
  rw [if_neg (by rw [hvalid]; decide)]
  simp only [hdn, hnum, hde, if_false, Option.isNone_none, if_true]
  cases ho : f.open_ok with
  | false => rfl
  | true =>
    simp only [if_true]
    unfold load_ed_events
    cases hev : f.eventdetection_events with
    | none => rfl
    | some evs =>
      simp only [hdn, hnum, if_false]
      have hs0 : load_events.strand
          { drop_events s with
            ed_events_ptr := some (resize evs s.num_ed_events)
            num_ed_events := s.num_ed_events } (resize evs s.num_ed_events) 0
          = load_events.strand s (resize evs s.num_ed_events) 0 := rfl
      have hs1 : load_events.strand
          { drop_events s with
            ed_events_ptr := some (resize evs s.num_ed_events)
            num_ed_events := s.num_ed_events } (resize evs s.num_ed_events) 1
          = load_events.strand s (resize evs s.num_ed_events) 1 := rfl
      rw [hs0, hs1]
      cases load_events.strand s (resize evs s.num_ed_events) 0 with
      | none => rfl
      | some e0 =>
        cases load_events.strand s (resize evs s.num_ed_events) 1 with
        | none => rfl
        | some e1 =>
          simp only []
          congr 1
          cases s
          simp only [drop_events] at hed ⊢
          simp only [Fast5_Summary.mk.injEq, true_and, and_true]
          exact hed.symm

/-- What a return of `load_events` leaves unchanged: every member except the two
calibrated sequences. -/
theorem load_events_frame (cfg : Config) (f : Fast5_File) (s s3 : Fast5_Summary)
    (h : load_events cfg f s = Outcome.returned s3) :
    drop_events s3 = drop_events s ∧
    (s.num_ed_events = 0 → s3.events_ptr = (none, none)) ∧
    (s.num_ed_events ≠ 0 → ∃ e0 e1, s3.events_ptr = (some e0, some e1)) := by
  have hv : s.valid = true := by
    cases hval : s.valid with
    | true => rfl
    | false =>
      unfold load_events at h
      rw [if_pos hval] at h
      cases h
  by_cases hn : s.num_ed_events = 0
  · unfold load_events at h
    have hdn : (drop_events s).num_ed_events = s.num_ed_events := rfl
    rw [if_neg (by rw [hv]; decide)] at h
    simp only [hdn, hn, if_true] at h
    cases h
    exact ⟨rfl, fun _ => rfl, fun h0 => absurd hn h0⟩
  · cases hed : s.ed_events_ptr with
    | none =>
      rw [load_events_uncached cfg f s hv hn hed] at h
      cases ho : f.open_ok with
      | false => rw [ho] at h; cases h
      | true =>
        rw [ho] at h
        simp only [if_true] at h
        cases hev : f.eventdetection_events with
        | none => rw [hev] at h; cases h
        | some evs =>
          rw [hev] at h
          simp only [] at h
          cases h0 : load_events.strand s (resize evs s.num_ed_events) 0 with
          | none => rw [h0] at h; cases h
          | some e0 =>
            cases h1 : load_events.strand s (resize evs s.num_ed_events) 1 with
            | none => rw [h0, h1] at h; cases h
            | some e1 =>
              rw [h0, h1] at h
              cases h
              exact ⟨rfl, fun h0 => absurd h0 hn, fun _ => ⟨e0, e1, rfl⟩⟩
    | some ed =>
      unfold load_events at h
      have hdn : (drop_events s).num_ed_events = s.num_ed_events := rfl
      have hde : (drop_events s).ed_events_ptr = some ed := hed
      have hs0 : load_events.strand (drop_events s) ed 0 = load_events.strand s ed 0 := rfl
      have hs1 : load_events.strand (drop_events s) ed 1 = load_events.strand s ed 1 := rfl
      rw [if_neg (by rw [hv]; decide)] at h
      simp only [hdn, hn, hde, if_false, Option.isNone_some, Bool.false_eq_true, hs0, hs1] at h
      cases h0 : load_events.strand s ed 0 with
      | none => rw [h0] at h; cases h
      | some e0 =>
        cases h1 : load_events.strand s ed 1 with
        | none => rw [h0, h1] at h; cases h
        | some e1 =>
          rw [h0, h1] at h
          cases h
          refine ⟨?_, fun h0 => absurd h0 hn, fun _ => ⟨e0, e1, rfl⟩⟩
          rw [← hed]
          rfl

/-- C17.  For every accepted read (a return of `summarize` with `num_ed_events > 0`)
and an unchanged signal source: `load_events` returns with both calibrated sequences
loaded and every other member unchanged, and `load_events; drop_events; load_events`
leaves exactly the state of the single `load_events`; in any state, a `load_events`
that returns is reproduced by `drop_events; load_events`; `drop_events` after
`drop_events` changes nothing and leaves both sequences unloaded; and with
`num_ed_events == 0` (and `valid`) `load_events` returns with both sequences
unloaded. -/
theorem C17_load_events_idempotent (cfg : Config) (env : Externals) (fn : String)
    (models : Pore_Model_Dict) (sst : Bool) (f : Fast5_File) (self s2 : Fast5_Summary)
    (hsum : summarize cfg env fn models sst f self = Outcome.returned s2)
    (hpos : 0 < s2.num_ed_events) :
    (∃ e0 e1 : List Event,
      load_events cfg f s2 = Outcome.returned { s2 with events_ptr := (some e0, some e1) } ∧
      load_events cfg f (drop_events { s2 with events_ptr := (some e0, some e1) })
        = Outcome.returned { s2 with events_ptr := (some e0, some e1) }) ∧
    (∀ s s3 : Fast5_Summary, load_events cfg f s = Outcome.returned s3 →
      load_events cfg f (drop_events s3) = Outcome.returned s3) ∧
    (∀ s : Fast5_Summary, drop_events (drop_events s) = drop_events s ∧
      (drop_events s).events_ptr = (none, none)) ∧
    (∀ s : Fast5_Summary, s.valid = true → s.num_ed_events = 0 →
      load_events cfg f s = Outcome.returned (drop_events s) ∧
      (drop_events s).events_ptr = (none, none)) := by
  refine ⟨?_, fun s s3 h => ?_, fun s => ⟨rfl, rfl⟩, fun s hv hn => ⟨?_, rfl⟩⟩
  · obtain ⟨evs, e0, e1, run⟩ := summarize_accepted cfg env fn models sst f self s2 hsum hpos
    have hload : load_events cfg f s2
        = Outcome.returned { s2 with events_ptr := (some e0, some e1) } := by
      rw [load_events_uncached cfg f s2 run.valid_set run.num_pos run.buffers_dropped.2,
        run.file_open, run.events_value]
      simp only [if_true, run.strand_0, run.strand_1]
    refine ⟨e0, e1, hload, ?_⟩
    rw [load_events_drop]
    exact (load_events_drop cfg f s2).symm.trans ((load_events_drop cfg f s2).trans hload)
  · rw [(load_events_frame cfg f s s3 h).1, load_events_drop]
    exact h
  · have hdn : (drop_events s).num_ed_events = s.num_ed_events := rfl
    unfold load_events
    rw [if_neg (by rw [hv]; decide)]
    simp only [hdn, hn, if_true]

/-- Witness of C17: a read of 21 events with a hairpin at `[8, 13)` and margins of one
event; `summarize` accepts it and `load_events` then loads both sequences. -/
theorem C17_load_events_idempotent_witness :
    ∃ s2 : Fast5_Summary,
      summarize small_config test_env "a/b/read1.fast5" test_models false
        (good_file two_level_read []) Fast5_Summary.fresh = Outcome.returned s2 ∧
      0 < s2.num_ed_events ∧
      ∃ e0 e1 : List Event,
        load_events small_config (good_file two_level_read []) s2
          = Outcome.returned { s2 with events_ptr := (some e0, some e1) } ∧
        load_events small_config (good_file two_level_read [])
            (drop_events { s2 with events_ptr := (some e0, some e1) })
          = Outcome.returned { s2 with events_ptr := (some e0, some e1) } := by
  have hfact : (summarize small_config test_env "a/b/read1.fast5" test_models false
      (good_file two_level_read []) Fast5_Summary.fresh).state?.map
        (fun s => s.num_ed_events) = some 21 := by decide!
  cases hsum : summarize small_config test_env "a/b/read1.fast5" test_models false
      (good_file two_level_read []) Fast5_Summary.fresh with
  | returned s2 =>
    rw [hsum] at hfact
    have hnum : s2.num_ed_events = 21 := by
      simpa [Outcome.state?] using hfact
    have hpos : 0 < s2.num_ed_events := by omega
    exact ⟨s2, rfl, hpos,
      (C17_load_events_idempotent small_config test_env "a/b/read1.fast5" test_models false
        (good_file two_level_read []) Fast5_Summary.fresh s2 hsum hpos).1⟩
  | thrown => rw [hsum] at hfact; cases hfact
  | exited => rw [hsum] at hfact; cases hfact
  | undefined => rw [hsum] at hfact; cases hfact

/-! ## C11: strands with too few calibrated events -/

/-- C11, evaluated on a read of 21 events with the hairpin `[8, 13)`, margins of one
event, `min_ed_events = 2` and joint scaling requested, whose complement events all
have deviation 5: the read is accepted with the bounds `(1, 7, 9, 20)`, both ranges
are at least 2 wide and `scale_strands_together` is set; the complement has no
calibrated event and `time_length[1]` stays 0, yet `pm_params_m` has the key
`("t", "c")`, with the non-empty model name `c` in the slot of the complement. -/
theorem C11_joint_scaling_ignores_calibrated_count :
    small_config.min_ed_events = 2 ∧
    (summarize small_config test_env "a/b/read1.fast5" test_models true
      (good_file noisy_tail_read []) Fast5_Summary.fresh).state?.map
        (fun s => (s.num_ed_events, s.strand_bounds, s.scale_strands_together))
      = some (21, ⟨1, 7, 9, 20⟩, true) ∧
    (load_events.strand (Fast5_Summary.loaded noisy_tail_read ⟨1, 7, 9, 20⟩ true)
      noisy_tail_read 0).map List.length = some 6 ∧
    load_events.strand (Fast5_Summary.loaded noisy_tail_read ⟨1, 7, 9, 20⟩ true)
      noisy_tail_read 1 = some [] ∧
    (summarize small_config test_env "a/b/read1.fast5" test_models true
      (good_file noisy_tail_read []) Fast5_Summary.fresh).state?.map
        (fun s => s.time_length.2) = some 0 ∧
    (summarize small_config test_env "a/b/read1.fast5" test_models true
      (good_file noisy_tail_read []) Fast5_Summary.fresh).state?.map
        (fun s => (map_find s.pm_params_m ("t", "c")).isSome) = some true := by
  refine ⟨by decide, by decide!, by decide!, by decide!, by decide!, by decide!⟩

/-! ## C18: the table -/

theorem header_columns_length (w : Tsv_Writers) : (header_columns w).length = 26 := rfl

/-- C23.  For a non-empty list of `N` raw events and `0 ≤ topPercent ≤ 100`, in exact
arithmetic: the index `floor(N * (1 - topPercent / 100))` at which
`detect_abasic_level` reads the sorted means is below `N` if and only if
`topPercent > 0`; with `topPercent = 0` the index is `N` and the read is outside the
sorted means; with `topPercent > 0` the level is defined. -/
theorem C23_abasic_index_valid_iff_percent_positive (cfg : Config)
    (ed : List EventDetection_Event_Entry) (hne : ed ≠ [])
    (hp0 : 0 ≤ cfg.abasic_level_top_percent) (hp1 : cfg.abasic_level_top_percent ≤ 100) :
    ((Int.floor ((ed.length : ℚ) * (1 - cfg.abasic_level_top_percent / 100))).toNat < ed.length
      ↔ 0 < cfg.abasic_level_top_percent) ∧
    (cfg.abasic_level_top_percent = 0 →
      (Int.floor ((ed.length : ℚ) * (1 - cfg.abasic_level_top_percent / 100))).toNat = ed.length ∧
      detect_abasic_level cfg ed = none) ∧
    (0 < cfg.abasic_level_top_percent → detect_abasic_level cfg ed ≠ none) := by
  have hlen : 0 < ed.length := List.length_pos.mpr hne
  have hzero : cfg.abasic_level_top_percent = 0 →
      (Int.floor ((ed.length : ℚ) * (1 - cfg.abasic_level_top_percent / 100))).toNat
        = ed.length := by
    intro h0
    rw [h0]
    norm_num
  refine ⟨⟨fun hlt => ?_, fun hpos => (abasic_rank_lt _ _ hlen hpos hp1).2⟩,
    fun h0 => ⟨hzero h0, ?_⟩, fun hpos => detect_abasic_level_defined cfg ed hlen hpos hp1⟩
  · rcases lt_or_eq_of_le hp0 with hpos | heq
    · exact hpos
    · rw [hzero heq.symm] at hlt
      exact absurd hlt (Nat.lt_irrefl _)
  · have hx : ¬ ((ed.length : ℚ) * (1 - cfg.abasic_level_top_percent / 100) ≤ -1) := by
      rw [h0]
      have : (0 : ℚ) ≤ (ed.length : ℚ) := Nat.cast_nonneg _
      norm_num
      linarith
    rw [detect_abasic_level_of_sorted cfg ed
      ((ed.map (fun e => e.mean)).insertionSort (fun a b => a ≤ b))
      (List.sorted_insertionSort _ _) (List.perm_insertionSort _ _) hx, hzero h0,
      List.getElem?_eq_none (by rw [List.length_insertionSort, List.length_map])]
    rfl

/-- Witness of C23: one event and the initial setting `topPercent = 1`. -/
theorem C23_abasic_index_valid_iff_percent_positive_witness :
    [ev_at 50 0] ≠ [] ∧ 0 ≤ Config.initial.abasic_level_top_percent ∧
    Config.initial.abasic_level_top_percent ≤ 100 ∧
    ((Int.floor ((([ev_at 50 0] : List EventDetection_Event_Entry).length : ℚ)
        * (1 - Config.initial.abasic_level_top_percent / 100))).toNat
        < ([ev_at 50 0] : List EventDetection_Event_Entry).length
      ↔ 0 < Config.initial.abasic_level_top_percent) :=
  ⟨List.cons_ne_nil _ _, by decide!, by decide!,
    (C23_abasic_index_valid_iff_percent_positive Config.initial [ev_at 50 0]
      (List.cons_ne_nil _ _) (by decide!) (by decide!)).1⟩

/-! ## C24: the file name -/

theorem u64_sub_wrap (n : Nat) (h : n < 6) : u64_sub n 6 = 18446744073709551610 + n := by
  unfold u64_sub
  have h1 : n % 18446744073709551616 = n := Nat.mod_eq_of_lt (by omega)
  rw [h1]
  have h2 : n + 18446744073709551616 - 6 % 18446744073709551616 = 18446744073709551610 + n := by
    omega
  rw [h2]
  exact Nat.mod_eq_of_lt (by omega)

/-- The call `base_file_name.substr(base_file_name.size() - 6)` throws for every name
of fewer than 6 characters: the `size_t` difference wraps above the size. -/
theorem substr_short_throws (base : List Char) (hlen : base.length < 6) :
    substr base (u64_sub base.length 6) = none := by
  unfold substr
  rw [u64_sub_wrap _ hlen]
  exact if_pos (by omega)

/-- C24, evaluated on file names whose last component has fewer than 6 characters:
`base_file_name.size() - 6` wraps, `substr` throws `std::out_of_range` outside the
`try` block, and the exception leaves `summarize` before the signal source is opened.
This is so for the names `a/b/r1` and `r1.f5`, and the call of `substr` throws for
every base name shorter than 6 characters; the names `a/b/read1.fast5` and
`a/b/read01` give `read1` and `read01`. -/
theorem C24_short_file_name_throws (cfg : Config) (env : Externals)
    (models : Pore_Model_Dict) (sst : Bool) (f : Fast5_File) (self : Fast5_Summary) :
    summarize.base_file_name "a/b/r1" = none ∧
    summarize cfg env "a/b/r1" models sst f self = Outcome.thrown ∧
    summarize cfg env "r1.f5" models sst f self = Outcome.thrown ∧
    (∀ base : List Char, base.length < 6 → substr base (u64_sub base.length 6) = none) ∧
    summarize.base_file_name "a/b/read1.fast5" = some "read1" ∧
    summarize.base_file_name "a/b/read01" = some "read01" := by
  have h1 : summarize.base_file_name "a/b/r1" = none := by decide!
  have h2 : summarize.base_file_name "r1.f5" = none := by decide!
  refine ⟨h1, ?_, ?_, substr_short_throws, by decide!, by decide!⟩
  · unfold summarize
    rw [h1]
  · unfold summarize
    rw [h2]


/-! ## C25: the allocation of the basecall group tag -/

theorem range'_find (p : Nat → Bool) :
    ∀ (n s : Nat),
      (∀ i, (List.range' s n).find? p = some i →
        s ≤ i ∧ i < s + n ∧ p i = true ∧ ∀ j, s ≤ j → j < i → p j = false) ∧
      ((List.range' s n).find? p = none → ∀ j, s ≤ j → j < s + n → p j = false) := by
  intro n
  induction n with
  | zero =>
    intro s
    refine ⟨fun i h => ?_, fun _ j h1 h2 => absurd h2 (by omega)⟩
    simp at h
  | succ n ih =>
    intro s
    obtain ⟨ih1, ih2⟩ := ih (s + 1)
    rw [List.range'_succ, List.find?_cons]
    cases hp : p s with
    | true =>
      refine ⟨fun i h => ?_, fun h => by cases h⟩
      simp only [Option.some.injEq] at h
      rw [← h]
      exact ⟨Nat.le_refl _, by omega, hp, fun j h1 h2 => absurd h2 (by omega)⟩
    | false =>
      refine ⟨fun i h => ?_, fun h j h1 h2 => ?_⟩
      · obtain ⟨a, b, c, d⟩ := ih1 i h
        refine ⟨by omega, by omega, c, fun j h1 h2 => ?_⟩
        by_cases hj : j = s
        · rw [hj]
          exact hp
        · exact d j (by omega) h2
      · by_cases hj : j = s
        · rw [hj]
          exact hp
        · exact ih2 h j (by omega) (by omega)

/-- A non-empty tag is in `used_tags` exactly when the file has the group named by
the constant followed by the tag. -/
theorem used_tags_mem (l : List String) (t : String) (ht : 0 < t.length) :
    t ∈ summarize.used_tags l ↔ bc_grp_prefix_str ++ t ∈ l := by
  unfold summarize.used_tags
  rw [List.mem_filterMap]
  constructor
  · rintro ⟨g, hg, heq⟩
    by_cases h1 : g.length ≤ bc_grp_prefix_str.length
    · rw [if_pos h1] at heq
      cases heq
    · rw [if_neg h1] at heq
      by_cases h2 : bc_grp_prefix_str.data.isPrefixOf g.data = true
      · rw [if_pos h2] at heq
        simp only [Option.some.injEq] at heq
        obtain ⟨r, hr⟩ := List.isPrefixOf_iff_prefix.mp h2
        have hdrop : List.drop bc_grp_prefix_str.length g.data = r := by
          rw [← hr]
          exact List.drop_left' rfl
        have hg2 : g = bc_grp_prefix_str ++ t := by
          apply String.ext
          rw [String.data_append, ← heq, hdrop, hr]
        rw [← hg2]
        exact hg
      · rw [if_neg h2] at heq
        cases heq
  · intro h
    exact ⟨_, h, used_tags_step t ht⟩

/-- The result of the search for a free tag, in terms of the group names. -/
theorem find_free_tag (l : List String) :
    (∀ i, (List.range 1000).find? (fun i => decide (format_tag i ∉ summarize.used_tags l))
        = some i →
      i < 1000 ∧ bc_grp_prefix_str ++ format_tag i ∉ l ∧
      ∀ j, j < i → bc_grp_prefix_str ++ format_tag j ∈ l) ∧
    ((List.range 1000).find? (fun i => decide (format_tag i ∉ summarize.used_tags l)) = none →
      ∀ j, j < 1000 → bc_grp_prefix_str ++ format_tag j ∈ l) := by
  obtain ⟨h1, h2⟩ := range'_find
    (fun i => decide (format_tag i ∉ summarize.used_tags l)) 1000 0
  rw [← List.range_eq_range'] at h1 h2
  refine ⟨fun i hi => ?_, fun hn j hj => ?_⟩
  · obtain ⟨_, hlt, hp, hmin⟩ := h1 i hi
    refine ⟨by omega, ?_, fun j hj => ?_⟩
    · rw [← used_tags_mem l _ (format_tag_length_pos i)]
      exact of_decide_eq_true hp
    · rw [← used_tags_mem l _ (format_tag_length_pos j)]
      exact not_not.mp (of_decide_eq_false (hmin j (Nat.zero_le _) hj))
  · rw [← used_tags_mem l _ (format_tag_length_pos j)]
    exact not_not.mp (of_decide_eq_false (h2 hn j (Nat.zero_le _) (by omega)))

theorem prefixed_tag_ne_empty (t : String) : bc_grp_prefix_str ++ t ≠ "" := by
  intro h
  have := congrArg String.length h
  rw [String.length_append] at this
  have h9 : bc_grp_prefix_str.length = 9 := by decide
  have h0 : "".length = 0 := by decide
  omega

/-- The text of `format_tag i` for `i < 1000`: three decimal digits. -/
theorem format_tag_digits : ∀ i, i < 1000 → format_tag i
    = String.mk [Nat.digitChar (i / 100), Nat.digitChar (i / 10 % 10), Nat.digitChar (i % 10)] := by
  decide!

/-- C25.  When `summarize` reaches the choice of `bc_grp` with an empty `bc_grp`, for
every list `l` of existing basecall group names: if some `i < 1000` has
`Nanocall_` followed by the three zero-padded decimal digits of `i` not in `l`, the
choice returns with `bc_grp` set to that name for the least such `i`; the process
ends if and only if all the 1000 names are in `l`; a `bc_grp` that is set is never an
existing group name; and the same holds for the `bc_grp` of every read that
`summarize` accepts on an object whose `bc_grp` was empty. -/
theorem C25_allocates_least_free_tag (l : List String) (self : Fast5_Summary)
    (hempty : self.bc_grp = "") :
    ((∃ i, i < 1000 ∧ bc_grp_prefix_str ++ format_tag i ∉ l) →
      ∃ i, i < 1000 ∧ bc_grp_prefix_str ++ format_tag i ∉ l ∧
        (∀ j, j < i → bc_grp_prefix_str ++ format_tag j ∈ l) ∧
        summarize.select_bc_grp l self
          = Outcome.returned { self with bc_grp := bc_grp_prefix_str ++ format_tag i }) ∧
    (summarize.select_bc_grp l self = Outcome.exited
      ↔ ∀ i, i < 1000 → bc_grp_prefix_str ++ format_tag i ∈ l) ∧
    (∀ s2, summarize.select_bc_grp l self = Outcome.returned s2 → s2.bc_grp ∉ l) ∧
    (∀ i, i < 1000 → format_tag i
      = String.mk [Nat.digitChar (i / 100), Nat.digitChar (i / 10 % 10),
          Nat.digitChar (i % 10)]) ∧
    bc_grp_prefix_str = "Nanocall_" ∧
    (∀ (cfg : Config) (env : Externals) (fn : String) (models : Pore_Model_Dict) (sst : Bool)
      (f : Fast5_File) (s2 : Fast5_Summary), f.basecall_group_list = some l →
      summarize cfg env fn models sst f self = Outcome.returned s2 → 0 < s2.num_ed_events →
      ∃ i, i < 1000 ∧ s2.bc_grp = bc_grp_prefix_str ++ format_tag i ∧ s2.bc_grp ∉ l ∧
        ∀ j, j < i → bc_grp_prefix_str ++ format_tag j ∈ l) := by
  obtain ⟨hsome, hnone⟩ := find_free_tag l
  have hrun : ∀ i, (List.range 1000).find?
      (fun i => decide (format_tag i ∉ summarize.used_tags l)) = some i →
      summarize.select_bc_grp l self
        = Outcome.returned { self with bc_grp := bc_grp_prefix_str ++ format_tag i } := by
    intro i hi
    unfold summarize.select_bc_grp
    simp only []
    rw [hi]
    simp only []
    rw [if_neg (prefixed_tag_ne_empty _)]
  have hexit : (List.range 1000).find?
      (fun i => decide (format_tag i ∉ summarize.used_tags l)) = none →
      summarize.select_bc_grp l self = Outcome.exited := by
    intro hn
    unfold summarize.select_bc_grp
    simp only []
    rw [hn]
    simp only [hempty, if_true]
  refine ⟨fun hfree => ?_, ⟨fun hex => ?_, fun hall => ?_⟩, fun s2 hs2 => ?_,
    format_tag_digits, rfl, fun cfg env fn models sst f s2 hl hsum hpos => ?_⟩
  · cases hf : (List.range 1000).find?
        (fun i => decide (format_tag i ∉ summarize.used_tags l)) with
    | none =>
      obtain ⟨i, hi, hni⟩ := hfree
      exact absurd (hnone hf i hi) hni
    | some i =>
      obtain ⟨h1, h2, h3⟩ := hsome i hf
      exact ⟨i, h1, h2, h3, hrun i hf⟩
  · exact hnone (select_bc_grp_exited l self hex).2
  · cases hf : (List.range 1000).find?
        (fun i => decide (format_tag i ∉ summarize.used_tags l)) with
    | none => exact hexit hf
    | some i => exact absurd (hall i (hsome i hf).1) (hsome i hf).2.1
  · cases hf : (List.range 1000).find?
        (fun i => decide (format_tag i ∉ summarize.used_tags l)) with
    | none =>
      rw [hexit hf] at hs2
      cases hs2
    | some i =>
      rw [hrun i hf] at hs2
      cases hs2
      exact (hsome i hf).2.1
  · obtain ⟨evs, e0, e1, run⟩ := summarize_accepted cfg env fn models sst f self s2 hsum hpos
    obtain ⟨l2, hl2, hne, hbc⟩ := run.groups
    rw [hl] at hl2
    cases hl2
    cases hf : (List.range 1000).find?
        (fun i => decide (format_tag i ∉ summarize.used_tags l)) with
    | none =>
      rw [hf] at hbc
      simp only [hempty] at hbc
      exact absurd hbc hne
    | some i =>
      rw [hf] at hbc
      simp only [] at hbc
      obtain ⟨h1, h2, h3⟩ := hsome i hf
      exact ⟨i, h1, hbc, by rw [hbc]; exact h2, h3⟩

/-- Witness of C25: with the groups `Nanocall_000` and `Nanocall_002` in the file, the
tag `001` is chosen. -/
theorem C25_allocates_least_free_tag_witness :
    Fast5_Summary.fresh.bc_grp = "" ∧
    summarize.select_bc_grp ["Nanocall_000", "Basecall_1D_000", "Nanocall_002"]
        Fast5_Summary.fresh
      = Outcome.returned { Fast5_Summary.fresh with bc_grp := "Nanocall_001" } ∧
    (∀ s2, summarize.select_bc_grp ["Nanocall_000", "Basecall_1D_000", "Nanocall_002"]
        Fast5_Summary.fresh = Outcome.returned s2 →
      s2.bc_grp ∉ ["Nanocall_000", "Basecall_1D_000", "Nanocall_002"]) :=
  ⟨rfl, by decide!,
    (C25_allocates_least_free_tag ["Nanocall_000", "Basecall_1D_000", "Nanocall_002"]
      Fast5_Summary.fresh rfl).2.2.1⟩


/-! ## The windowed island finder: counting and stepping lemmas -/

theorem high_count_self (ed : List EventDetection_Event_Entry) (level : ℚ) (a : Nat) :
    high_count ed level a a = 0 := by
  simp [high_count]

theorem high_count_succ_right (ed : List EventDetection_Event_Entry) (level : ℚ) (a b : Nat)
    (hab : a ≤ b) :
    high_count ed level a (b + 1)
      = high_count ed level a b + (if high_at ed level b = true then 1 else 0) := by
  unfold high_count
  have h1 : b + 1 - a = (b - a) + 1 := by omega
  rw [h1, List.range'_concat, List.countP_append]
  have h2 : a + 1 * (b - a) = b := by omega
  rw [h2]
  simp [List.countP_cons]

theorem high_count_succ_left (ed : List EventDetection_Event_Entry) (level : ℚ) (a b : Nat)
    (hab : a < b) :
    high_count ed level a b
      = (if high_at ed level a = true then 1 else 0) + high_count ed level (a + 1) b := by
  unfold high_count
  have h1 : b - a = (b - (a + 1)) + 1 := by omega
  rw [h1, List.range'_succ, List.countP_cons]
  omega

theorem high_count_le (ed : List EventDetection_Event_Entry) (level : ℚ) (a b : Nat) :
    high_count ed level a b ≤ b - a := by
  unfold high_count
  have h := List.countP_le_length (fun k => high_at ed level k) (l := List.range' a (b - a))
  simpa using h

theorem high_count_mono_left (ed : List EventDetection_Event_Entry) (level : ℚ) (b : Nat) :
    ∀ (n a : Nat), a + n ≤ b → high_count ed level (a + n) b ≤ high_count ed level a b := by
  intro n
  induction n with
  | zero => intro a _; exact Nat.le_refl _
  | succ n ih =>
    intro a h
    have h1 := ih (a + 1) (by omega)
    have h2 := high_count_succ_left ed level a b (by omega)
    have h3 : a + 1 + n = a + (n + 1) := by omega
    rw [h3] at h1
    omega

theorem high_count_all (ed : List EventDetection_Event_Entry) (level : ℚ) (a : Nat) :
    ∀ (n : Nat), (∀ k, a ≤ k → k < a + n → high_at ed level k = true) →
      high_count ed level a (a + n) = n := by
  intro n
  induction n with
  | zero => intro _; exact high_count_self ed level a
  | succ n ih =>
    intro h
    have h1 := ih (fun k h1 h2 => h k h1 (by omega))
    have h2 := high_count_succ_right ed level a (a + n) (by omega)
    have h3 : high_at ed level (a + n) = true := h (a + n) (by omega) (by omega)
    rw [h3] at h2
    simp only [if_true] at h2
    rw [← Nat.add_assoc, h2, h1]

theorem high_count_low (ed : List EventDetection_Event_Entry) (level : ℚ) (b : Nat) :
    ∀ (n a k : Nat), a + n = b → a ≤ k → k < b → high_at ed level k = false →
      high_count ed level a b + 1 ≤ b - a := by
  intro n
  induction n with
  | zero => intro a k h1 h2 h3 _; omega
  | succ n ih =>
    intro a k h1 h2 h3 hk
    have h4 := high_count_succ_left ed level a b (by omega)
    by_cases hak : a = k
    · subst hak
      rw [hk] at h4
      have h5 := high_count_le ed level (a + 1) b
      simp only [Bool.false_eq_true, if_false] at h4
      omega
    · have h5 := ih (a + 1) k (by omega) (by omega) h3 hk
      split at h4 <;> omega

/-- The first inner loop moves the window start to `max window_start (i + 1 - W)` and
keeps the counter equal to the number of events at high level in the window. -/
theorem trim_spec (ed : List EventDetection_Event_Entry) (level : ℚ) (W i : Nat)
    (hi : i < ed.length) (hW : 1 ≤ W) (hsize : ed.length + W < 4294967296) :
    ∀ (fuel ws : Nat), ws ≤ i → i + 1 ≤ ws + fuel →
      ∃ ws1, find_hairpin_islands.trim ed level W i fuel ws (high_count ed level ws i)
          = Scan.done (ws1, high_count ed level ws1 i) ∧
        ws ≤ ws1 ∧ ws1 ≤ i ∧ i < ws1 + W ∧ (ws1 = ws ∨ ws1 + W = i + 1) := by
  intro fuel
  induction fuel with
  | zero => intro ws h1 h2; omega
  | succ fuel ih =>
    intro ws h1 h2
    have hu : u32 (ws + W) = ws + W := u32_of_lt _ (by omega)
    by_cases hc : ws + W ≤ i
    · have hlt : ws < i := by omega
      have hget : ed[ws]? = some ed[ws] := List.getElem?_eq_getElem (by omega)
      obtain ⟨ws1, e1, e2, e3, e4, e5⟩ := ih (ws + 1) (by omega) (by omega)
      have hcnt := high_count_succ_left ed level ws i hlt
      have hhigh : high_at ed level ws = decide (ed[ws].mean ≥ level) := by
        unfold high_at
        rw [hget]
      refine ⟨ws1, ?_, by omega, e3, e4, by omega⟩
      by_cases hge : ed[ws].mean ≥ level
      · have hh : high_at ed level ws = true := by rw [hhigh]; exact decide_eq_true hge
        rw [hh] at hcnt
        simp only [if_true] at hcnt
        have hne : high_count ed level ws i ≠ 0 := by omega
        have hm : high_count ed level ws i - 1 = high_count ed level (ws + 1) i := by omega
        simp only [find_hairpin_islands.trim, hu, hc, if_true, hget, hge, hne, if_false, hm]
        exact e1
      · have hh : high_at ed level ws = false := by rw [hhigh]; exact decide_eq_false hge
        rw [hh] at hcnt
        simp only [Bool.false_eq_true, if_false, Nat.zero_add] at hcnt
        simp only [find_hairpin_islands.trim, hu, hc, if_true, hget, hge, if_false, hcnt]
        exact e1
    · refine ⟨ws, ?_, Nat.le_refl _, h1, by omega, Or.inl rfl⟩
      simp only [find_hairpin_islands.trim, hu, hc, if_false]

/-- The second inner loop moves the window start over events below the level, up to
`i` at most, and leaves the number of events at high level in the window as it is. -/
theorem skip_spec (ed : List EventDetection_Event_Entry) (level : ℚ) (i : Nat)
    (hi : i < ed.length) :
    ∀ (fuel ws : Nat), ws ≤ i → i ≤ ws + fuel →
      ∃ ws2, find_hairpin_islands.skip ed level i fuel ws = Scan.done ws2 ∧
        ws ≤ ws2 ∧ ws2 ≤ i ∧
        (∀ k, ws ≤ k → k < ws2 → high_at ed level k = false) ∧
        (ws2 < i → high_at ed level ws2 = true) ∧
        high_count ed level ws2 i = high_count ed level ws i := by
  intro fuel
  induction fuel with
  | zero =>
    intro ws h1 h2
    refine ⟨ws, rfl, Nat.le_refl _, h1, fun k h3 h4 => absurd h4 (by omega),
      fun h => absurd h (by omega), rfl⟩
  | succ fuel ih =>
    intro ws h1 h2
    by_cases hc : ws < i
    · have hget : ed[ws]? = some ed[ws] := List.getElem?_eq_getElem (by omega)
      have hhigh : high_at ed level ws = decide (ed[ws].mean ≥ level) := by
        unfold high_at
        rw [hget]
      by_cases hlow : ed[ws].mean < level
      · have hh : high_at ed level ws = false := by
          rw [hhigh]; exact decide_eq_false (not_le.mpr hlow)
        obtain ⟨ws2, e1, e2, e3, e4, e5, e6⟩ := ih (ws + 1) (by omega) (by omega)
        have hcnt := high_count_succ_left ed level ws i hc
        rw [hh] at hcnt
        simp only [Bool.false_eq_true, if_false, Nat.zero_add] at hcnt
        refine ⟨ws2, ?_, by omega, e3, ?_, e5, by rw [e6, hcnt]⟩
        · simp only [find_hairpin_islands.skip, hc, if_true, hget, hlow]
          exact e1
        · intro k h3 h4
          by_cases hk : k = ws
          · rw [hk]; exact hh
          · exact e4 k (by omega) h4
      · have hh : high_at ed level ws = true := by
          rw [hhigh]; exact decide_eq_true (not_lt.mp hlow)
        refine ⟨ws, ?_, Nat.le_refl _, h1, fun k h3 h4 => absurd h4 (by omega),
          fun _ => hh, rfl⟩
        simp only [find_hairpin_islands.skip, hc, if_true, hget, hlow, if_false]
    · refine ⟨ws, ?_, Nat.le_refl _, h1, fun k h3 h4 => absurd h4 (by omega),
        fun h => absurd h hc, rfl⟩
      simp only [find_hairpin_islands.skip, hc, if_false]

theorem hairpin_loop_end (W L : Nat) (ed : List EventDetection_Event_Entry) (level : ℚ)
    (fuel i ws wc : Nat) (acc : List (Nat × Nat)) (h : ed[i]? = none) :
    find_hairpin_islands.loop W L ed level fuel i ws wc acc = Scan.done acc := by
  cases fuel with
  | zero => rfl
  | succ fuel => simp only [find_hairpin_islands.loop, h]

theorem hairpin_loop_low (W L : Nat) (ed : List EventDetection_Event_Entry) (level : ℚ)
    (fuel i ws wc : Nat) (acc : List (Nat × Nat)) (hi : i < ed.length)
    (h : high_at ed level i = false) :
    find_hairpin_islands.loop W L ed level (fuel + 1) i ws wc acc
      = find_hairpin_islands.loop W L ed level fuel (i + 1) ws wc acc := by
  obtain ⟨e, he, hlt⟩ := high_at_false ed level i hi h
  have hge : ¬ e.mean ≥ level := not_le.mpr hlt
  simp only [find_hairpin_islands.loop, he, hge, if_false]

/-- One round of the outer loop at an event at high level: the window start moves to
the first event at high level from `max window_start (i + 1 - W)` on, and an island
is written when the window then holds `L` events at high level. -/
theorem hairpin_loop_high (W L : Nat) (ed : List EventDetection_Event_Entry) (level : ℚ)
    (fuel i ws : Nat) (acc : List (Nat × Nat)) (hhi : high_at ed level i = true)
    (hws : ws ≤ i) (hW : 1 ≤ W) (hsize : ed.length + W < 4294967296) :
    ∃ ws2, ws ≤ ws2 ∧ ws2 ≤ i ∧ i < ws2 + W ∧ high_at ed level ws2 = true ∧
      (∀ k, ws ≤ k → i + 1 ≤ k + W → k < ws2 → high_at ed level k = false) ∧
      high_count ed level ws2 (i + 1) = high_count ed level ws2 i + 1 ∧
      find_hairpin_islands.loop W L ed level (fuel + 1) i ws (high_count ed level ws i) acc
        = if high_count ed level ws2 (i + 1) ≥ L then
            find_hairpin_islands.loop W L ed level fuel (i + 1) (i + 1) 0 (acc ++ [(ws2, i)])
          else
            find_hairpin_islands.loop W L ed level fuel (i + 1) ws2
              (high_count ed level ws2 (i + 1)) acc := by
  have hi : i < ed.length := high_at_lt ed level i hhi
  obtain ⟨e, he, hge⟩ := high_at_true ed level i hhi
  obtain ⟨ws1, t1, t2, t3, t4, t5⟩ := trim_spec ed level W i hi hW hsize (i + 1) ws hws (by omega)
  obtain ⟨ws2, s1, s2, s3, s4, s5, s6⟩ := skip_spec ed level i hi (i + 1) ws1 t3 (by omega)
  have hcnt : high_count ed level ws2 (i + 1) = high_count ed level ws2 i + 1 := by
    rw [high_count_succ_right ed level ws2 i s3, hhi]
    simp
  have hu : u32 (ws2 + W) = ws2 + W := u32_of_lt _ (by omega)
  have hlt : i < ws2 + W := by omega
  refine ⟨ws2, by omega, s3, hlt, ?_, ?_, hcnt, ?_⟩
  · by_cases h : ws2 < i
    · exact s5 h
    · have : ws2 = i := by omega
      rw [this]; exact hhi
  · intro k h1 h2 h3
    exact s4 k (by omega) h3
  · simp only [find_hairpin_islands.loop, he, hge, if_true, t1, Scan.bind, s1, hu, hlt, hcnt, s6]

/-- The islands of the windowed finder from a state of the outer loop in which the
counter is the number of events at high level in the window and is below the load. -/
theorem hairpin_loop_spec (W L : Nat) (ed : List EventDetection_Event_Entry) (level : ℚ)
    (hW : 1 ≤ W) (hsize : ed.length + W < 4294967296) :
    ∀ (fuel i ws : Nat) (acc : List (Nat × Nat)), ed.length ≤ i + fuel → ws ≤ i →
      high_count ed level ws i < L →
      ∃ out : List (Nat × Nat),
        find_hairpin_islands.loop W L ed level fuel i ws (high_count ed level ws i) acc
          = Scan.done (acc ++ out) ∧
        (∀ p, p ∈ out → ws ≤ p.1 ∧ p.1 ≤ p.2 ∧ p.2 < p.1 + W ∧
          high_at ed level p.1 = true ∧ high_at ed level p.2 = true ∧
          high_count ed level p.1 (p.2 + 1) = L) ∧
        out.Pairwise (fun p q => p.2 < q.1) := by
  intro fuel
  induction fuel with
  | zero =>
    intro i ws acc h1 _ _
    refine ⟨[], ?_, fun p hp => absurd hp (List.not_mem_nil p), List.Pairwise.nil⟩
    rw [List.append_nil]
    rfl
  | succ fuel ih =>
    intro i ws acc h1 h2 h3
    by_cases hi : i < ed.length
    · cases hh : high_at ed level i with
      | false =>
        rw [hairpin_loop_low W L ed level fuel i ws _ acc hi hh]
        have hcnt : high_count ed level ws (i + 1) = high_count ed level ws i := by
          rw [high_count_succ_right ed level ws i h2, hh]
          simp
        rw [← hcnt]
        exact ih (i + 1) ws acc (by omega) (by omega) (by omega)
      | true =>
        obtain ⟨ws2, e1, e2, e3, e4, e5, e6, e7⟩ :=
          hairpin_loop_high W L ed level fuel i ws acc hh h2 hW hsize
        rw [e7]
        have hmono : high_count ed level ws2 i ≤ high_count ed level ws i := by
          have := high_count_mono_left ed level i (ws2 - ws) ws (by omega)
          have h4 : ws + (ws2 - ws) = ws2 := by omega
          rw [h4] at this
          exact this
        by_cases hc : high_count ed level ws2 (i + 1) ≥ L
        · rw [if_pos hc]
          have h0 : high_count ed level (i + 1) (i + 1) = 0 := high_count_self ed level (i + 1)
          obtain ⟨out, o1, o2, o3⟩ :=
            ih (i + 1) (i + 1) (acc ++ [(ws2, i)]) (by omega) (Nat.le_refl _) (by omega)
          rw [h0] at o1
          refine ⟨(ws2, i) :: out, ?_, ?_, ?_⟩
          · rw [o1, List.append_assoc]
            rfl
          · intro p hp
            rcases List.mem_cons.mp hp with hp | hp
            · subst hp
              refine ⟨e1, e2, e3, e4, hh, ?_⟩
              show high_count ed level ws2 (i + 1) = L
              omega
            · have := o2 p hp
              exact ⟨by omega, this.2⟩
          · refine List.Pairwise.cons ?_ o3
            intro q hq
            have := (o2 q hq).1
            show i < q.1
            omega
        · rw [if_neg hc]
          obtain ⟨out, o1, o2, o3⟩ := ih (i + 1) ws2 acc (by omega) (by omega) (by omega)
          refine ⟨out, o1, ?_, o3⟩
          intro p hp
          have := o2 p hp
          exact ⟨by omega, this.2⟩
    · refine ⟨[], ?_, fun p hp => absurd hp (List.not_mem_nil p), List.Pairwise.nil⟩
      rw [List.append_nil]
      exact hairpin_loop_end W L ed level _ i ws _ acc (List.getElem?_eq_none (by omega))

/-! ## C22: the islands of the windowed finder -/

/-- C22 fails for a window size `W` for which `window_start + W` does not fit in 32
bits.  With `W = 2^32 - 1` and `L = 1`, both values of an `unsigned` with
`1 ≤ L ≤ W`, and a read of two events at high level: the first round writes the
island `(0, 0)` and sets `window_start = 1`, `window_count = 0`; in the second round
`window_start + W` wraps to 0, the loop `while (window_start + W <= i)` is entered and
`--window_count` is applied to 0. -/
theorem C22_window_sum_wraps_and_count_underflows :
    widest_window_config.in_range ∧
    1 ≤ widest_window_config.hairpin_island_window_load ∧
    widest_window_config.hairpin_island_window_load
      ≤ widest_window_config.hairpin_island_window_size ∧
    find_hairpin_islands widest_window_config [ev_at 100 0] 100 = Scan.done [(0, 0)] ∧
    find_hairpin_islands widest_window_config [ev_at 100 0, ev_at 100 1] 100
      = Scan.count_underflow := by
  decide!

/-- C22, amended.  For a window load `L` and a window size `W` with `1 ≤ L ≤ W` and a
read of `N` events with `N + W < 2^32`, so that `window_start + W` does not wrap:
`find_hairpin_islands` runs to its end, so that `--window_count` is never applied to 0
and the assertion `i < window_start + W` holds in every round, and every island
`(a, b)` it returns has `a ≤ b < a + W`, events at or above the level at `a` and at
`b`, and exactly `L` events at or above the level among the indices `a..b`, both
included; consecutive islands satisfy `b < a'`. -/
theorem C22_windowed_islands_hold_exactly_load_events (cfg : Config)
    (ed : List EventDetection_Event_Entry) (level : ℚ)
    (hL : 1 ≤ cfg.hairpin_island_window_load)
    (hLW : cfg.hairpin_island_window_load ≤ cfg.hairpin_island_window_size)
    (hsize : ed.length + cfg.hairpin_island_window_size < 4294967296) :
    ∃ islands : List (Nat × Nat),
      find_hairpin_islands cfg ed level = Scan.done islands ∧
      (∀ p, p ∈ islands →
        p.1 ≤ p.2 ∧ p.2 < p.1 + cfg.hairpin_island_window_size ∧ p.2 < ed.length ∧
        (∃ e, ed[p.1]? = some e ∧ e.mean ≥ level) ∧
        (∃ e, ed[p.2]? = some e ∧ e.mean ≥ level) ∧
        ((List.range' p.1 (p.2 + 1 - p.1)).filter (fun k => high_at ed level k)).length
          = cfg.hairpin_island_window_load) ∧
      islands.Pairwise (fun p q => p.2 < q.1) := by
  have h0 : high_count ed level 0 0 = 0 := high_count_self ed level 0
  obtain ⟨out, o1, o2, o3⟩ :=
    hairpin_loop_spec cfg.hairpin_island_window_size cfg.hairpin_island_window_load ed level
      (by omega) hsize ed.length 0 0 [] (by omega) (Nat.le_refl _) (by omega)
  rw [h0, List.nil_append] at o1
  refine ⟨out, o1, ?_, o3⟩
  intro p hp
  obtain ⟨_, p1, p2, p3, p4, p5⟩ := o2 p hp
  refine ⟨p1, p2, high_at_lt ed level p.2 p4, high_at_true ed level p.1 p3,
    high_at_true ed level p.2 p4, ?_⟩
  rw [← p5]
  unfold high_count
  rw [List.countP_eq_length_filter]

theorem C22_windowed_islands_hold_exactly_load_events_witness :
    ∃ islands : List (Nat × Nat),
      find_hairpin_islands Config.initial (block_read 8 7 8) 100 = Scan.done islands ∧
      (∀ p, p ∈ islands →
        p.1 ≤ p.2 ∧ p.2 < p.1 + Config.initial.hairpin_island_window_size ∧
        p.2 < (block_read 8 7 8).length ∧
        (∃ e, (block_read 8 7 8)[p.1]? = some e ∧ e.mean ≥ 100) ∧
        (∃ e, (block_read 8 7 8)[p.2]? = some e ∧ e.mean ≥ 100) ∧
        ((List.range' p.1 (p.2 + 1 - p.1)).filter
          (fun k => high_at (block_read 8 7 8) 100 k)).length
          = Config.initial.hairpin_island_window_load) ∧
      islands.Pairwise (fun p q => p.2 < q.1) :=
  C22_windowed_islands_hold_exactly_load_events Config.initial (block_read 8 7 8) 100
    (by decide) (by decide) (by decide!)

/-! ## The windowed island finder with window size 5 and load 5 -/

theorem chop5_short (i j : Nat) (h : j - i < 5) : chop5 (i, j) = [] := by
  unfold chop5
  have h0 : (j - i) / 5 = 0 := Nat.div_eq_of_lt h
  show List.map _ (List.range ((j - i) / 5)) = []
  rw [h0]
  rfl

theorem chop5_cons (b m : Nat) :
    chop5 (b, b + 5 + m) = (b, b + 4) :: chop5 (b + 5, b + 5 + m) := by
  unfold chop5
  show List.map _ (List.range ((b + 5 + m - b) / 5))
    = (b, b + 4) :: List.map _ (List.range ((b + 5 + m - (b + 5)) / 5))
  have h1 : (b + 5 + m - b) / 5 = m / 5 + 1 := by omega
  have h2 : (b + 5 + m - (b + 5)) / 5 = m / 5 := by omega
  rw [h1, h2, List.range_succ_eq_map, List.map_cons, List.map_map]
  refine congrArg₂ List.cons rfl ?_
  apply List.map_congr_left
  intro k _
  show (b + 5 * (k + 1), b + 5 * (k + 1) + 4) = (b + 5 + 5 * k, b + 5 + 5 * k + 4)
  have h3 : b + 5 * (k + 1) = b + 5 + 5 * k := by omega
  rw [h3]

theorem consec_loop_append (ed : List EventDetection_Event_Entry) (level : ℚ) :
    ∀ (fuel i : Nat) (acc : List (Nat × Nat)),
      find_islands_5_consec.loop ed level fuel i acc
        = acc ++ find_islands_5_consec.loop ed level fuel i [] := by
  intro fuel
  induction fuel with
  | zero => intro i acc; simp [find_islands_5_consec.loop]
  | succ fuel ih =>
    intro i acc
    cases he : ed[i]? with
    | none => simp [find_islands_5_consec.loop, he]
    | some e =>
      by_cases hge : e.mean ≥ level
      · rw [loop_high ed level fuel i acc e he hge, loop_high ed level fuel i [] e he hge]
        by_cases hc : find_islands_5_consec.scan ed level ed.length (i + 1) - i ≥ 5
        · rw [if_pos hc, if_pos hc, ih _ (acc ++ _), ih _ ([] ++ _)]
          simp
        · rw [if_neg hc, if_neg hc]
          exact ih _ acc
      · simp only [find_islands_5_consec.loop, he, hge, if_false]
        exact ih _ acc

/-- With window size 5 and load 5, the rounds over `m` events at high level that
continue a run whose current block of five starts at `b`: the islands written are the
blocks of five of the run that are complete by then. -/
theorem hairpin_run (ed : List EventDetection_Event_Entry) (level : ℚ)
    (hsize : ed.length + 5 < 4294967296) :
    ∀ (m fuel idx b ws : Nat) (acc : List (Nat × Nat)), m ≤ fuel → b ≤ idx → idx < b + 5 →
      ws ≤ b → (ws = b ∨ (0 < b ∧ high_at ed level (b - 1) = false)) →
      high_count ed level ws idx < 5 →
      (∀ k, b ≤ k → k < idx + m → high_at ed level k = true) →
      ∃ ws2, ws2 ≤ idx + m ∧ high_count ed level ws2 (idx + m) < 5 ∧
        find_hairpin_islands.loop 5 5 ed level fuel idx ws (high_count ed level ws idx) acc
          = find_hairpin_islands.loop 5 5 ed level (fuel - m) (idx + m) ws2
              (high_count ed level ws2 (idx + m)) (acc ++ chop5 (b, idx + m)) := by
  intro m
  induction m with
  | zero =>
    intro fuel idx b ws acc _ h2 h3 h4 _ h6 _
    refine ⟨ws, by omega, h6, ?_⟩
    rw [chop5_short b (idx + 0) (by omega), List.append_nil]
    rfl
  | succ m ih =>
    intro fuel idx b ws acc h1 h2 h3 h4 h5 h6 h7
    obtain ⟨f, rfl⟩ : ∃ f, fuel = f + 1 := ⟨fuel - 1, by omega⟩
    have hhi : high_at ed level idx = true := h7 idx h2 (by omega)
    have hhb : high_at ed level b = true := h7 b (Nat.le_refl _) (by omega)
    obtain ⟨ws2, e1, e2, e3, e4, e5, e6, e7⟩ :=
      hairpin_loop_high 5 5 ed level f idx ws acc hhi (by omega) (by omega) hsize
    have hle : ws2 ≤ b := by
      by_contra hcon
      have := e5 b h4 (by omega) (by omega)
      rw [hhb] at this
      cases this
    have hf : f + 1 - (m + 1) = f - m := by omega
    have hidx : idx + 1 + m = idx + (m + 1) := by omega
    rw [e7, hf]
    by_cases hlast : idx = b + 4
    · have hws2 : ws2 = b := by omega
      have hcnt : high_count ed level b (b + 5) = 5 :=
        high_count_all ed level b 5 (fun k k1 k2 => h7 k k1 (by omega))
      have hc : high_count ed level ws2 (idx + 1) ≥ 5 := by
        rw [hws2, hlast, hcnt]
      rw [if_pos hc, hws2, hlast]
      obtain ⟨ws3, r1, r2, r3⟩ := ih f (b + 5) (b + 5) (b + 5) (acc ++ [(b, b + 4)])
        (by omega) (Nat.le_refl _) (by omega) (Nat.le_refl _) (Or.inl rfl)
        (by rw [high_count_self]; omega) (fun k k1 k2 => h7 k (by omega) (by omega))
      rw [high_count_self] at r3
      have hend : b + 4 + (m + 1) = b + 5 + m := by omega
      rw [hend]
      refine ⟨ws3, r1, r2, ?_⟩
      rw [r3, chop5_cons, List.append_assoc]
      rfl
    · have hc : ¬ high_count ed level ws2 (idx + 1) ≥ 5 := by
        by_cases hb : ws2 = b
        · have := high_count_le ed level ws2 (idx + 1)
          omega
        · have hlow : high_at ed level (b - 1) = false := by
            rcases h5 with h5 | h5
            · omega
            · exact h5.2
          have := high_count_low ed level (idx + 1) (idx + 1 - ws2) ws2 (b - 1)
            (by omega) (by omega) (by omega) hlow
          omega
      rw [if_neg hc]
      obtain ⟨ws3, r1, r2, r3⟩ := ih f (idx + 1) b ws2 acc (by omega) (by omega) (by omega)
        hle (by
          by_cases hb : ws2 = b
          · exact Or.inl hb
          · rcases h5 with h5 | h5
            · omega
            · exact Or.inr h5) (by omega) (fun k k1 k2 => h7 k k1 (by omega))
      rw [hidx] at r1 r2 r3
      exact ⟨ws3, r1, r2, r3⟩

/-- With window size 5 and load 5, the outer loop of the windowed finder from an index
where a run can start writes the blocks of five of the runs that the outer loop of
`find_islands_5_consec` writes from there. -/
theorem hairpin_consec_sync (ed : List EventDetection_Event_Entry) (level : ℚ)
    (hsize : ed.length + 5 < 4294967296) :
    ∀ (n i ws fh fc : Nat) (acc : List (Nat × Nat)), ed.length ≤ i + n → n ≤ fh → n ≤ fc →
      (i = 0 ∨ high_at ed level (i - 1) = false) → ws ≤ i →
      high_count ed level ws i < 5 →
      find_hairpin_islands.loop 5 5 ed level fh i ws (high_count ed level ws i) acc
        = Scan.done (acc ++ (find_islands_5_consec.loop ed level fc i []).flatMap chop5) := by
  intro n
  induction n using Nat.strong_induction_on with
  | _ n ih =>
    intro i ws fh fc acc h1 h2 h3 h4 h5 h6
    by_cases hi : i < ed.length
    · obtain ⟨fh, rfl⟩ : ∃ f, fh = f + 1 := ⟨fh - 1, by omega⟩
      obtain ⟨fc, rfl⟩ : ∃ f, fc = f + 1 := ⟨fc - 1, by omega⟩
      cases hh : high_at ed level i with
      | false =>
        rw [hairpin_loop_low 5 5 ed level fh i ws _ acc hi hh]
        have hcnt : high_count ed level ws (i + 1) = high_count ed level ws i := by
          rw [high_count_succ_right ed level ws i h5, hh]
          simp
        have hskip := loop_skip ed level 1 fc i [] (fun k hk => by
          have hk0 : k = 0 := by omega
          rw [hk0]
          exact high_at_false ed level i hi hh)
        rw [hskip, ← hcnt]
        exact ih (n - 1) (by omega) (i + 1) ws fh fc acc (by omega) (by omega) (by omega)
          (Or.inr hh) (by omega) (by omega)
      | true =>
        obtain ⟨s1, s2, s3⟩ := scan_spec ed level ed.length (i + 1) (by omega)
        obtain ⟨e, he, hge⟩ := high_at_true ed level i hh
        rw [loop_high ed level fc i [] e he hge, consec_loop_append, List.flatMap_append]
        generalize find_islands_5_consec.scan ed level ed.length (i + 1) = j at s1 s2 s3
        have hall : ∀ k, i ≤ k → k < j → high_at ed level k = true := by
          intro k k1 k2
          by_cases hk : k = i
          · rw [hk]; exact hh
          · exact s2 k (by omega) k2
        have hjlen : j ≤ ed.length := by
          have := high_at_lt ed level (j - 1) (hall (j - 1) (by omega) (by omega))
          omega
        have hchop : (if j - i ≥ 5 then [] ++ [(i, j)] else []).flatMap chop5 = chop5 (i, j) := by
          by_cases hc : j - i ≥ 5
          · rw [if_pos hc]
            simp
          · rw [if_neg hc, chop5_short i j (by omega)]
            rfl
        rw [hchop]
        have hij : i + (j - i) = j := by omega
        obtain ⟨ws2, r1, r2, r3⟩ := hairpin_run ed level hsize (j - i) (fh + 1) i i ws acc
          (by omega) (Nat.le_refl _) (by omega) h5 (by
            rcases h4 with h4 | h4
            · exact Or.inl (by omega)
            · by_cases h0 : i = 0
              · exact Or.inl (by omega)
              · exact Or.inr ⟨by omega, h4⟩) h6 (fun k k1 k2 => hall k k1 (by omega))
        rw [hij] at r1 r2 r3
        rw [r3, ← List.append_assoc]
        by_cases hj : j < ed.length
        · have hf : fh + 1 - (j - i) = (fh - (j - i)) + 1 := by omega
          have hcnt : high_count ed level ws2 (j + 1) = high_count ed level ws2 j := by
            rw [high_count_succ_right ed level ws2 j r1, s3]
            simp
          rw [hf, hairpin_loop_low 5 5 ed level _ j ws2 _ _ hj s3, ← hcnt]
          exact ih (n - (j - i + 1)) (by omega) (j + 1) ws2 (fh - (j - i)) fc
            (acc ++ chop5 (i, j)) (by omega) (by omega) (by omega) (Or.inr s3) (by omega)
            (by omega)
        · rw [hairpin_loop_end 5 5 ed level _ j ws2 _ _ (List.getElem?_eq_none (by omega)),
            loop_end ed level fc (j + 1) [] (List.getElem?_eq_none (by omega))]
          simp
    · rw [hairpin_loop_end 5 5 ed level fh i ws _ acc (List.getElem?_eq_none (by omega)),
        loop_end ed level fc i [] (List.getElem?_eq_none (by omega))]
      simp

/-! ## C21: window size 5 and load 5 against `find_islands_5_consec` -/

/-- C21 fails on a read of 8 events below the level, 5 at high level and 8 below: with
window size 5 and load 5 `find_hairpin_islands` returns the island `(8, 12)`, the
pair of the first and the last index of the run, where `find_islands_5_consec`
returns `(8, 13)`, the last index excluded; on a run of 12 events the first returns
two islands and the second one. -/
theorem C21_window_5_5_differs_from_consecutive_finder :
    exact_window_config.hairpin_island_window_size = 5 ∧
    exact_window_config.hairpin_island_window_load = 5 ∧
    find_islands_5_consec (block_read 8 5 8) 100 = [(8, 13)] ∧
    find_hairpin_islands exact_window_config (block_read 8 5 8) 100 = Scan.done [(8, 12)] ∧
    find_hairpin_islands exact_window_config (block_read 8 5 8) 100
      ≠ Scan.done (find_islands_5_consec (block_read 8 5 8) 100) ∧
    find_islands_5_consec (block_read 3 12 2) 100 = [(3, 15)] ∧
    find_hairpin_islands exact_window_config (block_read 3 12 2) 100
      = Scan.done [(3, 7), (8, 12)] := by
  decide!

/-- C21, amended.  With window size 5 and window load 5 (and a read short enough for
`window_start + 5` to fit in 32 bits) `find_hairpin_islands` returns, for each island
`[i, j)` of `find_islands_5_consec` in order, the `(j - i) / 5` blocks
`(i + 5 k, i + 5 k + 4)` of five events of the island, both indices included.  The
two lists are equal only when `find_islands_5_consec` finds no island. -/
theorem C21_window_5_5_chops_consecutive_islands (cfg : Config)
    (ed : List EventDetection_Event_Entry) (level : ℚ)
    (hW : cfg.hairpin_island_window_size = 5) (hL : cfg.hairpin_island_window_load = 5)
    (hsize : ed.length + 5 < 4294967296) :
    find_hairpin_islands cfg ed level
      = Scan.done ((find_islands_5_consec ed level).flatMap chop5) ∧
    (find_hairpin_islands cfg ed level = Scan.done (find_islands_5_consec ed level)
      ↔ find_islands_5_consec ed level = []) := by
  have hmain : find_hairpin_islands cfg ed level
      = Scan.done ((find_islands_5_consec ed level).flatMap chop5) := by
    have h0 : high_count ed level 0 0 = 0 := high_count_self ed level 0
    have := hairpin_consec_sync ed level hsize ed.length 0 0 ed.length ed.length []
      (by omega) (Nat.le_refl _) (Nat.le_refl _) (Or.inl rfl) (Nat.le_refl _) (by omega)
    rw [h0, List.nil_append] at this
    unfold find_hairpin_islands find_islands_5_consec
    rw [hW, hL]
    exact this
  refine ⟨hmain, ?_⟩
  rw [hmain]
  constructor
  · intro h
    have hspec := (find_islands_spec ed level).1
    cases hl : find_islands_5_consec ed level with
    | nil => rfl
    | cons p rest =>
      exfalso
      rw [hl] at h hspec
      have hp := (hspec p).mp (List.mem_cons_self p rest)
      obtain ⟨i, j⟩ := p
      have hlen : 5 ≤ j - i := hp.2
      have hij : j = i + 5 + (j - i - 5) := by omega
      have hinj : (List.flatMap ((i, j) :: rest) chop5) = (i, j) :: rest := by
        injection h
      rw [List.flatMap_cons, hij, chop5_cons, List.cons_append] at hinj
      have hhead := (List.cons.inj hinj).1
      have : i + 4 = i + 5 + (j - i - 5) := congrArg Prod.snd hhead
      omega
  · intro h
    rw [h]
    rfl

theorem C21_window_5_5_chops_consecutive_islands_witness :
    find_hairpin_islands exact_window_config (block_read 3 12 2) 100
      = Scan.done ((find_islands_5_consec (block_read 3 12 2) 100).flatMap chop5) ∧
    (find_hairpin_islands exact_window_config (block_read 3 12 2) 100
        = Scan.done (find_islands_5_consec (block_read 3 12 2) 100)
      ↔ find_islands_5_consec (block_read 3 12 2) 100 = []) :=
  C21_window_5_5_chops_consecutive_islands exact_window_config (block_read 3 12 2) 100
    (by decide) (by decide) (by decide!)

end Nanocall
